import Mathlib

/-!
# rtcl-api: saved searches, credentials and user persistence

A shallow embedding of `datastore/user.go`, `datastore/datastore.go`,
`server/middleware.go`, `server/routes.go` and `testdata/testdata.go`, and of
the functions of package `time` that `AddDate` and `time.Parse` run.

Conventions of the embedding:

* a Go `string` is a Lean `String` (a sequence of Unicode code points: the
  strings are taken to be valid UTF-8, on which Go's rune-wise functions and
  byte-wise `==` agree with their code-point versions);
* a method with a pointer receiver `(u *User)` that reaches the database
  through `u.ds` becomes a function of the collection and the user that returns
  an `Outcome`: the returned error (`none` is Go's `nil`), the receiver after
  the call and the collection after the call;
* the `users` collection is a list of documents in insertion order; the
  connection itself is taken to be reliable, so the only errors a database
  call returns are `mgo.ErrNotFound` and the duplicate-key error of `Insert`;
* what the code reads from outside the repository is a field of `Env`
  (`unicode.ToLower`, `crypto/sha256`, the `PASSWORD_SALT` variable) or an
  explicit argument (`time.Now()`, `bson.NewObjectId()`);
* a `time.Time` is its instant, in nanoseconds since the Unix epoch; the
  location that the Go value also carries is an explicit argument of the
  functions that read the date or the clock in it (`AddDate`);
* a call that panics (a failed type assertion, a nil pointer dereference)
  has no result: `none`, or the flag `panicked` of a handler.
-/

namespace Rtcl

/-! ## Values -/

/-- A `time.Time`, as nanoseconds since the Unix epoch. -/
abbrev Time := Int

/-- A Go `byte`. -/
abbrev Byte := Fin 256

/-- The 32 bytes `sha256.New().Sum(nil)` returns (`sha256.Size = 32`). -/
abbrev Digest := Mathlib.Vector Byte 32

/-- Go `error` values met in the code: `errors.New(msg)`, `mgo.ErrNotFound`,
the duplicate-key error of an insert, `errors.Wrap(err, msg)`, and the
`*time.ParseError` of `time.Parse(layout, value)`, whose other fields are
determined by the layout and the value. -/
inductive Error where
  | New (msg : String)
  | ErrNotFound
  | DuplicateKey
  | Wrap (err : Error) (msg : String)
  | ParseError (layout : String) (value : String)
deriving DecidableEq, Repr

/-- The type `bson.ObjectId`: a Go string holding raw bytes. -/
structure ObjectId where
  bytes : List Byte
deriving DecidableEq, Repr

/-- The struct `Search` of user.go. -/
structure Search where
  Created : Time
  Query : String
deriving DecidableEq, Repr

/-- The struct `User` of user.go, without the datastore handle `ds`
(the collection is passed explicitly). -/
structure User where
  ID : ObjectId
  FirstName : String
  LastName : String
  Email : String
  Password : String
  Locked : Bool
  Categories : List String
  Searches : List Search
  Notification : Time
deriving DecidableEq, Repr

/-- The `users` collection: its documents, in insertion order. -/
abbrev Collection := List User

/-- What the code takes from the Go standard library and the process
environment. -/
structure Env where
  /-- The rune map `unicode.ToLower`. -/
  toLower : Char → Char
  /-- The SHA-256 of a string: `h := sha256.New(); h.Write([]byte(s)); h.Sum(nil)`. -/
  sum256 : String → Digest
  /-- The value of `os.Getenv("PASSWORD_SALT")` (empty when unset). -/
  PASSWORD_SALT : String

/-- The result of a method call on a `*User`: the returned `error`, the
receiver after the call, the collection after the call. -/
structure Outcome where
  err : Option Error
  u : User
  db : Collection
deriving DecidableEq, Repr

/-! ## Standard-library string functions -/

/-- The function `unicode.IsSpace`: the Latin-1 cases, then the table
`White_Space`. -/
def isSpace (r : Char) : Bool :=
  let n := r.toNat
  if n ≤ 0xFF then
    n == 0x09 || n == 0x0A || n == 0x0B || n == 0x0C || n == 0x0D || n == 0x20
      || n == 0x85 || n == 0xA0
  else
    n == 0x1680 || (0x2000 ≤ n && n ≤ 0x200A) || n == 0x2028 || n == 0x2029
      || n == 0x202F || n == 0x205F || n == 0x3000

/-- The scan of `strings.FieldsFunc`: `cur` is the field being read. -/
def fieldsFrom (cur : List Char) : List Char → List String
  | [] => if cur.isEmpty then [] else [String.mk cur]
  | c :: cs =>
    if isSpace c then
      if cur.isEmpty then fieldsFrom [] cs else String.mk cur :: fieldsFrom [] cs
    else fieldsFrom (cur ++ [c]) cs

/-- The function `strings.Fields`: the maximal runs of non-space runes. -/
def Fields (s : String) : List String :=
  fieldsFrom [] s.data

/-- The function `strings.ToLower`: `unicode.ToLower` applied to every rune. -/
def ToLower (env : Env) (s : String) : String :=
  String.mk (s.data.map env.toLower)

/-- The lower-casing of `strings.ToLower` on ASCII (`'A'..'Z'` move to
`'a'..'z'`); other runes are kept. -/
def asciiToLower (c : Char) : Char :=
  if 65 ≤ c.toNat ∧ c.toNat ≤ 90 then Char.ofNat (c.toNat + 32) else c

/-! ## Hashing -/

/-- One digit of the verb `%x`. -/
def hexDigit (n : Nat) : Char :=
  if n < 10 then Char.ofNat (48 + n) else Char.ofNat (87 + n)

/-- A byte under `%x`: two lower-case hexadecimal digits. -/
def hexByte (b : Byte) : List Char :=
  [hexDigit (b.val / 16), hexDigit (b.val % 16)]

/-- The string `fmt.Sprintf("%x", bs)` of a byte slice, which is also
`hex.EncodeToString(bs)`. -/
def hexString (bs : List Byte) : String :=
  String.mk (bs.flatMap hexByte)

/-- The function `hash` of user.go (and its copy in testdata.go). -/
def hash (env : Env) (s : String) : String :=
  hexString (env.sum256 s).toList

/-- The method `ObjectId.Valid`: `len(id) == 12`. -/
def ObjectId.Valid (id : ObjectId) : Bool :=
  id.bytes.length == 12

/-- The method `ObjectId.Hex`. -/
def ObjectId.Hex (id : ObjectId) : String :=
  hexString id.bytes

/-- The method `User.hashPass`. -/
def User.hashPass (env : Env) (u : User) (password : String) : String :=
  let salt := hash env (u.ID.Hex ++ env.PASSWORD_SALT)
  hash env (password ++ salt)

/-- The function `impossiblePassword`; `clock` is `time.Now().String()`. -/
def impossiblePassword (env : Env) (clock : String) : String :=
  hash env clock

/-! ## Saved searches -/

/-- The function `matchString` of user.go. -/
def matchString (env : Env) (s1 s2 : String) : Bool :=
  let xs1 := Fields (ToLower env s1)
  let xs2 := Fields (ToLower env s2)
  xs1 == xs2

/-- The method `User.SearchExists`. -/
def User.SearchExists (env : Env) (u : User) (query : String) : Bool :=
  u.Searches.any (fun s => matchString env s.Query query)

/-! ## The collection -/

/-- Apply `f` to the first document that satisfies `p`. -/
def modifyFirst (p : User → Bool) (f : User → User) : Collection → Collection
  | [] => []
  | d :: ds => if p d then f d :: ds else d :: modifyFirst p f ds

/-- The call `Find(q).One(&u)`: the first document matching `q`, or
`mgo.ErrNotFound`. -/
def Collection.One (c : Collection) (q : User → Bool) : Except Error User :=
  match c.find? q with
  | some d => .ok d
  | none => .error .ErrNotFound

/-- The call `Update(bson.M{"_id": id}, update)`: `update` applied to the
document with that id, `mgo.ErrNotFound` when there is none. -/
def Collection.Update (c : Collection) (id : ObjectId) (update : User → User) :
    Except Error Collection :=
  if c.any (fun d => d.ID == id) then .ok (modifyFirst (fun d => d.ID == id) update c)
  else .error .ErrNotFound

/-- The call `Upsert(bson.M{"_id": id}, u)`: `u` replaces the document with
that id, or is inserted when there is none. -/
def Collection.Upsert (c : Collection) (id : ObjectId) (u : User) : Collection :=
  if c.any (fun d => d.ID == id) then modifyFirst (fun d => d.ID == id) (fun _ => u) c
  else c ++ [u]

/-- The update `{"$addToSet": {"searches": s}}`. -/
def addToSetSearches (s : Search) (d : User) : User :=
  if s ∈ d.Searches then d else { d with Searches := d.Searches ++ [s] }

/-- The update `{"$pull": {"searches": {"created": {"$lt": now}, "query": query}}}`. -/
def pullSearches (now : Time) (query : String) (d : User) : User :=
  { d with Searches := d.Searches.filter (fun s => !(decide (s.Created < now) && s.Query == query)) }

/-- The method `User.SaveSearch`; `now` is `time.Now()`. -/
def User.SaveSearch (env : Env) (now : Time) (db : Collection) (u : User) (query : String) :
    Outcome :=
  if u.SearchExists env query then
    ⟨some (.New "exact search query already exists for this user"), u, db⟩
  else
    let s : Search := { Created := now, Query := query }
    match db.Update u.ID (addToSetSearches s) with
    | .error err => ⟨some err, u, db⟩
    | .ok db1 => ⟨none, { u with Searches := u.Searches ++ [s] }, db1⟩

/-- The method `User.DeleteSearch`; `now` is `time.Now()`. -/
def User.DeleteSearch (env : Env) (now : Time) (db : Collection) (u : User) (query : String) :
    Outcome :=
  if !u.SearchExists env query then
    ⟨some (.New "cannot find the query so unable to delete it"), u, db⟩
  else
    match db.Update u.ID (pullSearches now query) with
    | .error err => ⟨some err, u, db⟩
    | .ok db1 =>
      let updatedList := u.Searches.filter (fun s => s.Query != query)
      ⟨none, { u with Searches := updatedList }, db1⟩

/-- The invariant of `Searches`: no two entries at different positions have
queries that `matchString` accepts. -/
def NoDuplicateSearches (env : Env) (l : List Search) : Prop :=
  ∀ (i j : Fin l.length), i ≠ j → matchString env (l.get i).Query (l.get j).Query = false

/-! ## Package time

The functions of package `time` that the code calls, after the Go source:
`Time.AddDate`, which takes the date and the clock of a time apart in the
time's location and puts them together again with `time.Date`, and
`time.Parse` for the layout of `SavePartial`. A Go `int`, `int64` or `uint64`
is an `Int` reduced modulo 2^64 after each operation of the source. -/

/-- The method `Time.Unix`: the whole seconds since the Unix epoch. -/
def Unix (t : Time) : Int :=
  t / 1000000000

/-- The conversion of an integer to Go's `int64` (and `int`, on a 64-bit
platform): the value modulo 2^64 in the signed range. -/
def int64 (n : Int) : Int :=
  (n + 9223372036854775808) % 18446744073709551616 - 9223372036854775808

/-- The conversion of an integer to Go's `uint64`: the value modulo 2^64. -/
def uint64 (n : Int) : Int :=
  n % 18446744073709551616

/-- The constant `absoluteZeroYear` of package `time`. -/
def absoluteZeroYear : Int := -292277022399

/-- The constant `unixToInternal + internalToAbsolute` of package `time`: the
seconds from the absolute epoch to the Unix epoch. -/
def unixToAbsolute : Int := 62135596800 + 9223371966579724800

/-- The function `isLeap` of package `time`. -/
def isLeap (year : Int) : Bool :=
  year % 4 == 0 && (year % 100 != 0 || year % 400 == 0)

/-- The table `daysBefore` of package `time`: `daysBefore m` is the number of
days in a non-leap year before month `m + 1`. -/
def daysBefore (m : Int) : Int :=
  [0, 31, 59, 90, 120, 151, 181, 212, 243, 273, 304, 334, 365].getD m.toNat 0

/-- The function `daysIn` of package `time`: the days of month `m`. -/
def daysIn (m year : Int) : Int :=
  if m = 2 ∧ isLeap year = true then 29 else daysBefore m - daysBefore (m - 1)

/-- The function `norm` of package `time`: `hi` and `lo` with `lo` brought
into the range from 0 to `base - 1`. -/
def norm (hi lo base : Int) : Int × Int :=
  let r1 : Int × Int :=
    if lo < 0 then
      let n := int64 (int64 (int64 (-lo) - 1) / base + 1)
      (int64 (hi - n), int64 (lo + int64 (n * base)))
    else (hi, lo)
  if r1.2 ≥ base then
    let n := r1.2 / base
    (int64 (r1.1 + n), int64 (r1.2 - int64 (n * base)))
  else r1

/-- What `Location.lookup(sec)` returns about the zone in use at the instant
`sec` (Unix seconds): its offset in seconds east of UTC and the interval
`start ≤ sec < stop` in which it is in use (`stop` is the `end` of the
source). -/
structure Zone where
  offset : Int
  start : Int
  stop : Int
deriving DecidableEq, Repr

/-- A `*time.Location`, as its method `lookup`. -/
structure Location where
  lookup : Int → Zone

/-- The constant `alpha` of package `time`: the beginning of time. -/
def alpha : Int := -9223372036854775808

/-- The constant `omega` of package `time`: the end of time. -/
def omega : Int := 9223372036854775807

/-- The function `time.FixedZone`: a location that always uses the given
offset. -/
def FixedZone (offset : Int) : Location :=
  ⟨fun _ => ⟨offset, alpha, omega⟩⟩

/-- The location `time.UTC`. -/
def UTC : Location :=
  FixedZone 0

/-- The method `Time.abs`: the seconds since the absolute epoch of the wall
clock of `t` in the location `loc`. -/
def abs (loc : Location) (t : Time) : Int :=
  let sec := Unix t
  let sec := int64 (sec + (loc.lookup sec).offset)
  uint64 (int64 (sec + unixToAbsolute))

/-- The years of the days `d` since the absolute epoch, in `absDate`: the
count `y` of whole years and the day `yday` within the year. -/
def absYear (d : Int) : Int × Int :=
  let n := d / 146097
  let y := 400 * n
  let d := d - 146097 * n
  let n := d / 36524
  let n := n - n / 4
  let y := y + 100 * n
  let d := d - 36524 * n
  let n := d / 1461
  let y := y + 4 * n
  let d := d - 1461 * n
  let n := d / 365
  let n := n - n / 4
  let y := y + n
  let d := d - 365 * n
  (y, d)

/-- The month and the day of the month of the day `yday` of a year, in
`absDate`; `leap` is `isLeap(year)`. -/
def absMonthDay (leap : Bool) (yday : Int) : Int × Int :=
  if leap ∧ yday = 31 + 29 - 1 then (2, 29)
  else
    let day := if leap ∧ yday > 31 + 29 - 1 then yday - 1 else yday
    let month := day / 31
    let e := daysBefore (month + 1)
    let r : Int × Int := if day ≥ e then (month + 1, e) else (month, daysBefore month)
    (r.1 + 1, day - r.2 + 1)

/-- The function `absDate(abs, true)` of package `time`: the year, the month
and the day of the month. -/
def absDate (abs : Int) : Int × Int × Int :=
  let d := abs / 86400
  let r := absYear d
  let year := int64 (int64 r.1 + absoluteZeroYear)
  let md := absMonthDay (isLeap year) r.2
  (year, md.1, md.2)

/-- The function `absClock` of package `time`: hour, minute and second. -/
def absClock (abs : Int) : Int × Int × Int :=
  let sec := abs % 86400
  let hour := sec / 3600
  let sec := sec - hour * 3600
  let min := sec / 60
  let sec := sec - min * 60
  (hour, min, sec)

/-- The days from the absolute epoch to January 1 of `year`, as `Date`
computes them. -/
def daysSinceEpoch (year : Int) : Int :=
  let y := uint64 (int64 (year - absoluteZeroYear))
  let n := y / 400
  let y := y - 400 * n
  let d := 146097 * n
  let n := y / 100
  let y := y - 100 * n
  let d := d + 36524 * n
  let n := y / 4
  let y := y - 4 * n
  let d := d + 1461 * n
  let n := y
  uint64 (d + 365 * n)

/-- The function `time.Date`, the result as nanoseconds since the Unix
epoch. -/
def Date (year month day hour min sec nsec : Int) (loc : Location) : Time :=
  let m := int64 (month - 1)
  let ym := norm year m 12
  let year := ym.1
  let month := ym.2 + 1
  let sn := norm sec nsec 1000000000
  let ms := norm min sn.1 60
  let hm := norm hour ms.1 60
  let dh := norm day hm.1 24
  let nsec := sn.2
  let sec := ms.2
  let min := hm.2
  let hour := dh.2
  let day := dh.1
  let d := daysSinceEpoch year
  let d := uint64 (d + daysBefore (month - 1))
  let d := if isLeap year ∧ month ≥ 3 then uint64 (d + 1) else d
  let d := uint64 (d + uint64 (int64 (day - 1)))
  let abs := uint64 (d * 86400)
  let abs := uint64 (abs + uint64 (int64 (hour * 3600 + min * 60 + sec)))
  let unix := int64 (int64 abs - unixToAbsolute)
  let z := loc.lookup unix
  let unix :=
    if z.offset ≠ 0 then
      let utc := int64 (unix - z.offset)
      let offset :=
        if utc < z.start then (loc.lookup (int64 (z.start - 1))).offset
        else if utc ≥ z.stop then (loc.lookup z.stop).offset
        else z.offset
      int64 (unix - offset)
    else unix
  unix * 1000000000 + nsec

/-- The function `isDigit` of package `time`, on one character. -/
def isDigit (c : Char) : Bool :=
  decide (48 ≤ c.toNat) && decide (c.toNat ≤ 57)

/-- The value of a decimal digit. -/
def digitValue (c : Char) : Int :=
  (c.toNat : Int) - 48

/-- The function `getnum(s, true)` of package `time`: the number that the
first two characters of `s` write and the rest of `s`, or `none` when they
are not two digits. -/
def getnum (s : List Char) : Option (Int × List Char) :=
  match s with
  | c0 :: c1 :: rest =>
    if isDigit c0 && isDigit c1 then some (digitValue c0 * 10 + digitValue c1, rest) else none
  | _ => none

/-- The call `time.Parse("2006-01-02", value)`. The value is read as the
layout says: a year of four digits, the character `-`, a month of two
digits, `-`, a day of two digits, and no text after them; the month is
checked to be from 1 to 12 and the day from 1 to `daysIn(month, year)`. The
layout names no zone, so the result is
`Date(year, month, day, 0, 0, 0, 0, UTC)`. Every failure is the error
`*time.ParseError` of this layout and value. -/
def Parse (value : String) : Except Error Time :=
  let bad : Except Error Time := .error (.ParseError "2006-01-02" value)
  match value.data with
  | y0 :: y1 :: y2 :: y3 :: v1 =>
    if isDigit y0 && isDigit y1 && isDigit y2 && isDigit y3 then
      let year := ((digitValue y0 * 10 + digitValue y1) * 10 + digitValue y2) * 10 + digitValue y3
      match v1 with
      | c1 :: v2 =>
        if c1 = '-' then
          match getnum v2 with
          | some (month, v3) =>
            if month ≤ 0 ∨ 12 < month then bad
            else
              match v3 with
              | c2 :: v4 =>
                if c2 = '-' then
                  match getnum v4 with
                  | some (day, []) =>
                    if day < 1 ∨ day > daysIn month year then bad
                    else .ok (Date year month day 0 0 0 0 UTC)
                  | _ => bad
                else bad
              | [] => bad
          | none => bad
        else bad
      | [] => bad
    else bad
  | _ => bad

/-! ## Users -/

/-- The call `Insert(u)`: a document whose `_id` is already in the collection
is refused. -/
def Collection.Insert (c : Collection) (u : User) : Except Error Collection :=
  if c.any (fun d => d.ID == u.ID) then .error .DuplicateKey else .ok (c ++ [u])

/-- The zero value of `User`. -/
def User.zero : User :=
  { ID := ⟨[]⟩, FirstName := "", LastName := "", Email := "", Password := "", Locked := false,
    Categories := [], Searches := [], Notification := 0 }

/-- The method `User.checkFields` (`len(s) == 0` holds of the empty string only). -/
def User.checkFields (u : User) : Option Error :=
  if u.FirstName.length == 0 then some (.New "First name is missing")
  else if u.LastName.length == 0 then some (.New "Last name is missing")
  else if u.Email.length == 0 then some (.New "Email is missing")
  else none

/-- The method `User.ByEmail`: the error, and the receiver after the call. -/
def User.ByEmail (db : Collection) (u : User) (email : String) : Option Error × User :=
  match db.One (fun d => d.Email == email) with
  | .ok d => (none, d)
  | .error err => (some err, u)

/-- The method `Datastore.UserByEmail`. -/
def Datastore.UserByEmail (db : Collection) (email : String) : Except Error User :=
  db.One (fun d => d.Email == email)

/-- The method `Datastore.UserEmailExists`. -/
def Datastore.UserEmailExists (db : Collection) (email : String) : Bool :=
  match Datastore.UserByEmail db email with
  | .ok _ => true
  | .error _ => false

/-- The method `User.Save`; `clock` is `time.Now().String()` and `fresh` is
`bson.NewObjectId()`, both read only on the new-user path. -/
def User.Save (env : Env) (clock : String) (fresh : ObjectId) (db : Collection) (u : User) :
    Outcome :=
  match u.checkFields with
  | some err => ⟨some err, u, db⟩
  | none =>
    let found := User.zero.ByEmail db u.Email
    let checkUsr := found.2
    if found.1.isNone && checkUsr.ID != u.ID then
      ⟨some (.New "Email already exists for a different user id"), u, db⟩
    else if !u.ID.Valid then
      if Datastore.UserEmailExists db u.Email then
        ⟨some (.New "User with that email already exists"), u, db⟩
      else
        let u1 := { u with ID := fresh, Locked := true }
        let u2 := if u1.Password == "" then { u1 with Password := impossiblePassword env clock }
          else u1
        let u3 := { u2 with Password := u2.hashPass env u2.Password }
        ⟨none, u3, db.Upsert u3.ID u3⟩
    else ⟨none, u, db.Upsert u.ID u⟩

/-- A value of type `interface{}` held in a `bson.M`, as `encoding/json`
decodes one: `nil`, a `bool`, a `float64` (as its 64 bits), a `string`, a
`[]interface{}` or a `map[string]interface{}`. -/
inductive Value where
  | null
  | bool (b : Bool)
  | float64 (bits : Nat)
  | string (s : String)
  | slice (xs : List Value)
  | object (fields : List (String × Value))

/-- The type `bson.M`, a `map[string]interface{}`: the value under each key,
`none` when the key is absent. -/
abbrev bson.M := String → Option Value

/-- The type assertion `v.(string)`; `none` is the run-time panic of an
assertion on a value of another type. -/
def Value.assertString (v : Value) : Option String :=
  match v with
  | .string s => some s
  | _ => none

/-- The type assertion `v.([]interface{})`; `none` is the run-time panic. -/
def Value.assertSlice (v : Value) : Option (List Value) :=
  match v with
  | .slice xs => some xs
  | _ => none

/-- The loop `for _, v := range cats` of `SavePartial`, which appends
`v.(string)` for each element: the strings in order; `none` is the panic at
the first element that is not a string. -/
def assertStrings : List Value → Option (List String)
  | [] => some []
  | v :: vs =>
    match v.assertString with
    | none => none
    | some s => (assertStrings vs).map (fun (xs : List String) => s :: xs)

/-- The string under `key` of the map, when the key is present with a
string. -/
def bson.M.str (update : bson.M) (key : String) : Option String :=
  (update key).bind Value.assertString

/-- The list of strings under `key` of the map, when the key is present with
a list of strings. -/
def bson.M.strs (update : bson.M) (key : String) : Option (List String) :=
  (update key).bind fun (v : Value) => (v.assertSlice).bind assertStrings

/-- The field assignments of `User.SavePartial` up to the notification, in
the order of the source; `none` is the panic of a failed type assertion. -/
def User.applyUpdate (env : Env) (u : User) (update : bson.M) : Option User :=
  let firstName :=
    match update "firstName" with
    | some firstName => (firstName.assertString).map (fun (s : String) => { u with FirstName := s })
    | none => some u
  firstName.bind fun (u : User) =>
  let lastName :=
    match update "lastName" with
    | some lastName => (lastName.assertString).map (fun (s : String) => { u with LastName := s })
    | none => some u
  lastName.bind fun (u : User) =>
  let email :=
    match update "email" with
    | some email => (email.assertString).map (fun (s : String) => { u with Email := s })
    | none => some u
  email.bind fun (u : User) =>
  let password :=
    match update "password" with
    | some password =>
      (password.assertString).map (fun (s : String) =>
        if s.length > 0 then { u with Password := u.hashPass env s } else u)
    | none => some u
  password.bind fun (u : User) =>
  match update "categories" with
  | some categories =>
    (categories.assertSlice).bind fun (cats : List Value) =>
      (assertStrings cats).map (fun (xs : List String) => { u with Categories := xs })
  | none => some u

/-- The method `User.SavePartial`; `none` is the panic of a failed type
assertion, which leaves the collection as it was. -/
def User.SavePartial (env : Env) (clock : String) (fresh : ObjectId) (db : Collection)
    (u : User) (update : bson.M) : Option Outcome :=
  (u.applyUpdate env update).bind fun (u1 : User) =>
  match update "notification" with
  | some notification =>
    (notification.assertString).map fun (s : String) =>
      match Parse s with
      | .error err => ⟨some err, u1, db⟩
      | .ok t => User.Save env clock fresh db { u1 with Notification := t }
  | none => some (User.Save env clock fresh db u1)

/-- The method `Datastore.UserAuth`: the returned `*User` and `error`. -/
def Datastore.UserAuth (env : Env) (db : Collection) (email password : String) :
    Option User × Option Error :=
  match Datastore.UserByEmail db email with
  | .error err => (none, some err)
  | .ok u =>
    match db.One (fun d => d.Email == u.Email && d.Password == u.hashPass env password) with
    | .ok d => (some d, none)
    | .error err => (some u, some err)

/-! ## Test data -/

/-- The loop of `TestStore.usersData` over the decoded records `xu`, from the
collection `db`: each password is hashed, then the record is inserted. -/
def TestStore.usersData (env : Env) : List User → Collection → Option Error × Collection
  | [], db => (none, db)
  | u :: xu, db =>
    let salt := hash env (u.ID.Hex ++ env.PASSWORD_SALT)
    let u1 := { u with Password := hash env (u.Password ++ salt) }
    match db.Insert u1 with
    | .error err => (some (.Wrap err "Error inserting user into mongo"), db)
    | .ok db1 => TestStore.usersData env xu db1

/-- The constant `MONGO_USERS_DATA` of testdata/mongo.go as `json.Unmarshal`
decodes it: the ids are the twelve bytes of the hexadecimal `_id`, the
notifications 2018-01-01T00:00:00Z and 2118-01-01T00:00:00Z. -/
def MONGO_USERS_DATA : List User :=
  [ { ID := ⟨[0x5b, 0x3b, 0xcd, 0x72, 0x46, 0x3c, 0xd6, 0x02, 0x9e, 0x04, 0xde, 0x18]⟩,
      FirstName := "Broderick", LastName := "Reynolds", Email := "br@rtcl.io",
      Password := "12345abcde", Locked := false,
      Categories := ["cardiology", "physiotherapy"], Searches := [],
      Notification := 1514764800 * 1000000000 },
    { ID := ⟨[0x5b, 0x3b, 0xcd, 0x72, 0x46, 0x3c, 0xd6, 0x02, 0x9e, 0x04, 0xde, 0x1a]⟩,
      FirstName := "Osborne", LastName := "Jast", Email := "oj@rtcl.io",
      Password := "12345abcde", Locked := true,
      Categories := [], Searches := [],
      Notification := 1514764800 * 1000000000 },
    { ID := ⟨[0x5b, 0x3b, 0xcd, 0x72, 0x46, 0x3c, 0xd6, 0x02, 0x9e, 0x04, 0xde, 0x1c]⟩,
      FirstName := "Dawn", LastName := "Hayes", Email := "dh@rtcl.io",
      Password := "12345abcde", Locked := true,
      Categories := [], Searches := [],
      Notification := 4670438400 * 1000000000 } ]

/-! ## Tokens

The token code of the repository (`datastore/jwt.go`) is not among the
sources; `datastore/jwt_test.go`, `server/middleware_test.go` and the callers
in `user.go`, `datastore.go` and `middleware.go` are. The definitions of this
section follow section 4.4 of the specification and those tests. -/

/-- The alphabet of base64url. -/
def base64Alphabet : List Char :=
  "ABCDEFGHIJKLMNOPQRSTUVWXYZabcdefghijklmnopqrstuvwxyz0123456789-_".data

/-- The base64url digit of a value below 64. -/
def base64Char (n : Nat) : Char :=
  base64Alphabet.getD n 'A'

/-- The value of a base64url digit, `none` for any other character. -/
def base64Value (c : Char) : Option Nat :=
  if base64Alphabet.indexOf c < 64 then some (base64Alphabet.indexOf c) else none

/-- Unpadded base64url encoding of a byte sequence. -/
def base64Encode : List Byte → List Char
  | a :: b :: c :: rest =>
    base64Char (a.val / 4) :: base64Char (a.val % 4 * 16 + b.val / 16) ::
      base64Char (b.val % 16 * 4 + c.val / 64) :: base64Char (c.val % 64) :: base64Encode rest
  | [a, b] =>
    [base64Char (a.val / 4), base64Char (a.val % 4 * 16 + b.val / 16),
      base64Char (b.val % 16 * 4)]
  | [a] => [base64Char (a.val / 4), base64Char (a.val % 4 * 16)]
  | [] => []

/-- Unpadded base64url decoding; `none` when a character is outside the
alphabet or the length leaves a single digit over. -/
def base64Decode : List Char → Option (List Byte)
  | c1 :: c2 :: c3 :: c4 :: rest =>
    match base64Value c1, base64Value c2, base64Value c3, base64Value c4, base64Decode rest with
    | some v1, some v2, some v3, some v4, some bs =>
      some (Fin.ofNat (v1 * 4 + v2 / 16) :: Fin.ofNat (v2 % 16 * 16 + v3 / 4) ::
        Fin.ofNat (v3 % 4 * 64 + v4) :: bs)
    | _, _, _, _, _ => none
  | [c1, c2, c3] =>
    match base64Value c1, base64Value c2, base64Value c3 with
    | some v1, some v2, some v3 =>
      some [Fin.ofNat (v1 * 4 + v2 / 16), Fin.ofNat (v2 % 16 * 16 + v3 / 4)]
    | _, _, _ => none
  | [c1, c2] =>
    match base64Value c1, base64Value c2 with
    | some v1, some v2 => some [Fin.ofNat (v1 * 4 + v2 / 16)]
    | _, _ => none
  | [_] => none
  | [] => some []

/-- The function `strings.Split(s, sep)` for a one-character separator, on
the characters of `s`. -/
def splitOn (sep : Char) : List Char → List (List Char)
  | [] => [[]]
  | c :: cs =>
    if c = sep then [] :: splitOn sep cs
    else
      match splitOn sep cs with
      | [] => [[c]]
      | part :: parts => (c :: part) :: parts

/-- Modelled from the spec: the claim set that a token serializes (section
4.4, `encode`): issuer, subject id, display name, role, issued-at and
expires-at in Unix seconds. The type is declared in jwt.go, which is missing. -/
structure Payload where
  issuer : String
  id : String
  name : String
  role : String
  issuedAt : Int
  expiresAt : Int
deriving DecidableEq, Repr

/-- Modelled from the spec: what the missing token code takes from its
libraries, namely the serialization of the payload as structured data with its
parser, and the keyed MAC (of fixed length, here 32 bytes) of a message under
a signing key. -/
structure TokenLib where
  marshal : Payload → List Byte
  unmarshal : List Byte → Option Payload
  mac : String → String → Digest

/-- Modelled from the spec: the `Claims` of section 3, with the fields the
tests read (`Claims.ID`, `Claims.Name`, `Claims.Role`, `Claims.ExpiresAt`);
the type is declared in jwt.go, which is missing. The times are Unix
seconds; the issued time is `none` while unset. -/
structure TokenClaims where
  ID : String
  Name : String
  Role : String
  IssuedAt : Option Int
  ExpiresAt : Int
deriving DecidableEq, Repr

/-- Modelled from the spec: the `Token` of section 3 (claims, issuer, signing
key, encoded string), with the ttl in hours that `build` receives and `encode`
uses; the type is declared in jwt.go, which is missing. An empty `Encoded` is
a token not yet encoded. -/
structure Token where
  Claims : TokenClaims
  issuer : String
  signingKey : String
  ttlHours : Int
  Encoded : String
deriving DecidableEq, Repr

/-- Modelled from the spec: the custom claims a caller passes to
`CustomClaims`. Every caller in the sources passes the keys `id`, `name` and
`role` with string values; the mapping is modelled as these three. -/
structure CustomClaims where
  id : String
  name : String
  role : String
deriving DecidableEq, Repr

/-- The zero value of `Token`. -/
def Token.zero : Token :=
  { Claims := { ID := "", Name := "", Role := "", IssuedAt := none, ExpiresAt := 0 },
    issuer := "", signingKey := "", ttlHours := 0, Encoded := "" }

/-- Modelled from the spec: `build(issuer, signingKey, ttlHours)` of section
4.4, the function `NewToken` of the missing jwt.go. As in the tests it returns
the token alone; a bad policy is reported by `Encode`. -/
def NewToken (issuer signingKey : String) (ttlHours : Int) : Token :=
  { Token.zero with issuer := issuer, signingKey := signingKey, ttlHours := ttlHours }

/-- Modelled from the spec: `withCustomClaims` of section 4.4, the method
`Token.CustomClaims` of the missing jwt.go. -/
def Token.CustomClaims (t : Token) (c : CustomClaims) : Token :=
  { t with Claims := { t.Claims with ID := c.id, Name := c.name, Role := c.role } }

/-- Modelled from the spec: `withIssuedAt` of section 4.4, the method
`Token.SetTimes` of the missing jwt.go: the issued time is set and
`expiresAt = issuedAt + ttlHours`. -/
def Token.SetTimes (t : Token) (iat : Time) : Token :=
  { t with Claims := { t.Claims with
      IssuedAt := some (Unix iat), ExpiresAt := Unix iat + t.ttlHours * 3600 } }

/-- Modelled from the spec: the first part of an encoded token. The spec
gives no content for the header; the JWT header of an HMAC-SHA256 token,
`{"alg":"HS256","typ":"JWT"}`, is taken. -/
def tokenHeader : List Byte :=
  "\x7b\"alg\":\"HS256\",\"typ\":\"JWT\"\x7d".data.map (fun c => Fin.ofNat c.toNat)

/-- Modelled from the spec: the payload of a token, the claim set that
`encode` serializes. -/
def Token.payload (t : Token) : Payload :=
  { issuer := t.issuer, id := t.Claims.ID, name := t.Claims.Name, role := t.Claims.Role,
    issuedAt := t.Claims.IssuedAt.getD 0, expiresAt := t.Claims.ExpiresAt }

/-- Modelled from the spec: the times that `encode` fixes (section 4.4): an
unset issued time becomes the current time, and `expiresAt` is computed from
it and the ttl; `now` is `time.Now()`. -/
def Token.stamp (now : Time) (t : Token) : Token :=
  let iat := t.Claims.IssuedAt.getD (Unix now)
  { t with Claims := { t.Claims with
      IssuedAt := some iat, ExpiresAt := iat + t.ttlHours * 3600 } }

/-- Modelled from the spec: the signed text `header.payload` of a token
(section 4.4), both parts base64url. -/
def Token.signingInput (lib : TokenLib) (t : Token) : String :=
  String.mk (base64Encode tokenHeader ++ '.' :: base64Encode (lib.marshal t.payload))

/-- Modelled from the spec: the three-part string `header.payload.signature`
of a token (section 4.4), the signature being the base64url of the MAC of
`header.payload` under the signing key. -/
def Token.sign (lib : TokenLib) (t : Token) : String :=
  t.signingInput lib ++ "." ++
    String.mk (base64Encode (lib.mac t.signingKey (t.signingInput lib)).toList)

/-- Modelled from the spec: `encode()` of section 4.4, the method
`Token.Encode` of the missing jwt.go; `now` is `time.Now()`. It fails when the
issuer or the signing key is empty or the ttl is not positive; otherwise the
times are fixed and the encoded string is produced. -/
def Token.Encode (lib : TokenLib) (now : Time) (t : Token) : Token × Option Error :=
  if t.issuer = "" ∨ t.signingKey = "" ∨ t.ttlHours ≤ 0 then
    (t, some (.New "EncodingError"))
  else
    ({ t.stamp now with Encoded := (t.stamp now).sign lib }, none)

/-- Modelled from the spec: the checks of `decode` of section 4.4 that do not
read the clock: the string splits on `.` into exactly three non-empty parts,
each part is base64url, the payload parses, and the MAC of `header.payload`
under the signing key is the signature part. -/
def Token.parse (lib : TokenLib) (encoded signingKey : String) : Except Error Payload :=
  match splitOn '.' encoded.data with
  | [h, p, s] =>
    if h.isEmpty || p.isEmpty || s.isEmpty then .error (.New "FormatError")
    else
      match base64Decode h, base64Decode p, base64Decode s with
      | some _, some body, some signature =>
        match lib.unmarshal body with
        | none => .error (.New "FormatError")
        | some payload =>
          if signature = (lib.mac signingKey (String.mk (h ++ '.' :: p))).toList then
            .ok payload
          else .error (.New "SignatureError")
      | _, _, _ => .error (.New "FormatError")
  | _ => .error (.New "FormatError")

/-- Modelled from the spec: `decode(encodedString, signingKey)` of section
4.4, the function `DecodeToken` of the missing jwt.go; `now` is `time.Now()`.
After the checks of `Token.parse` a token outside its time window is refused
(the `ExpiryError` of section 7; middleware_test.go expects an error for an
expired and for a future-dated bearer token). The decoded token has every
field of the encoded one (round-trip law of section 4.4): the ttl, which the
payload does not carry, is the whole hours between the two times. -/
def DecodeToken (lib : TokenLib) (now : Time) (encoded signingKey : String) :
    Token × Option Error :=
  match Token.parse lib encoded signingKey with
  | .error err => (Token.zero, some err)
  | .ok payload =>
    if payload.issuedAt ≤ Unix now ∧ Unix now < payload.expiresAt then
      ({ Claims :=
          { ID := payload.id
            Name := payload.name
            Role := payload.role
            IssuedAt := some payload.issuedAt
            ExpiresAt := payload.expiresAt }
         issuer := payload.issuer
         signingKey := signingKey
         ttlHours := (payload.expiresAt - payload.issuedAt) / 3600
         Encoded := encoded }, none)
    else (Token.zero, some (.New "ExpiryError"))

/-- Modelled from the spec: `valid()` of section 4.4, the method `Token.Valid`
of the missing jwt.go; `now` is `time.Now()`. The signature of the encoded
string is verified again under the token's signing key, and
`issuedAt <= now < expiresAt`. -/
def Token.Valid (lib : TokenLib) (now : Time) (t : Token) : Bool :=
  (match Token.parse lib t.Encoded t.signingKey with
    | .ok _ => true
    | .error _ => false) &&
  (match t.Claims.IssuedAt with
    | some iat => decide (iat ≤ Unix now)
    | none => false) &&
  decide (Unix now < t.Claims.ExpiresAt)

/-- Modelled from the spec: the method `Token.String` of the missing jwt.go,
the encoded string of a token. -/
def Token.String (t : Token) : String :=
  t.Encoded

/-- The method `User.Token` of user.go; `now` is the `time.Now()` of `Encode`. -/
def User.Token (lib : TokenLib) (now : Time) (u : User) (issuer signingKey : String)
    (ttl : Int) : Token × Option Error :=
  let c : CustomClaims :=
    { id := u.ID.Hex, name := u.FirstName ++ " " ++ u.LastName, role := "user" }
  ((NewToken issuer signingKey ttl).CustomClaims c).Encode lib now

/-- The value of a hexadecimal digit, upper or lower case (`encoding/hex`). -/
def hexValue (c : Char) : Option Nat :=
  let n := c.toNat
  if 48 ≤ n ∧ n ≤ 57 then some (n - 48)
  else if 97 ≤ n ∧ n ≤ 102 then some (n - 87)
  else if 65 ≤ n ∧ n ≤ 70 then some (n - 55)
  else none

/-- The function `hex.DecodeString`, on the characters of the string. -/
def hexDecode : List Char → Option (List Byte)
  | c1 :: c2 :: rest =>
    match hexValue c1, hexValue c2, hexDecode rest with
    | some v1, some v2, some bs => some (Fin.ofNat (v1 * 16 + v2) :: bs)
    | _, _, _ => none
  | [_] => none
  | [] => some []

/-- The function `bson.IsObjectIdHex`: 24 hexadecimal digits. -/
def IsObjectIdHex (s : String) : Bool :=
  s.length == 24 && (hexDecode s.data).isSome

/-- The function `bson.ObjectIdHex`, which panics unless `IsObjectIdHex(s)`;
the callers test that first. -/
def ObjectIdHex (s : String) : ObjectId :=
  match hexDecode s.data with
  | some bs => ⟨bs⟩
  | none => ⟨[]⟩

/-- The method `User.ByID`: the error, and the receiver after the call. -/
def User.ByID (db : Collection) (u : User) (id : String) : Option Error × User :=
  if !IsObjectIdHex id then (some (.New "object id is not valid"), u)
  else
    match db.One (fun d => d.ID == ObjectIdHex id) with
    | .ok d => (none, d)
    | .error err => (some err, u)

/-- The method `Datastore.FreshUserToken`; `now` is the `time.Now()` of
`Encode`. -/
def Datastore.FreshUserToken (lib : TokenLib) (now : Time) (db : Collection)
    (userID issuer signingkey : String) (hoursttl : Int) : String × Option Error :=
  match User.zero.ByID db userID with
  | (some _, _) => ("", some (.New "could not fetch user to re-issue token"))
  | (none, u) =>
    match u.Token lib now issuer signingkey hoursttl with
    | (_, some _) => ("", some (.New "could not issue token"))
    | (t, none) => (t.String, none)

/-! ## Middleware -/

/-- The function `strings.TrimSpace`. -/
def TrimSpace (s : String) : String :=
  String.mk ((s.data.dropWhile isSpace).reverse.dropWhile isSpace).reverse

/-- The method `server.AuthHeaderToken` of middleware.go. `authorization` is
`r.Header.Get("Authorization")`, `signingKey` is `s.config.Token.SigningKey`
and `decode` is `datastore.DecodeToken`. -/
def AuthHeaderToken (decode : String → String → Token × Option Error) (signingKey : String)
    (authorization : String) : Token × Option Error :=
  let xs := Fields authorization
  match xs with
  | x0 :: x1 :: _ =>
    if x0 != "Bearer" then
      (Token.zero, some (.New "authorization header should be: Bearer [jwt]"))
    else
      let ts := TrimSpace x1
      decode ts signingKey
  | _ => (Token.zero, some (.New "authorization header should be: Bearer [jwt]"))

/-- The method `server.ValidateAuthHeaderToken` of middleware.go. -/
def ValidateAuthHeaderToken (decode : String → String → Token × Option Error)
    (signingKey : String) (authorization : String) (userID : String) : Option Error :=
  match AuthHeaderToken decode signingKey authorization with
  | (_, some err) => some err
  | (t, none) =>
    if userID != "" then
      if t.Claims.ID != userID then some (.New "token user id mismatch") else none
    else none

/-! ## Dates and the confirmation key -/

/-- The days from 1970-01-01 to the UTC date of `t`. -/
def utcDays (t : Time) : Int :=
  t / 86400000000000

/-- The month (1 to 12) and the day of the month of the date `z` days after
1970-01-01, in the proleptic Gregorian calendar that package `time` uses. -/
def civilMonthDay (z : Int) : Nat × Nat :=
  let doe := ((z + 719468) % 146097).toNat
  let yoe := (doe - doe / 1460 + doe / 36524 - doe / 146096) / 365
  let doy := doe - (365 * yoe + yoe / 4 - yoe / 100)
  let mp := (5 * doy + 2) / 153
  let d := doy - (153 * mp + 2) / 5 + 1
  let m := if mp < 10 then mp + 3 else mp - 9
  (m, d)

/-- The call `t.UTC().Month()`. -/
def Month (t : Time) : Nat :=
  (civilMonthDay (utcDays t)).1

/-- The call `t.UTC().Day()`. -/
def Day (t : Time) : Nat :=
  (civilMonthDay (utcDays t)).2

/-- The method `Month.String`: the English name of the month. -/
def MonthString (m : Nat) : String :=
  match m with
  | 1 => "January"
  | 2 => "February"
  | 3 => "March"
  | 4 => "April"
  | 5 => "May"
  | 6 => "June"
  | 7 => "July"
  | 8 => "August"
  | 9 => "September"
  | 10 => "October"
  | 11 => "November"
  | 12 => "December"
  | _ => "%!Month(" ++ Nat.repr m ++ ")"

/-- The function `strconv.Itoa` on a number that is not negative. -/
def Itoa (n : Nat) : String :=
  Nat.repr n

/-- The string `s` that `User.KeyGen` hashes. The source reads the clock twice:
`now1` is the `time.Now()` of the month, `now2` the `time.Now()` of the day. -/
def User.KeyGen_s (env : Env) (now1 now2 : Time) (u : User) : String :=
  ToLower env u.Email ++ u.Password ++ MonthString (Month now1) ++ Itoa (Day now2)

/-- The method `User.KeyGen`, with the two readings of the clock. -/
def User.KeyGen (env : Env) (now1 now2 : Time) (u : User) : String :=
  let s := u.KeyGen_s env now1 now2
  hexString (env.sum256 s).toList

/-! ## Notifications -/

/-- The result of a query method of `*Datastore`: the users returned, the
error and the collection after the call. -/
structure Listing where
  xu : List User
  err : Option Error
  db : Collection
deriving DecidableEq, Repr

/-- The call `Find(q).All(&xu)`: the documents matching `q`, in the order of
the collection. -/
def Collection.All (c : Collection) (q : User → Bool) : List User :=
  c.filter q

/-- The value `time.Date(1970, 1, 1, 0, 0, 0, 0, time.UTC)`. -/
def epoch : Time := 0

/-- The zero value of `time.Time`, January 1 of year 1, 00:00:00 UTC, which is
62135596800 seconds before the Unix epoch. -/
def zeroTime : Time := -62135596800 * 1000000000

/-- The method `Datastore.UsersDueNotification`; `now` is `time.Now()`. The
query is `{"notification": {"$gt": epoch, "$lt": now}}`. -/
def Datastore.UsersDueNotification (now : Time) (db : Collection) : Listing :=
  let q := fun d : User => decide (epoch < d.Notification) && decide (d.Notification < now)
  ⟨db.All q, none, db⟩

/-- The constant `PasswordMask`. -/
def PasswordMask : String := "********"

/-- The values the handlers pass as `data` to `respondJSON`: `nil`, a
`*User`, and the map with the keys `token` and `userId` of `authHandler`. -/
inductive Data where
  | null
  | user (u : User)
  | auth (token userId : String)
deriving DecidableEq, Repr

/-- The body `respondJSON` writes: the object with the key `error` holding
`err.Error()`, or the JSON of `data`. -/
inductive Body where
  | error (err : Error)
  | json (data : Data)
deriving DecidableEq, Repr

/-- One response written by `respondJSON`: the status and the body. -/
structure Response where
  status : Nat
  body : Body
deriving DecidableEq, Repr

/-- What a handler did. -/
structure Handled where
  /-- The calls of `respondJSON`, in order. -/
  writes : List Response
  /-- The collection after the call. -/
  db : Collection
  /-- The mail sent: the kind of notification and the user it was made for. -/
  mail : List (String × User)
  /-- The handler dereferenced a nil `*User`. -/
  panicked : Bool
deriving DecidableEq, Repr

/-- The function `respondJSON(w, status, data, err)`. -/
def respondJSON (status : Nat) (data : Data) (err : Option Error) : Response :=
  match err with
  | some e => ⟨status, .error e⟩
  | none => ⟨status, .json data⟩

/-- The function `respondNotFoundOrBadRequest(w, err)`: what it writes. -/
def respondNotFoundOrBadRequest (err : Option Error) : List Response :=
  if err = some .ErrNotFound then
    [respondJSON 404 .null (some (.New "user not found"))]
  else
    match err with
    | some e => [respondJSON 400 .null (some e)]
    | none => []

/-- The method `Datastore.UserByID`: the returned `*User` (`none` is `nil`) and
`error`. -/
def Datastore.UserByID (db : Collection) (id : String) : Option User × Option Error :=
  if !IsObjectIdHex id then (none, some (.New "object id is not valid"))
  else
    match db.One (fun d => d.ID == ObjectIdHex id) with
    | .error err => (none, some err)
    | .ok u => (some u, none)

/-- The method `Datastore.UserByIDOrEmail`. -/
def Datastore.UserByIDOrEmail (db : Collection) (idOrEmail : String) :
    Option User × Option Error :=
  match Datastore.UserByID db idOrEmail with
  | (u, none) => (u, none)
  | (_, some _) =>
    match Datastore.UserByEmail db idOrEmail with
    | .error err => (none, some err)
    | .ok u => (some u, none)

/-- The body struct of `authHandler`. -/
structure Credentials where
  Email : String
  Password : String
deriving DecidableEq, Repr

/-- The handler of `POST /auth`. `body` is the outcome of decoding the request
body, `now` the `time.Now()` of `Encode`; the token policy is
`s.config.Token`. -/
def authHandler (env : Env) (lib : TokenLib) (now : Time) (issuer signingKey : String)
    (hoursTTL : Int) (db : Collection) (body : Except Error Credentials) : Handled :=
  match body with
  | .error err => ⟨[respondJSON 400 .null (some err)], db, [], false⟩
  | .ok body =>
    match Datastore.UserAuth env db body.Email body.Password with
    | (_, some _) =>
      ⟨[respondJSON 401 .null (some (.New "could not authorize user"))], db, [], false⟩
    | (none, none) => ⟨[], db, [], true⟩
    | (some u, none) =>
      match u.Token lib now issuer signingKey hoursTTL with
      | (_, some err) => ⟨[respondJSON 500 .null (some err)], db, [], false⟩
      | (t, none) => ⟨[respondJSON 200 (.auth t.String u.ID.Hex) none], db, [], false⟩

/-- The handler of `POST /users`. `body` is the user after
`json.NewDecoder(r.Body).Decode(&u)`, or the error of the decoding. -/
def addUserHandler (env : Env) (clock : String) (fresh : ObjectId) (db : Collection)
    (body : Except Error User) : Handled :=
  match body with
  | .error err => ⟨[respondJSON 400 .null (some err)], db, [], false⟩
  | .ok u =>
    let o := u.Save env clock fresh db
    match o.err with
    | some err => ⟨[respondJSON 409 .null (some err)], o.db, [], false⟩
    | none =>
      let u := { o.u with Password := PasswordMask }
      ⟨[respondJSON 201 (.user u) none], o.db, [], false⟩

/-- The handler of `GET /users/{id}`. After a failed lookup the source does
not return: it goes on to `u.Password = ...` with `u` nil. -/
def userByIDHandler (db : Collection) (id : String) : Handled :=
  if !IsObjectIdHex id then
    ⟨[respondJSON 400 .null (some (.New "invalid object id"))], db, [], false⟩
  else
    let r := Datastore.UserByID db id
    let w := match r.2 with
      | some err => respondNotFoundOrBadRequest (some err)
      | none => []
    match r.1 with
    | none => ⟨w, db, [], true⟩
    | some u =>
      let u := { u with Password := PasswordMask }
      ⟨w ++ [respondJSON 200 (.user u) r.2], db, [], false⟩

/-- The handler of `GET /user`; `userID` is the value of the request context.
After a failed lookup the source does not return. -/
def userByTokenHandler (db : Collection) (userID : String) : Handled :=
  let r := Datastore.UserByID db userID
  let w := match r.2 with
    | some err => [respondJSON 500 .null (some err)]
    | none => []
  match r.1 with
  | none => ⟨w, db, [], true⟩
  | some u =>
    let u := { u with Password := PasswordMask }
    ⟨w ++ [respondJSON 200 (.user u) r.2], db, [], false⟩

/-- The handler of `PUT /user`. `body` is the decoded update map, or the error
of the decoding. A panic of `SavePartial` ends the handler with no response
written. -/
def updateUserHandler (env : Env) (clock : String) (fresh : ObjectId) (db : Collection)
    (userID : String) (body : Except Error bson.M) : Handled :=
  match Datastore.UserByID db userID with
  | (_, some err) => ⟨[respondJSON 404 .null (some err)], db, [], false⟩
  | (r, none) =>
    match body with
    | .error err => ⟨[respondJSON 400 .null (some err)], db, [], false⟩
    | .ok body =>
      match r with
      | none => ⟨[], db, [], true⟩
      | some u =>
        match u.SavePartial env clock fresh db body with
        | none => ⟨[], db, [], true⟩
        | some o =>
          match o.err with
          | some err => ⟨[respondJSON 500 .null (some err)], o.db, [], false⟩
          | none =>
            let u := { o.u with Password := PasswordMask }
            ⟨[respondJSON 200 (.user u) o.err], o.db, [], false⟩

/-- The handler of `POST /user/search`. `body` is the decoded `Search`, or the
error of the decoding; `now` is the `time.Now()` of `SaveSearch`. -/
def saveSearchHandler (env : Env) (now : Time) (db : Collection) (userID : String)
    (body : Except Error Search) : Handled :=
  match Datastore.UserByID db userID with
  | (_, some err) => ⟨[respondJSON 500 .null (some err)], db, [], false⟩
  | (r, none) =>
    match body with
    | .error err => ⟨[respondJSON 400 .null (some err)], db, [], false⟩
    | .ok s =>
      match r with
      | none => ⟨[], db, [], true⟩
      | some u =>
        let o := u.SaveSearch env now db s.Query
        match o.err with
        | some err => ⟨[respondJSON 409 .null (some err)], o.db, [], false⟩
        | none =>
          let u := { o.u with Password := PasswordMask }
          ⟨[respondJSON 201 (.user u) o.err], o.db, [], false⟩

/-- The handler of `DELETE /user/search`. `body` is the decoded `Search`, or
the error of the decoding; `now` is the `time.Now()` of `DeleteSearch`. -/
def deleteSearchHandler (env : Env) (now : Time) (db : Collection) (userID : String)
    (body : Except Error Search) : Handled :=
  match Datastore.UserByID db userID with
  | (_, some err) => ⟨[respondJSON 500 .null (some err)], db, [], false⟩
  | (r, none) =>
    match body with
    | .error err => ⟨[respondJSON 400 .null (some err)], db, [], false⟩
    | .ok s =>
      match r with
      | none => ⟨[], db, [], true⟩
      | some u =>
        let o := u.DeleteSearch env now db s.Query
        match o.err with
        | some err => ⟨[respondJSON 500 .null (some err)], o.db, [], false⟩
        | none =>
          let u := { o.u with Password := PasswordMask }
          ⟨[respondJSON 200 (.user u) o.err], o.db, [], false⟩

/-- The handler of `POST /users/{id}/notifications/{notification}`. After a
failed lookup the source does not return: the cases `welcome` and `reset`
go on to `*u` with `u` nil. -/
def userNotificationHandler (db : Collection) (idOrEmail notification : String) : Handled :=
  let r := Datastore.UserByIDOrEmail db idOrEmail
  let w := match r.2 with
    | some err => respondNotFoundOrBadRequest (some err)
    | none => []
  if notification = "welcome" then
    match r.1 with
    | none => ⟨w, db, [], true⟩
    | some u => ⟨w ++ [respondJSON 202 .null none], db, [("welcome", u)], false⟩
  else if notification = "reset" then
    match r.1 with
    | none => ⟨w, db, [], true⟩
    | some u => ⟨w ++ [respondJSON 202 .null none], db, [("reset", u)], false⟩
  else ⟨w, db, [], false⟩

/-- The handler of `GET /users/{id}/confirm/{key}`; `now1` and `now2` are the
two `time.Now()` of `KeyGen`, `clock` and `fresh` those of `Save`. After a
failed `Save` the source does not return. -/
def userConfirmationHandler (env : Env) (now1 now2 : Time) (clock : String)
    (fresh : ObjectId) (db : Collection) (id key : String) : Handled :=
  match Datastore.UserByID db id with
  | (_, some .ErrNotFound) =>
    ⟨[respondJSON 404 .null (some (.New "user not found"))], db, [], false⟩
  | (_, some err) => ⟨[respondJSON 400 .null (some err)], db, [], false⟩
  | (none, none) => ⟨[], db, [], true⟩
  | (some u, none) =>
    if key != u.KeyGen env now1 now2 then
      ⟨[respondJSON 400 .null (some (.New "invalid key"))], db, [], false⟩
    else
      let o := { u with Locked := false }.Save env clock fresh db
      let w := match o.err with
        | some err => [respondJSON 500 .null (some err)]
        | none => []
      let u := { o.u with Password := PasswordMask }
      ⟨w ++ [respondJSON 200 (.user u) none], o.db, [], false⟩

/-- A response whose body, when it is the JSON of a user, shows the mask as the
password. -/
def Response.Masked (r : Response) : Prop :=
  ∀ u : User, r.body = .json (.user u) → u.Password = PasswordMask

/-- Every user that a handler wrote as `data` has the masked password. -/
def Handled.Masked (h : Handled) : Prop :=
  ∀ r ∈ h.writes, r.Masked

/-- A user with the password replaced by the mask: what is left of a user when
the password is set aside. -/
def User.masked (u : User) : User :=
  { u with Password := PasswordMask }

/-- A collection with every password replaced by the mask: two collections
differ only in passwords when their masked forms are equal. -/
def Collection.masked (c : Collection) : Collection :=
  c.map User.masked

/-! ## Sample values -/

/-- A stand-in 32-byte digest for worked examples: byte `i` is the sum of the
code points of the input plus `i`, modulo 256. -/
def sampleSum256 (s : String) : Digest :=
  ⟨(List.range 32).map (fun i => Fin.ofNat ((s.data.map Char.toNat).sum + i)), by simp⟩

/-- An environment for worked examples on ASCII strings. -/
def sampleEnv : Env :=
  { toLower := asciiToLower, sum256 := sampleSum256, PASSWORD_SALT := "pepper" }

/-- The update map of testUserSavePartial: a last name, two categories and a
notification date. -/
def sampleUpdate : bson.M :=
  fun key =>
    if key = "lastName" then some (.string "SavedPartially")
    else if key = "categories" then some (.slice [.string "one", .string "two"])
    else if key = "notification" then some (.string "2018-11-02")
    else none

/-- An update map whose `firstName` is a number, as the JSON body
`\x7b"firstName": 5\x7d` decodes. -/
def sampleUpdateNumber : bson.M :=
  fun key => if key = "firstName" then some (.float64 4617315517961601024) else none

/-- The empty update map. -/
def emptyUpdate : bson.M :=
  fun _ => none

/-- An update map with a last name and an empty password. -/
def sampleUpdateBlankPassword : bson.M :=
  fun key =>
    if key = "lastName" then some (.string "Smith")
    else if key = "password" then some (.string "")
    else none

/-- A stand-in serialization for worked examples: each string as its length
and its character codes, each time as eight base-256 digits. -/
def sampleMarshal (p : Payload) : List Byte :=
  let str (s : String) : List Byte :=
    Fin.ofNat s.length :: s.data.map (fun c => Fin.ofNat c.toNat)
  let int (n : Int) : List Byte :=
    (List.range 8).map (fun i => Fin.ofNat (n.toNat / 256 ^ i))
  str p.issuer ++ str p.id ++ str p.name ++ str p.role ++ int p.issuedAt ++ int p.expiresAt

/-- Read one string of `sampleMarshal`. -/
def sampleReadString (bs : List Byte) : String × List Byte :=
  match bs with
  | [] => ("", [])
  | n :: rest =>
    (String.mk ((rest.take n.val).map (fun b => Char.ofNat b.val)), rest.drop n.val)

/-- Read one time of `sampleMarshal`. -/
def sampleReadInt (bs : List Byte) : Int × List Byte :=
  (Int.ofNat (((bs.take 8).enum.map (fun ib => ib.2.val * 256 ^ ib.1)).sum), bs.drop 8)

/-- The parser of `sampleMarshal`. -/
def sampleUnmarshal (bs : List Byte) : Option Payload :=
  let r1 := sampleReadString bs
  let r2 := sampleReadString r1.2
  let r3 := sampleReadString r2.2
  let r4 := sampleReadString r3.2
  let r5 := sampleReadInt r4.2
  let r6 := sampleReadInt r5.2
  if r6.2 = [] ∧ bs ≠ [] then
    some { issuer := r1.1, id := r2.1, name := r3.1, role := r4.1,
           issuedAt := r5.1, expiresAt := r6.1 }
  else none

/-- A token library for worked examples: the stand-in serialization and a
stand-in MAC. -/
def sampleLib : TokenLib :=
  { marshal := sampleMarshal, unmarshal := sampleUnmarshal,
    mac := fun key msg => sampleSum256 (key ++ msg) }

/-- A user with the given id and saved searches. -/
def sampleUser (id : ObjectId) (searches : List Search) : User :=
  { ID := id, FirstName := "Dawn", LastName := "Hayes", Email := "dh@rtcl.io",
    Password := "5e884898da28047151d0e56f8dc6292773603d0d6aabbdd62a11ef721d1542d8",
    Locked := true, Categories := [], Searches := searches, Notification := 0 }

/-- The user of testUserAuth with the given id and raw password. -/
def mike (id : ObjectId) (password : String) : User :=
  { ID := id, FirstName := "Mike", LastName := "Donnici", Email := "mike@rtcl.io",
    Password := password, Locked := false, Categories := [], Searches := [], Notification := 0 }

/-- A valid object id: twelve bytes. -/
def sampleId : ObjectId := ⟨List.replicate 12 7⟩

/-- A value of `bson.NewObjectId()`: twelve bytes. -/
def freshId : ObjectId :=
  ⟨[0x5b, 0x3b, 0xcd, 0x72, 0x46, 0x3c, 0xd6, 0x02, 0x9e, 0x04, 0xde, 0x20]⟩

/-! ## Lemmas on the search functions -/

theorem matchString_iff (env : Env) (a b : String) :
    matchString env a b = true ↔ Fields (ToLower env a) = Fields (ToLower env b) := by
  simp [matchString]

theorem matchString_comm (env : Env) (a b : String) :
    matchString env a b = matchString env b a := by
  rw [Bool.eq_iff_iff, matchString_iff, matchString_iff]
  exact eq_comm

theorem SearchExists_iff (env : Env) (u : User) (query : String) :
    u.SearchExists env query = true ↔
      ∃ s ∈ u.Searches, Fields (ToLower env s.Query) = Fields (ToLower env query) := by
  simp [User.SearchExists, matchString_iff]

theorem SearchExists_eq_false_iff (env : Env) (u : User) (query : String) :
    u.SearchExists env query = false ↔
      ∀ s ∈ u.Searches, matchString env s.Query query = false := by
  simp [User.SearchExists]

theorem Update_of_mem (c : Collection) (id : ObjectId) (f : User → User)
    (h : ∃ d ∈ c, d.ID = id) :
    c.Update id f = .ok (modifyFirst (fun d => d.ID == id) f c) := by
  have : c.any (fun d => d.ID == id) = true := by simpa using h
  simp [Collection.Update, this]

theorem Update_of_not_mem (c : Collection) (id : ObjectId) (f : User → User)
    (h : ¬ ∃ d ∈ c, d.ID = id) :
    c.Update id f = .error .ErrNotFound := by
  have : c.any (fun d => d.ID == id) = false := by
    rw [Bool.eq_false_iff]; simpa using h
  simp [Collection.Update, this]

theorem noDuplicateSearches_iff_pairwise (env : Env) (l : List Search) :
    NoDuplicateSearches env l ↔
      l.Pairwise (fun a b => matchString env a.Query b.Query = false) := by
  rw [List.pairwise_iff_get]
  constructor
  · intro h i j hij
    exact h i j (Fin.ne_of_lt hij)
  · intro h i j hij
    rcases lt_or_gt_of_ne hij with hlt | hgt
    · exact h i j hlt
    · rw [matchString_comm]; exact h j i hgt

theorem SaveSearch_of_exists (env : Env) (now : Time) (db : Collection) (u : User)
    (query : String) (h : u.SearchExists env query = true) :
    u.SaveSearch env now db query =
      ⟨some (.New "exact search query already exists for this user"), u, db⟩ := by
  simp [User.SaveSearch, h]

theorem SaveSearch_of_not_stored (env : Env) (now : Time) (db : Collection) (u : User)
    (query : String) (h : u.SearchExists env query = false)
    (hdb : ¬ ∃ d ∈ db, d.ID = u.ID) :
    u.SaveSearch env now db query = ⟨some .ErrNotFound, u, db⟩ := by
  simp only [User.SaveSearch, h, Update_of_not_mem db u.ID _ hdb]
  simp

theorem SaveSearch_of_stored (env : Env) (now : Time) (db : Collection) (u : User)
    (query : String) (h : u.SearchExists env query = false)
    (hdb : ∃ d ∈ db, d.ID = u.ID) :
    u.SaveSearch env now db query =
      ⟨none, { u with Searches := u.Searches ++ [⟨now, query⟩] },
        modifyFirst (fun d => d.ID == u.ID) (addToSetSearches ⟨now, query⟩) db⟩ := by
  simp only [User.SaveSearch, h, Update_of_mem db u.ID _ hdb]
  simp

theorem DeleteSearch_of_not_exists (env : Env) (now : Time) (db : Collection) (u : User)
    (query : String) (h : u.SearchExists env query = false) :
    u.DeleteSearch env now db query =
      ⟨some (.New "cannot find the query so unable to delete it"), u, db⟩ := by
  simp [User.DeleteSearch, h]

theorem DeleteSearch_of_not_stored (env : Env) (now : Time) (db : Collection) (u : User)
    (query : String) (h : u.SearchExists env query = true)
    (hdb : ¬ ∃ d ∈ db, d.ID = u.ID) :
    u.DeleteSearch env now db query = ⟨some .ErrNotFound, u, db⟩ := by
  simp only [User.DeleteSearch, h, Update_of_not_mem db u.ID _ hdb]
  simp

theorem DeleteSearch_of_stored (env : Env) (now : Time) (db : Collection) (u : User)
    (query : String) (h : u.SearchExists env query = true)
    (hdb : ∃ d ∈ db, d.ID = u.ID) :
    u.DeleteSearch env now db query =
      ⟨none, { u with Searches := u.Searches.filter (fun s => s.Query != query) },
        modifyFirst (fun d => d.ID == u.ID) (pullSearches now query) db⟩ := by
  simp only [User.DeleteSearch, h, Update_of_mem db u.ID _ hdb]
  simp

/-- The three ways a call of `SaveSearch` ends. -/
theorem SaveSearch_cases (env : Env) (now : Time) (db : Collection) (u : User)
    (query : String) :
    (u.SearchExists env query = true ∧ u.SaveSearch env now db query =
        ⟨some (.New "exact search query already exists for this user"), u, db⟩) ∨
    (u.SearchExists env query = false ∧ (¬ ∃ d ∈ db, d.ID = u.ID) ∧
        u.SaveSearch env now db query = ⟨some .ErrNotFound, u, db⟩) ∨
    (u.SearchExists env query = false ∧ (∃ d ∈ db, d.ID = u.ID) ∧
        u.SaveSearch env now db query =
          ⟨none, { u with Searches := u.Searches ++ [⟨now, query⟩] },
            modifyFirst (fun d => d.ID == u.ID) (addToSetSearches ⟨now, query⟩) db⟩) := by
  cases h : u.SearchExists env query
  · by_cases hdb : ∃ d ∈ db, d.ID = u.ID
    · exact Or.inr (Or.inr ⟨rfl, hdb, SaveSearch_of_stored env now db u query h hdb⟩)
    · exact Or.inr (Or.inl ⟨rfl, hdb, SaveSearch_of_not_stored env now db u query h hdb⟩)
  · exact Or.inl ⟨rfl, SaveSearch_of_exists env now db u query h⟩

/-- The three ways a call of `DeleteSearch` ends. -/
theorem DeleteSearch_cases (env : Env) (now : Time) (db : Collection) (u : User)
    (query : String) :
    (u.SearchExists env query = false ∧ u.DeleteSearch env now db query =
        ⟨some (.New "cannot find the query so unable to delete it"), u, db⟩) ∨
    (u.SearchExists env query = true ∧ (¬ ∃ d ∈ db, d.ID = u.ID) ∧
        u.DeleteSearch env now db query = ⟨some .ErrNotFound, u, db⟩) ∨
    (u.SearchExists env query = true ∧ (∃ d ∈ db, d.ID = u.ID) ∧
        u.DeleteSearch env now db query =
          ⟨none, { u with Searches := u.Searches.filter (fun s => s.Query != query) },
            modifyFirst (fun d => d.ID == u.ID) (pullSearches now query) db⟩) := by
  cases h : u.SearchExists env query
  · exact Or.inl ⟨rfl, DeleteSearch_of_not_exists env now db u query h⟩
  · by_cases hdb : ∃ d ∈ db, d.ID = u.ID
    · exact Or.inr (Or.inr ⟨rfl, hdb, DeleteSearch_of_stored env now db u query h hdb⟩)
    · exact Or.inr (Or.inl ⟨rfl, hdb, DeleteSearch_of_not_stored env now db u query h hdb⟩)

theorem matchString_self (env : Env) (a : String) : matchString env a a = true := by
  simp [matchString]

theorem countP_query_le_one (env : Env) (query : String) (l : List Search)
    (hp : l.Pairwise (fun a b => matchString env a.Query b.Query = false)) :
    l.countP (fun s => s.Query == query) ≤ 1 := by
  induction l with
  | nil => simp
  | cons a l ih =>
    rw [List.pairwise_cons] at hp
    by_cases ha : a.Query = query
    · have hzero : l.countP (fun s => s.Query == query) = 0 := by
        rw [List.countP_eq_zero]
        intro b hb hbq
        have hbq2 : b.Query = query := by simpa using hbq
        have := hp.1 b hb
        rw [ha, hbq2, matchString_self] at this
        exact Bool.noConfusion this
      rw [List.countP_cons_of_pos _ _ (by simpa using ha), hzero]
    · rw [List.countP_cons_of_neg _ _ (by simpa using ha)]
      exact ih hp.2

/-! ## Lemmas on hashing and the collection -/

theorem hexString_length (bs : List Byte) : (hexString bs).length = 2 * bs.length := by
  induction bs with
  | nil => rfl
  | cons b bs ih =>
    simp only [hexString, String.length, List.flatMap_cons, List.length_append, hexByte,
      List.length_cons, List.length_nil] at ih ⊢
    omega

theorem hash_length (env : Env) (s : String) : (hash env s).length = 64 := by
  simp [hash, hexString_length]

theorem hash_ne_empty (env : Env) (s : String) : hash env s ≠ "" := by
  intro h
  have := hash_length env s
  rw [h] at this
  exact absurd this (by decide)

theorem mem_modifyFirst (p : User → Bool) (u : User) (c : Collection) (d : User)
    (h : d ∈ modifyFirst p (fun _ => u) c) : d = u ∨ d ∈ c := by
  induction c with
  | nil => simp [modifyFirst] at h
  | cons a c ih =>
    simp only [modifyFirst] at h
    split at h
    · rcases List.mem_cons.1 h with h | h
      · exact Or.inl h
      · exact Or.inr (List.mem_cons_of_mem _ h)
    · rcases List.mem_cons.1 h with h | h
      · exact Or.inr (h ▸ List.mem_cons_self _ _)
      · rcases ih h with h | h
        · exact Or.inl h
        · exact Or.inr (List.mem_cons_of_mem _ h)

theorem mem_Upsert (c : Collection) (id : ObjectId) (u d : User)
    (h : d ∈ c.Upsert id u) : d = u ∨ d ∈ c := by
  unfold Collection.Upsert at h
  split at h
  · exact mem_modifyFirst _ u c d h
  · rcases List.mem_append.1 h with h | h
    · exact Or.inr h
    · exact Or.inl (List.mem_singleton.1 h)

theorem self_mem_modifyFirst (p : User → Bool) (u : User) (c : Collection)
    (h : ∃ d ∈ c, p d = true) : u ∈ modifyFirst p (fun _ => u) c := by
  induction c with
  | nil => simp at h
  | cons a c ih =>
    simp only [modifyFirst]
    split
    · exact List.mem_cons_self _ _
    · rename_i hpa
      obtain ⟨d, hd, hpd⟩ := h
      rcases List.mem_cons.1 hd with hd | hd
      · subst hd; exact absurd hpd hpa
      · exact List.mem_cons_of_mem _ (ih ⟨d, hd, hpd⟩)

theorem self_mem_Upsert (c : Collection) (id : ObjectId) (u : User) :
    u ∈ c.Upsert id u := by
  unfold Collection.Upsert
  split
  · rename_i h
    exact self_mem_modifyFirst _ u c (List.any_eq_true.1 h)
  · simp

theorem find?_Upsert_of_true (c : Collection) (id : ObjectId) (u : User) (q : User → Bool)
    (hc : ∀ d ∈ c, q d = false) (hu : q u = true) :
    (c.Upsert id u).find? q = some u := by
  have hmem := self_mem_Upsert c id u
  cases hf : (c.Upsert id u).find? q with
  | none =>
    rw [List.find?_eq_none] at hf
    exact absurd hu (hf u hmem)
  | some d =>
    have hq := List.find?_some hf
    rcases mem_Upsert c id u d (List.mem_of_find?_eq_some hf) with h | h
    · rw [h]
    · rw [hc d h] at hq
      exact Bool.noConfusion hq

theorem find?_Upsert_of_false (c : Collection) (id : ObjectId) (u : User) (q : User → Bool)
    (hc : ∀ d ∈ c, q d = false) (hu : q u = false) :
    (c.Upsert id u).find? q = none := by
  rw [List.find?_eq_none]
  intro d hd
  rcases mem_Upsert c id u d hd with h | h
  · rw [h, hu]; simp
  · rw [hc d h]; simp

theorem One_eq_ok (c : Collection) (q : User → Bool) (d : User) (h : c.find? q = some d) :
    c.One q = .ok d := by
  simp [Collection.One, h]

theorem One_eq_error (c : Collection) (q : User → Bool) (h : c.find? q = none) :
    c.One q = .error .ErrNotFound := by
  simp [Collection.One, h]

theorem UserEmailExists_eq_false (db : Collection) (email : String)
    (h : Datastore.UserEmailExists db email = false) : ∀ d ∈ db, (d.Email == email) = false := by
  unfold Datastore.UserEmailExists Datastore.UserByEmail Collection.One at h
  cases hf : db.find? (fun d => d.Email == email) with
  | none =>
    rw [List.find?_eq_none] at hf
    intro d hd
    simpa using hf d hd
  | some d => simp [hf] at h

theorem UserAuth_unknown_email (env : Env) (db : Collection) (email password : String)
    (h : ∀ d ∈ db, d.Email ≠ email) :
    Datastore.UserAuth env db email password = (none, some .ErrNotFound) := by
  have hf : db.find? (fun d => d.Email == email) = none := by
    rw [List.find?_eq_none]
    intro d hd
    simpa using h d hd
  simp [Datastore.UserAuth, Datastore.UserByEmail, One_eq_error db _ hf]

/-! ## Lemmas on `Save` -/

theorem Save_new_ok (env : Env) (clock : String) (fresh : ObjectId) (db : Collection) (u : User)
    (hnew : u.ID.Valid = false) (h : (u.Save env clock fresh db).err = none) :
    (∀ d ∈ db, (d.Email == u.Email) = false) ∧
    (u.Save env clock fresh db).u =
      { u with
        ID := fresh, Locked := true,
        Password := hash env ((if u.Password = "" then impossiblePassword env clock
          else u.Password) ++ hash env (fresh.Hex ++ env.PASSWORD_SALT)) } ∧
    (u.Save env clock fresh db).db = db.Upsert fresh (u.Save env clock fresh db).u := by
  unfold User.Save at h ⊢
  split at h
  · exact Option.noConfusion h
  · rename_i hcf
    simp only [hcf, hnew]
    simp only [hnew] at h
    split at h
    · exact Option.noConfusion h
    · rename_i hid
      simp only [hid]
      cases hex : Datastore.UserEmailExists db u.Email
      · refine ⟨UserEmailExists_eq_false db u.Email hex, ?_, ?_⟩
        · by_cases hp : u.Password = "" <;> simp [hp, User.hashPass]
        · by_cases hp : u.Password = "" <;> simp [hp, User.hashPass]
      · simp [hex] at h

theorem Save_valid_ok (env : Env) (clock : String) (fresh : ObjectId) (db : Collection) (u : User)
    (hid : u.ID.Valid = true) (h : (u.Save env clock fresh db).err = none) :
    u.Save env clock fresh db = ⟨none, u, db.Upsert u.ID u⟩ := by
  unfold User.Save at h ⊢
  split at h
  · exact Option.noConfusion h
  · rename_i hcf
    simp only [hcf, hid]
    simp only [hid] at h
    split at h
    · exact Option.noConfusion h
    · rename_i hne
      simp [hne]

theorem Save_error_unchanged (env : Env) (clock : String) (fresh : ObjectId) (db : Collection)
    (u : User) (h : (u.Save env clock fresh db).err ≠ none) :
    (u.Save env clock fresh db).u = u ∧ (u.Save env clock fresh db).db = db := by
  cases hcf : u.checkFields with
  | some e => simp [User.Save, hcf]
  | none =>
    cases hne : ((User.zero.ByEmail db u.Email).1.isNone &&
        (User.zero.ByEmail db u.Email).2.ID != u.ID)
    · cases hv : u.ID.Valid
      · cases hex : Datastore.UserEmailExists db u.Email
        · simp [User.Save, hcf, hne, hv, hex] at h
        · simp [User.Save, hcf, hne, hv, hex]
      · simp [User.Save, hcf, hne, hv] at h
    · simp [User.Save, hcf, hne]

theorem UserAuth_after_Save_new (env : Env) (clock : String) (fresh : ObjectId)
    (db : Collection) (u : User) (q : String)
    (hnew : u.ID.Valid = false) (h : (u.Save env clock fresh db).err = none) :
    Datastore.UserAuth env (u.Save env clock fresh db).db u.Email q =
      if (u.Save env clock fresh db).u.Password = (u.Save env clock fresh db).u.hashPass env q
      then (some (u.Save env clock fresh db).u, none)
      else (some (u.Save env clock fresh db).u, some .ErrNotFound) := by
  obtain ⟨hfree, hu, hdb⟩ := Save_new_ok env clock fresh db u hnew h
  have hemail : (u.Save env clock fresh db).u.Email = u.Email := by rw [hu]
  rw [hdb]
  generalize (u.Save env clock fresh db).u = v at hemail ⊢
  have h1 : (db.Upsert fresh v).find? (fun d => d.Email == u.Email) = some v :=
    find?_Upsert_of_true db fresh v _ hfree (by simp [hemail])
  have hc : ∀ d ∈ db, (d.Email == v.Email && d.Password == v.hashPass env q) = false := by
    intro d hd
    rw [hemail, hfree d hd]
    rfl
  unfold Datastore.UserAuth Datastore.UserByEmail
  rw [One_eq_ok _ _ v h1]
  by_cases hpw : v.Password = v.hashPass env q
  · rw [if_pos hpw]
    have h2 := find?_Upsert_of_true db fresh v
      (fun d => d.Email == v.Email && d.Password == v.hashPass env q) hc (by simp [← hpw])
    simp only [One_eq_ok _ _ v h2]
  · rw [if_neg hpw]
    have h2 := find?_Upsert_of_false db fresh v
      (fun d => d.Email == v.Email && d.Password == v.hashPass env q) hc (by simp [hpw])
    simp only [One_eq_error _ _ h2]

theorem replicate_string_injective (n m : Nat) (h : n ≠ m) :
    String.mk (List.replicate (n + 1) 'a') ≠ String.mk (List.replicate (m + 1) 'a') := by
  intro he
  have := congrArg String.length he
  simp [String.length] at this
  exact h this

theorem Save_ok_summary (env : Env) (clock : String) (fresh : ObjectId) (db : Collection)
    (u : User) (h : (u.Save env clock fresh db).err = none) :
    (u.Save env clock fresh db).db =
        db.Upsert (u.Save env clock fresh db).u.ID (u.Save env clock fresh db).u ∧
    (u.ID.Valid = false → (u.Save env clock fresh db).u.Password.length = 64) ∧
    (u.ID.Valid = true → (u.Save env clock fresh db).u = u) ∧
    ((u.Save env clock fresh db).u.Password ≠ "" ↔ (u.ID.Valid = false ∨ u.Password ≠ "")) := by
  cases hv : u.ID.Valid
  · obtain ⟨_, hu, hdb⟩ := Save_new_ok env clock fresh db u hv h
    have hlen : (u.Save env clock fresh db).u.Password.length = 64 := by
      rw [hu]; exact hash_length env _
    refine ⟨?_, fun _ => hlen, fun hc => Bool.noConfusion hc, ?_⟩
    · rw [hdb, hu]
    · constructor
      · intro _; exact Or.inl rfl
      · intro _ he
        rw [he] at hlen
        exact absurd hlen (by decide)
  · have hs := Save_valid_ok env clock fresh db u hv h
    rw [hs]
    simp

theorem length_pos_iff_ne_empty (pw : String) : pw.length > 0 ↔ pw ≠ "" := by
  rcases pw with ⟨l⟩
  cases l with
  | nil => simp [String.length]
  | cons c cs =>
    simp only [String.length, List.length_cons, gt_iff_lt, Nat.zero_lt_succ, true_iff]
    intro he
    exact absurd (congrArg String.length he) (by simp [String.length])

theorem assertString_eq_some (v : Value) (s : String) :
    v.assertString = some s ↔ v = .string s := by
  cases v <;> simp [Value.assertString]

theorem assertStrings_map (xs : List String) :
    assertStrings (xs.map Value.string) = some xs := by
  induction xs with
  | nil => rfl
  | cons x xs ih => simp [assertStrings, Value.assertString, ih]

theorem assertStrings_eq_some (vs : List Value) (xs : List String)
    (h : assertStrings vs = some xs) : vs = xs.map Value.string := by
  induction vs generalizing xs with
  | nil =>
    simp [assertStrings] at h
    rw [h]
    rfl
  | cons v vs ih =>
    unfold assertStrings at h
    cases hv : v.assertString with
    | none => simp [hv] at h
    | some s =>
      simp only [hv] at h
      cases hr : assertStrings vs with
      | none => simp [hr] at h
      | some ys =>
        simp only [hr, Option.map_some', Option.some.injEq] at h
        rw [← h, ih ys hr, (assertString_eq_some v s).1 hv]
        rfl

theorem str_eq_some (update : bson.M) (key s : String) :
    update.str key = some s ↔ update key = some (.string s) := by
  unfold bson.M.str
  cases h : update key with
  | none => simp
  | some v => simp [assertString_eq_some]

theorem strs_eq_some (update : bson.M) (key : String) (xs : List String) :
    update.strs key = some xs ↔ update key = some (.slice (xs.map Value.string)) := by
  unfold bson.M.strs
  cases h : update key with
  | none => simp
  | some v =>
    cases v <;> simp [Value.assertSlice]
    constructor
    · intro hx
      exact assertStrings_eq_some _ _ hx
    · intro hx
      rw [hx]
      exact assertStrings_map xs

theorem length_pos_iff (pw : String) : 0 < pw.length ↔ pw ≠ "" :=
  length_pos_iff_ne_empty pw

theorem str_cases (update : bson.M) (key : String) :
    (update key = none ∧ update.str key = none) ∨
    (∃ s, update key = some (.string s) ∧ update.str key = some s) ∨
    (∃ v, update key = some v ∧ v.assertString = none) := by
  unfold bson.M.str
  rcases h : update key with _ | v
  · exact Or.inl ⟨rfl, rfl⟩
  · rcases a : v.assertString with _ | s
    · exact Or.inr (Or.inr ⟨v, rfl, a⟩)
    · rw [(assertString_eq_some v s).1 a]
      exact Or.inr (Or.inl ⟨s, rfl, rfl⟩)

theorem strs_cases (update : bson.M) (key : String) :
    (update key = none ∧ update.strs key = none) ∨
    (∃ cats xs, update key = some (.slice cats) ∧ assertStrings cats = some xs ∧
      update.strs key = some xs) ∨
    (∃ v, update key = some v ∧ (v.assertSlice).bind assertStrings = none) := by
  unfold bson.M.strs
  rcases h : update key with _ | v
  · exact Or.inl ⟨rfl, rfl⟩
  · rcases a : (v.assertSlice).bind assertStrings with _ | xs
    · exact Or.inr (Or.inr ⟨v, rfl, a⟩)
    · cases v <;> simp [Value.assertSlice] at a
      exact Or.inr (Or.inl ⟨_, xs, rfl, a, by simpa [Value.assertSlice] using a⟩)

theorem bind_fun_none {α β : Type} (x : Option α) :
    x.bind (fun _ => (none : Option β)) = none := by
  cases x <;> rfl

/-- A value of another type than the one asserted makes the assignments of
`SavePartial` panic, for every user. -/
theorem applyUpdate_panic (env : Env) (update : bson.M)
    (h : (∃ key ∈ ["firstName", "lastName", "email", "password"],
          ∃ v, update key = some v ∧ v.assertString = none) ∨
        (∃ v, update "categories" = some v ∧ (v.assertSlice).bind assertStrings = none))
    (u : User) : u.applyUpdate env update = none := by
  rcases h with ⟨key, hk, v, hv, ha⟩ | ⟨v, hv, ha⟩
  · simp only [List.mem_cons, List.mem_singleton, List.not_mem_nil, or_false] at hk
    rcases hk with rfl | rfl | rfl | rfl <;>
      simp [User.applyUpdate, hv, ha, bind_fun_none]
  · have hb : (v.assertSlice).bind (fun (cats : List Value) =>
        (assertStrings cats).map (fun (xs : List String) => xs)) = none := by
      simpa using ha
    rcases hs : v.assertSlice with _ | cats
    · simp [User.applyUpdate, hv, hs, bind_fun_none]
    · have hc : assertStrings cats = none := by simpa [hs] using ha
      simp [User.applyUpdate, hv, hs, hc, bind_fun_none]

/-- The user that `SavePartial` has assigned when it reaches the
notification, when every value present has the type asserted: the values of
the update under the keys present, the user's own under the others. -/
theorem applyUpdate_typed (env : Env) (update : bson.M)
    (hstr : ∀ key ∈ ["firstName", "lastName", "email", "password"],
      ∀ v, update key = some v → v.assertString ≠ none)
    (hcat : ∀ v, update "categories" = some v → (v.assertSlice).bind assertStrings ≠ none)
    (u : User) :
    u.applyUpdate env update = some
      { u with
        FirstName := (update.str "firstName").getD u.FirstName,
        LastName := (update.str "lastName").getD u.LastName,
        Email := (update.str "email").getD u.Email,
        Password := (match update.str "password" with
          | some pw => if pw = "" then u.Password else u.hashPass env pw
          | none => u.Password),
        Categories := (update.strs "categories").getD u.Categories } := by
  have good : ∀ key ∈ ["firstName", "lastName", "email", "password"],
      (update key = none ∧ update.str key = none) ∨
        (∃ s, update key = some (.string s) ∧ update.str key = some s) := by
    intro key hk
    rcases str_cases update key with h | h | ⟨v, hv, ha⟩
    · exact Or.inl h
    · exact Or.inr h
    · exact absurd ha (hstr key hk v hv)
  have good5 : (update "categories" = none ∧ update.strs "categories" = none) ∨
      (∃ cats xs, update "categories" = some (.slice cats) ∧ assertStrings cats = some xs ∧
        update.strs "categories" = some xs) := by
    rcases strs_cases update "categories" with h | h | ⟨v, hv, ha⟩
    · exact Or.inl h
    · exact Or.inr h
    · exact absurd ha (hcat v hv)
  rcases good "firstName" (by simp) with ⟨h1, e1⟩ | ⟨s1, h1, e1⟩ <;>
  rcases good "lastName" (by simp) with ⟨h2, e2⟩ | ⟨s2, h2, e2⟩ <;>
  rcases good "email" (by simp) with ⟨h3, e3⟩ | ⟨s3, h3, e3⟩ <;>
  rcases good "password" (by simp) with ⟨h4, e4⟩ | ⟨s4, h4, e4⟩ <;>
  rcases good5 with ⟨h5, e5⟩ | ⟨v5, xs, h5, a5, e5⟩ <;>
  (first
    | simp [User.applyUpdate, h1, h2, h3, h4, h5, e1, e2, e3, e4, e5, a5,
        Value.assertString, Value.assertSlice, length_pos_iff, User.hashPass]
    | simp [User.applyUpdate, h1, h2, h3, h4, h5, e1, e2, e3, e4, e5,
        Value.assertString, Value.assertSlice, length_pos_iff, User.hashPass]) <;>
  (split <;> simp_all)

/-- The assignments of `SavePartial` either panic for every user or give
every user the values of the update under the keys present. -/
theorem applyUpdate_uniform (env : Env) (update : bson.M) :
    (∀ u : User, u.applyUpdate env update = some
      { u with
        FirstName := (update.str "firstName").getD u.FirstName,
        LastName := (update.str "lastName").getD u.LastName,
        Email := (update.str "email").getD u.Email,
        Password := (match update.str "password" with
          | some pw => if pw = "" then u.Password else u.hashPass env pw
          | none => u.Password),
        Categories := (update.strs "categories").getD u.Categories }) ∨
    (∀ u : User, u.applyUpdate env update = none) := by
  by_cases hbad : (∃ key ∈ ["firstName", "lastName", "email", "password"],
        ∃ v, update key = some v ∧ v.assertString = none) ∨
      (∃ v, update "categories" = some v ∧ (v.assertSlice).bind assertStrings = none)
  · exact Or.inr (applyUpdate_panic env update hbad)
  · left
    apply applyUpdate_typed
    · intro key hk v hv ha
      exact hbad (Or.inl ⟨key, hk, v, hv, ha⟩)
    · intro v hv ha
      exact hbad (Or.inr ⟨v, hv, ha⟩)

theorem applyUpdate_some (env : Env) (u v : User) (update : bson.M)
    (h : u.applyUpdate env update = some v) :
    v = { u with
        FirstName := (update.str "firstName").getD u.FirstName,
        LastName := (update.str "lastName").getD u.LastName,
        Email := (update.str "email").getD u.Email,
        Password := (match update.str "password" with
          | some pw => if pw = "" then u.Password else u.hashPass env pw
          | none => u.Password),
        Categories := (update.strs "categories").getD u.Categories } := by
  rcases applyUpdate_uniform env update with hg | hb
  · rw [hg u] at h
    exact (Option.some.inj h).symm
  · rw [hb u] at h
    cases h

theorem applyUpdate_ID (env : Env) (u v : User) (update : bson.M)
    (h : u.applyUpdate env update = some v) : v.ID = u.ID := by
  rw [applyUpdate_some env u v update h]

theorem applyUpdate_Password (env : Env) (u v : User) (update : bson.M)
    (h : u.applyUpdate env update = some v) :
    v.Password ≠ "" ↔
      (u.Password ≠ "" ∨ ∃ pw, update "password" = some (.string pw) ∧ pw ≠ "") := by
  rw [applyUpdate_some env u v update h]
  rcases hp : update.str "password" with _ | pw
  · have hn : ∀ pw, update "password" ≠ some (.string pw) := by
      intro pw hx
      rw [(str_eq_some update "password" pw).2 hx] at hp
      cases hp
    simp [hn]
  · have hx := (str_eq_some update "password" pw).1 hp
    by_cases he : pw = ""
    · simp [hx, he]
    · simp [hx, he, User.hashPass, hash_ne_empty]

/-- What a call of `SavePartial` that returns has done: the assignments, then
either `Save`, or the return of the error of `time.Parse`. -/
theorem SavePartial_some (env : Env) (clock : String) (fresh : ObjectId) (db : Collection)
    (u : User) (update : bson.M) (o : Outcome)
    (h : u.SavePartial env clock fresh db update = some o) :
    ∃ v, u.applyUpdate env update = some v ∧
      ((update "notification" = none ∧ o = v.Save env clock fresh db) ∨
        ∃ s, update "notification" = some (.string s) ∧
          ((∃ e, Parse s = .error e ∧ o = ⟨some e, v, db⟩) ∨
            ∃ t, Parse s = .ok t ∧
              o = User.Save env clock fresh db { v with Notification := t })) := by
  unfold User.SavePartial at h
  rcases ha : u.applyUpdate env update with _ | v
  · simp [ha] at h
  · refine ⟨v, rfl, ?_⟩
    simp only [ha, Option.some_bind] at h
    rcases hn : update "notification" with _ | x
    · left
      simp only [hn, Option.some.injEq] at h
      exact ⟨rfl, h.symm⟩
    · right
      simp only [hn] at h
      rcases hx : x.assertString with _ | s
      · simp [hx] at h
      · refine ⟨s, by rw [(assertString_eq_some x s).1 hx], ?_⟩
        simp only [hx, Option.map_some', Option.some.injEq] at h
        rcases hp : Parse s with e | t
        · left
          simp only [hp] at h
          exact ⟨e, rfl, h.symm⟩
        · right
          simp only [hp] at h
          exact ⟨t, rfl, h.symm⟩

/-- A call of `SavePartial` on an update whose values have the types asserted
returns. -/
theorem SavePartial_typed (env : Env) (clock : String) (fresh : ObjectId) (db : Collection)
    (u : User) (update : bson.M)
    (hstr : ∀ key ∈ ["firstName", "lastName", "email", "password", "notification"],
      ∀ v, update key = some v → ∃ s, v = Value.string s)
    (hcat : ∀ v, update "categories" = some v →
      ∃ xs : List String, v = Value.slice (xs.map Value.string)) :
    ∃ o, u.SavePartial env clock fresh db update = some o := by
  have ha := applyUpdate_typed env update
    (by
      intro key hk v hv
      obtain ⟨s, rfl⟩ := hstr key (by
        simp only [List.mem_cons, List.mem_singleton, List.not_mem_nil, or_false] at hk ⊢
        tauto) v hv
      simp [Value.assertString])
    (by
      intro v hv
      obtain ⟨xs, rfl⟩ := hcat v hv
      simp [Value.assertSlice, assertStrings_map]) u
  unfold User.SavePartial
  rw [ha]
  rcases hn : update "notification" with _ | x
  · exact ⟨_, rfl⟩
  · obtain ⟨s, rfl⟩ := hstr "notification" (by simp) x hn
    exact ⟨_, rfl⟩

/-- A new user saved with an empty password: the stored hash is `hashPass` of
`impossiblePassword()`, the digest of the clock reading, and the blank password
authenticates exactly when its salted digest is that stored hash. -/
theorem Save_blank_password (env : Env) (clock : String) (fresh : ObjectId) (db : Collection)
    (u : User) (hnew : u.ID.Valid = false) (hp : u.Password = "")
    (h : (u.Save env clock fresh db).err = none) :
    (u.Save env clock fresh db).u.Password =
        (u.Save env clock fresh db).u.hashPass env (impossiblePassword env clock) ∧
    ((Datastore.UserAuth env (u.Save env clock fresh db).db u.Email "").2 = none ↔
      hash env (hash env clock ++ hash env (fresh.Hex ++ env.PASSWORD_SALT)) =
        hash env ("" ++ hash env (fresh.Hex ++ env.PASSWORD_SALT))) := by
  obtain ⟨_, hu, _⟩ := Save_new_ok env clock fresh db u hnew h
  have hpw : (u.Save env clock fresh db).u.Password =
      hash env (hash env clock ++ hash env (fresh.Hex ++ env.PASSWORD_SALT)) := by
    rw [hu]; simp only [if_pos hp, impossiblePassword]
  have hhp : ∀ x : String, (u.Save env clock fresh db).u.hashPass env x =
      hash env (x ++ hash env (fresh.Hex ++ env.PASSWORD_SALT)) := by
    intro x; rw [hu]; rfl
  have hq := UserAuth_after_Save_new env clock fresh db u "" hnew h
  rw [hhp, hpw] at hq
  refine ⟨by rw [hhp, hpw]; rfl, ?_⟩
  rw [hq]
  by_cases hc : hash env (hash env clock ++ hash env (fresh.Hex ++ env.PASSWORD_SALT)) =
      hash env ("" ++ hash env (fresh.Hex ++ env.PASSWORD_SALT))
  · rw [if_pos hc]
    exact ⟨fun _ => hc, fun _ => rfl⟩
  · rw [if_neg hc]
    exact ⟨fun hn => Option.noConfusion hn, fun he => absurd he hc⟩

/-! ## Lemmas on the test data -/

theorem find?_of_unique (l : List User) (v : User) (q : User → Bool) (hv : v ∈ l)
    (hq : q v = true) (huniq : ∀ d ∈ l, q d = true → d = v) : l.find? q = some v := by
  cases hf : l.find? q with
  | none =>
    rw [List.find?_eq_none] at hf
    exact absurd hq (hf v hv)
  | some d => rw [huniq d (List.mem_of_find?_eq_some hf) (List.find?_some hf)]

theorem usersData_eq (env : Env) (xu : List User) (db db1 : Collection)
    (h : TestStore.usersData env xu db = (none, db1)) :
    db1 = db ++ xu.map (fun u => { u with Password := u.hashPass env u.Password }) := by
  induction xu generalizing db with
  | nil =>
    simp only [TestStore.usersData, Prod.mk.injEq, true_and] at h
    simp [h]
  | cons u xu ih =>
    simp only [TestStore.usersData] at h
    cases hi : db.Insert { u with
        Password := hash env (u.Password ++ hash env (u.ID.Hex ++ env.PASSWORD_SALT)) } with
    | error e => simp [hi] at h
    | ok db2 =>
      simp only [hi] at h
      have h2 := ih db2 h
      unfold Collection.Insert at hi
      split at hi
      · exact Except.noConfusion hi
      · have hdb2 : db2 = db ++ [{ u with
            Password := hash env (u.Password ++ hash env (u.ID.Hex ++ env.PASSWORD_SALT)) }] :=
          (Except.ok.inj hi).symm
        rw [h2, hdb2]
        simp [User.hashPass]

theorem UserAuth_seeded (env : Env) (xu : List User)
    (hemail : (xu.map (fun u => u.Email)).Nodup) (u : User) (hu : u ∈ xu) :
    Datastore.UserAuth env (xu.map (fun u => { u with Password := u.hashPass env u.Password }))
        u.Email u.Password =
      (some { u with Password := u.hashPass env u.Password }, none) := by
  have hmem : ({ u with Password := u.hashPass env u.Password } : User) ∈
      xu.map (fun u => { u with Password := u.hashPass env u.Password }) :=
    List.mem_map.2 ⟨u, hu, rfl⟩
  have huniq : ∀ d ∈ xu.map (fun u => { u with Password := u.hashPass env u.Password }),
      d.Email = u.Email → d = { u with Password := u.hashPass env u.Password } := by
    intro d hd he
    obtain ⟨w, hw, rfl⟩ := List.mem_map.1 hd
    have : w = u := List.inj_on_of_nodup_map hemail hw hu he
    rw [this]
  have h1 := find?_of_unique _ _ (fun d => d.Email == u.Email) hmem (by simp)
    (fun d hd hq => huniq d hd (by simpa using hq))
  have h2 := find?_of_unique _ _
    (fun d => d.Email == u.Email && d.Password == u.hashPass env u.Password) hmem (by simp)
    (fun d hd hq => huniq d hd (by
      rw [Bool.and_eq_true] at hq
      simpa using hq.1))
  unfold Datastore.UserAuth Datastore.UserByEmail
  rw [One_eq_ok _ _ _ h1]
  simp only [User.hashPass] at h2 ⊢
  simp only [One_eq_ok _ _ _ h2]

/-! ## The claims -/

/-- C1 (counterexample): a user whose record is not in the collection and whose
list holds no entry matching the query still gets an error from `SaveSearch`:
the store update fails with not-found. -/
theorem C1_counterexample :
    (User.SaveSearch sampleEnv 5 [] (sampleUser sampleId [⟨1, "athletes"⟩])
        "aortic valve").err = some Error.ErrNotFound ∧
    ¬ ∃ s ∈ (sampleUser sampleId [⟨1, "athletes"⟩]).Searches,
        Fields (ToLower sampleEnv s.Query) = Fields (ToLower sampleEnv "aortic valve") := by
  constructor
  · decide
  · decide

/-- C1 (amended): `SaveSearch` returns its duplicate error exactly when some
existing entry has the same lower-cased whitespace-separated tokens as the
query; it returns some error exactly when that is so or no stored record has
the user's id (the store update then fails), hence, for a stored user, exactly
when some entry matches. Case and whitespace variants match; a different word
order or punctuation does not. -/
theorem C1_SaveSearch_error_iff (env : Env) (now : Time) (db : Collection) (u : User)
    (query : String) :
    ((u.SaveSearch env now db query).err =
        some (.New "exact search query already exists for this user") ↔
      ∃ s ∈ u.Searches, Fields (ToLower env s.Query) = Fields (ToLower env query)) ∧
    ((u.SaveSearch env now db query).err ≠ none ↔
      (∃ s ∈ u.Searches, Fields (ToLower env s.Query) = Fields (ToLower env query)) ∨
        ¬ ∃ d ∈ db, d.ID = u.ID) ∧
    ((∃ d ∈ db, d.ID = u.ID) →
      ((u.SaveSearch env now db query).err ≠ none ↔
        ∃ s ∈ u.Searches, Fields (ToLower env s.Query) = Fields (ToLower env query))) ∧
    (∀ a b : String, ToLower env a = ToLower env b → matchString env a b = true) ∧
    matchString sampleEnv "Aortic Valve" "aortic valve" = true ∧
    matchString sampleEnv "  aortic \t  valve " "aortic valve" = true ∧
    matchString sampleEnv "valve aortic" "aortic valve" = false ∧
    matchString sampleEnv "aortic-valve" "aortic valve" = false := by
  rw [← SearchExists_iff]
  have hany : (u.SaveSearch env now db query).err ≠ none ↔
      u.SearchExists env query = true ∨ ¬ ∃ d ∈ db, d.ID = u.ID := by
    rcases SaveSearch_cases env now db u query with ⟨h, e⟩ | ⟨h, hdb, e⟩ | ⟨h, hdb, e⟩
    · simp [e, h]
    · simp only [e, h]
      simpa using hdb
    · simp only [e, h]
      simpa using hdb
  refine ⟨?_, hany, ?_, ?_, by decide, by decide, by decide, by decide⟩
  · rcases SaveSearch_cases env now db u query with ⟨h, e⟩ | ⟨h, _, e⟩ | ⟨h, _, e⟩ <;>
      simp [e, h]
  · intro hdb
    rw [hany]
    exact ⟨fun h => h.elim id (fun hn => absurd hdb hn), Or.inl⟩
  · intro a b hab
    simp [matchString, hab]

/-- C2: the no-duplicate invariant of `u.Searches` is kept by `SaveSearch` and
by `DeleteSearch`, whether the call returns an error or not. -/
theorem C2_noDuplicate_preserved (env : Env) (now : Time) (db : Collection) (u : User)
    (query : String) (h : NoDuplicateSearches env u.Searches) :
    NoDuplicateSearches env (u.SaveSearch env now db query).u.Searches ∧
    NoDuplicateSearches env (u.DeleteSearch env now db query).u.Searches := by
  constructor
  · rcases SaveSearch_cases env now db u query with ⟨_, e⟩ | ⟨_, _, e⟩ | ⟨hs, _, e⟩
    · rw [e]; exact h
    · rw [e]; exact h
    · rw [e]
      rw [noDuplicateSearches_iff_pairwise] at h ⊢
      rw [SearchExists_eq_false_iff] at hs
      rw [List.pairwise_append]
      refine ⟨h, List.pairwise_singleton _ _, ?_⟩
      intro a ha b hb
      rw [List.mem_singleton] at hb
      subst hb
      exact hs a ha
  · rcases DeleteSearch_cases env now db u query with ⟨_, e⟩ | ⟨_, _, e⟩ | ⟨_, _, e⟩
    · rw [e]; exact h
    · rw [e]; exact h
    · rw [e]
      rw [noDuplicateSearches_iff_pairwise] at h ⊢
      exact h.sublist (List.filter_sublist _)

/-- C2 (witness): a stored user with two distinct searches. -/
theorem C2_noDuplicate_preserved_witness :
    NoDuplicateSearches sampleEnv
        (User.SaveSearch sampleEnv 5
          [sampleUser sampleId [⟨1, "cardiomyopathy"⟩, ⟨2, "athletes"⟩]]
          (sampleUser sampleId [⟨1, "cardiomyopathy"⟩, ⟨2, "athletes"⟩]) "cath lab").u.Searches ∧
    NoDuplicateSearches sampleEnv
        (User.DeleteSearch sampleEnv 5
          [sampleUser sampleId [⟨1, "cardiomyopathy"⟩, ⟨2, "athletes"⟩]]
          (sampleUser sampleId [⟨1, "cardiomyopathy"⟩, ⟨2, "athletes"⟩]) "cath lab").u.Searches :=
  C2_noDuplicate_preserved sampleEnv 5
    [sampleUser sampleId [⟨1, "cardiomyopathy"⟩, ⟨2, "athletes"⟩]]
    (sampleUser sampleId [⟨1, "cardiomyopathy"⟩, ⟨2, "athletes"⟩]) "cath lab"
    ((noDuplicateSearches_iff_pairwise _ _).2 (by decide))

/-- C3 (counterexample): the list holds an entry equal to the query, yet
`DeleteSearch` returns an error, because no stored record has the user's id and
the store update fails with not-found. -/
theorem C3_counterexample :
    (User.DeleteSearch sampleEnv 5 [] (sampleUser sampleId [⟨1, "athletes"⟩])
        "athletes").err = some Error.ErrNotFound ∧
    ∃ s ∈ (sampleUser sampleId [⟨1, "athletes"⟩]).Searches,
        Fields (ToLower sampleEnv s.Query) = Fields (ToLower sampleEnv "athletes") := by
  constructor
  · decide
  · exact ⟨⟨1, "athletes"⟩, by simp [sampleUser], rfl⟩

/-- C3 (amended): `DeleteSearch` returns its cannot-find error exactly when no
existing entry normalizes equal to the query, and then the user and the
collection are what they were (no update reaches the store). It returns some
error exactly when that is so or no stored record has the user's id (hence,
for a stored user, exactly when no entry matches); on every error the user and
the collection are unchanged. -/
theorem C3_DeleteSearch_error_iff (env : Env) (now : Time) (db : Collection) (u : User)
    (query : String) :
    ((u.DeleteSearch env now db query).err =
        some (.New "cannot find the query so unable to delete it") ↔
      ¬ ∃ s ∈ u.Searches, Fields (ToLower env s.Query) = Fields (ToLower env query)) ∧
    ((¬ ∃ s ∈ u.Searches, Fields (ToLower env s.Query) = Fields (ToLower env query)) →
      (u.DeleteSearch env now db query).u = u ∧ (u.DeleteSearch env now db query).db = db) ∧
    ((u.DeleteSearch env now db query).err ≠ none ↔
      (¬ ∃ s ∈ u.Searches, Fields (ToLower env s.Query) = Fields (ToLower env query)) ∨
        ¬ ∃ d ∈ db, d.ID = u.ID) ∧
    ((u.DeleteSearch env now db query).err ≠ none →
      (u.DeleteSearch env now db query).u = u ∧ (u.DeleteSearch env now db query).db = db) ∧
    ((∃ d ∈ db, d.ID = u.ID) →
      ((u.DeleteSearch env now db query).err ≠ none ↔
        ¬ ∃ s ∈ u.Searches, Fields (ToLower env s.Query) = Fields (ToLower env query))) := by
  rw [← SearchExists_iff]
  rcases DeleteSearch_cases env now db u query with ⟨h, e⟩ | ⟨h, hdb, e⟩ | ⟨h, hdb, e⟩
  · simp [e, h]
  · simp only [e, h]
    refine ⟨?_, ?_, ?_, ?_, fun hc => absurd hc hdb⟩ <;> simp [hdb]
  · simp only [e, h]
    refine ⟨?_, ?_, ?_, ?_, fun _ => ?_⟩ <;> simp [hdb]

/-- C3 (witness): deleting an absent query from a stored user. -/
theorem C3_DeleteSearch_error_iff_witness :
    (User.DeleteSearch sampleEnv 5 [sampleUser sampleId [⟨1, "athletes"⟩]]
        (sampleUser sampleId [⟨1, "athletes"⟩]) "cath lab").u =
      sampleUser sampleId [⟨1, "athletes"⟩] ∧
    (User.DeleteSearch sampleEnv 5 [sampleUser sampleId [⟨1, "athletes"⟩]]
        (sampleUser sampleId [⟨1, "athletes"⟩]) "cath lab").db =
      [sampleUser sampleId [⟨1, "athletes"⟩]] :=
  (C3_DeleteSearch_error_iff sampleEnv 5 [sampleUser sampleId [⟨1, "athletes"⟩]]
    (sampleUser sampleId [⟨1, "athletes"⟩]) "cath lab").2.1 (by decide)

/-- C4 (the code at the failing input): the user holds the search
"Aortic Valve" and deletes "aortic valve". `DeleteSearch` returns no error,
the list and the stored record are unchanged, and `SearchExists` is still true
for the deleted query. -/
theorem C4_DeleteSearch_keeps_variant :
    (User.DeleteSearch sampleEnv 5 [sampleUser sampleId [⟨1, "Aortic Valve"⟩]]
        (sampleUser sampleId [⟨1, "Aortic Valve"⟩]) "aortic valve").err = none ∧
    User.SearchExists sampleEnv
        (User.DeleteSearch sampleEnv 5 [sampleUser sampleId [⟨1, "Aortic Valve"⟩]]
          (sampleUser sampleId [⟨1, "Aortic Valve"⟩]) "aortic valve").u "aortic valve" = true ∧
    (User.DeleteSearch sampleEnv 5 [sampleUser sampleId [⟨1, "Aortic Valve"⟩]]
        (sampleUser sampleId [⟨1, "Aortic Valve"⟩]) "aortic valve").u.Searches =
      [⟨1, "Aortic Valve"⟩] ∧
    (User.DeleteSearch sampleEnv 5 [sampleUser sampleId [⟨1, "Aortic Valve"⟩]]
        (sampleUser sampleId [⟨1, "Aortic Valve"⟩]) "aortic valve").db =
      [sampleUser sampleId [⟨1, "Aortic Valve"⟩]] := by
  refine ⟨by decide, by decide, by decide, by decide⟩

/-- C5: when `DeleteSearch` returns no error, the new list is the old one
without the entries whose `Query` equals the query, the others in their old
order; if moreover the old list had no duplicates and an entry with exactly
that query, the new list is one shorter. -/
theorem C5_DeleteSearch_result (env : Env) (now : Time) (db : Collection) (u : User)
    (query : String) (h : (u.DeleteSearch env now db query).err = none) :
    (u.DeleteSearch env now db query).u.Searches =
        u.Searches.filter (fun s => decide (s.Query ≠ query)) ∧
    (∀ s, s ∈ (u.DeleteSearch env now db query).u.Searches ↔
        s ∈ u.Searches ∧ s.Query ≠ query) ∧
    (u.DeleteSearch env now db query).u.Searches.Sublist u.Searches ∧
    (NoDuplicateSearches env u.Searches → (∃ s ∈ u.Searches, s.Query = query) →
      (u.DeleteSearch env now db query).u.Searches.length + 1 = u.Searches.length) := by
  rcases DeleteSearch_cases env now db u query with ⟨_, e⟩ | ⟨_, _, e⟩ | ⟨_, _, e⟩
  · rw [e] at h; exact Option.noConfusion h
  · rw [e] at h; exact Option.noConfusion h
  · rw [e]
    have hf : (fun s : Search => s.Query != query) = fun s => decide (s.Query ≠ query) := by
      funext s; by_cases hs : s.Query = query <;> simp [hs]
    refine ⟨by rw [hf], ?_, List.filter_sublist _, ?_⟩
    · intro s; simp [List.mem_filter]
    · rw [hf]
      intro hnd ⟨s, hs, hq⟩
      rw [noDuplicateSearches_iff_pairwise] at hnd
      have hle := countP_query_le_one env query u.Searches hnd
      have hpos : 0 < u.Searches.countP (fun s => s.Query == query) :=
        List.countP_pos_iff.2 ⟨s, hs, by simpa using hq⟩
      have hlen := List.length_eq_countP_add_countP (fun s : Search => s.Query == query) u.Searches
      have hneg : u.Searches.countP (fun a => decide ¬(a.Query == query) = true) =
          (u.Searches.filter (fun s => decide (s.Query ≠ query))).length := by
        rw [List.countP_eq_length_filter]
        congr 2
        funext s; simp
      show (u.Searches.filter (fun s => decide (s.Query ≠ query))).length + 1 = u.Searches.length
      omega

/-- C5 (witness): deleting one of two stored searches. -/
theorem C5_DeleteSearch_result_witness :
    (User.DeleteSearch sampleEnv 5
        [sampleUser sampleId [⟨1, "cardiomyopathy"⟩, ⟨2, "athletes"⟩]]
        (sampleUser sampleId [⟨1, "cardiomyopathy"⟩, ⟨2, "athletes"⟩])
        "cardiomyopathy").u.Searches.length + 1 = 2 :=
  (C5_DeleteSearch_result sampleEnv 5
    [sampleUser sampleId [⟨1, "cardiomyopathy"⟩, ⟨2, "athletes"⟩]]
    (sampleUser sampleId [⟨1, "cardiomyopathy"⟩, ⟨2, "athletes"⟩])
    "cardiomyopathy" (by decide)).2.2.2
    ((noDuplicateSearches_iff_pairwise _ _).2 (by decide))
    ⟨⟨1, "cardiomyopathy"⟩, by simp [sampleUser], rfl⟩

/-- C6: the list after `SaveSearch`. On the duplicate error, and on any other
error, it is the old list; on success it is the old list followed by the one
entry `{now, query}` with the query verbatim, so it is one longer and every
old position keeps its entry. Saving "Cardiomyopathy" and then
"cardiomyopathy  " leaves one entry. -/
theorem C6_SaveSearch_result (env : Env) (now : Time) (db : Collection) (u : User)
    (query : String) :
    (u.SearchExists env query = true →
      (u.SaveSearch env now db query).err =
          some (.New "exact search query already exists for this user") ∧
        (u.SaveSearch env now db query).u.Searches = u.Searches) ∧
    ((u.SaveSearch env now db query).err ≠ none →
      (u.SaveSearch env now db query).u.Searches = u.Searches) ∧
    ((u.SaveSearch env now db query).err = none →
      (u.SaveSearch env now db query).u.Searches = u.Searches ++ [⟨now, query⟩] ∧
        (u.SaveSearch env now db query).u.Searches.length = u.Searches.length + 1 ∧
        ∀ i, i < u.Searches.length →
          (u.SaveSearch env now db query).u.Searches[i]? = u.Searches[i]?) ∧
    ((User.SaveSearch sampleEnv 5 [sampleUser sampleId []] (sampleUser sampleId [])
        "Cardiomyopathy").err = none ∧
      (User.SaveSearch sampleEnv 6
        (User.SaveSearch sampleEnv 5 [sampleUser sampleId []] (sampleUser sampleId [])
          "Cardiomyopathy").db
        (User.SaveSearch sampleEnv 5 [sampleUser sampleId []] (sampleUser sampleId [])
          "Cardiomyopathy").u
        "cardiomyopathy  ").err =
          some (.New "exact search query already exists for this user") ∧
      (User.SaveSearch sampleEnv 6
        (User.SaveSearch sampleEnv 5 [sampleUser sampleId []] (sampleUser sampleId [])
          "Cardiomyopathy").db
        (User.SaveSearch sampleEnv 5 [sampleUser sampleId []] (sampleUser sampleId [])
          "Cardiomyopathy").u
        "cardiomyopathy  ").u.Searches = [⟨5, "Cardiomyopathy"⟩]) := by
  refine ⟨?_, ?_, ?_, by decide, by decide, by decide⟩
  · intro h
    rw [SaveSearch_of_exists env now db u query h]
    exact ⟨rfl, rfl⟩
  · rcases SaveSearch_cases env now db u query with ⟨_, e⟩ | ⟨_, _, e⟩ | ⟨_, _, e⟩ <;>
      simp [e]
  · rcases SaveSearch_cases env now db u query with ⟨_, e⟩ | ⟨_, _, e⟩ | ⟨_, _, e⟩
    · simp [e]
    · simp [e]
    · rw [e]
      intro _
      refine ⟨rfl, by simp, ?_⟩
      intro i hi
      exact List.getElem?_append_left hi

/-- C6 (witness): a successful save on a stored user with one search. -/
theorem C6_SaveSearch_result_witness :
    (User.SaveSearch sampleEnv 5 [sampleUser sampleId [⟨1, "athletes"⟩]]
        (sampleUser sampleId [⟨1, "athletes"⟩]) " Cath  Lab").u.Searches =
      [⟨1, "athletes"⟩] ++ [⟨5, " Cath  Lab"⟩] :=
  ((C6_SaveSearch_result sampleEnv 5 [sampleUser sampleId [⟨1, "athletes"⟩]]
    (sampleUser sampleId [⟨1, "athletes"⟩]) " Cath  Lab").2.2.1 (by decide)).1

/-- C7 (counterexample): whatever the digest function, (1) on the empty store
there are two different non-empty passwords `p` and `q` such that the user
created by `Save` with `p` authenticates with `q` (the digests of infinitely
many passwords fall in a finite set), so "succeeds iff `q` is exactly `p`"
holds for no digest; and (2) a user saved with a caller-chosen valid id is
stored with the password as given, and then does not authenticate with it. -/
theorem C7_counterexample :
    (¬ ∃ env : Env, ∀ p q : String, p ≠ "" →
      (User.Save env "2018-11-02 10:00:00 +0000 UTC" freshId [] (mike ⟨[]⟩ p)).err = none ∧
      ((Datastore.UserAuth env (User.Save env "2018-11-02 10:00:00 +0000 UTC" freshId []
          (mike ⟨[]⟩ p)).db "mike@rtcl.io" q).2 = none ↔ q = p)) ∧
    (¬ ∃ env : Env,
      (User.Save env "2018-11-02 10:00:00 +0000 UTC" freshId []
          (mike sampleId "ILike2MoveItMoveIt")).err ≠ none ∨
      (Datastore.UserAuth env (User.Save env "2018-11-02 10:00:00 +0000 UTC" freshId []
          (mike sampleId "ILike2MoveItMoveIt")).db "mike@rtcl.io" "ILike2MoveItMoveIt").2 = none) := by
  constructor
  · rintro ⟨env, hclaim⟩
    obtain ⟨p, q, hp, hqp, hf⟩ : ∃ p q : String, p ≠ "" ∧ q ≠ p ∧
        env.sum256 (p ++ hash env (freshId.Hex ++ env.PASSWORD_SALT)) =
          env.sum256 (q ++ hash env (freshId.Hex ++ env.PASSWORD_SALT)) := by
      obtain ⟨n, m, hnm, hf⟩ := Finite.exists_ne_map_eq_of_infinite
        (fun n : ℕ => env.sum256 (String.mk (List.replicate (n + 1) 'a') ++
          hash env (freshId.Hex ++ env.PASSWORD_SALT)))
      refine ⟨_, _, ?_, replicate_string_injective m n (Ne.symm hnm), hf⟩
      intro he
      have := congrArg String.length he
      simp [String.length] at this
    have hh : hash env (p ++ hash env (freshId.Hex ++ env.PASSWORD_SALT)) =
        hash env (q ++ hash env (freshId.Hex ++ env.PASSWORD_SALT)) :=
      congrArg (fun d : Digest => hexString d.toList) hf
    obtain ⟨hsave, hiff⟩ := hclaim p q hp
    have hnew : (mike ⟨[]⟩ p).ID.Valid = false := rfl
    have hauth := UserAuth_after_Save_new env _ _ _ _ q hnew hsave
    obtain ⟨_, hu, _⟩ := Save_new_ok env _ _ _ _ hnew hsave
    have hpw : (User.Save env "2018-11-02 10:00:00 +0000 UTC" freshId [] (mike ⟨[]⟩ p)).u.Password =
        (User.Save env "2018-11-02 10:00:00 +0000 UTC" freshId [] (mike ⟨[]⟩ p)).u.hashPass env q := by
      rw [hu]
      simp only [mike, if_neg hp, User.hashPass]
      exact hh
    rw [if_pos hpw] at hauth
    have hemail : (mike ⟨[]⟩ p).Email = "mike@rtcl.io" := rfl
    rw [hemail] at hauth
    exact hqp (hiff.1 (by rw [hauth]))
  · rintro ⟨env, hbad⟩
    have hsave : User.Save env "2018-11-02 10:00:00 +0000 UTC" freshId []
        (mike sampleId "ILike2MoveItMoveIt") =
          ⟨none, mike sampleId "ILike2MoveItMoveIt", [mike sampleId "ILike2MoveItMoveIt"]⟩ := rfl
    have hne : ("ILike2MoveItMoveIt" == (mike sampleId "ILike2MoveItMoveIt").hashPass env
        "ILike2MoveItMoveIt") = false := by
      rw [beq_eq_false_iff_ne]
      intro he
      have := congrArg String.length he
      rw [User.hashPass, hash_length] at this
      exact absurd this (by decide)
    have hauth : Datastore.UserAuth env [mike sampleId "ILike2MoveItMoveIt"] "mike@rtcl.io"
        "ILike2MoveItMoveIt" = (some (mike sampleId "ILike2MoveItMoveIt"), some .ErrNotFound) := by
      have h1 : Datastore.UserByEmail [mike sampleId "ILike2MoveItMoveIt"] "mike@rtcl.io" =
          .ok (mike sampleId "ILike2MoveItMoveIt") := rfl
      unfold Datastore.UserAuth
      rw [h1]
      simp only [Collection.One, List.find?, mike] at hne ⊢
      simp [hne]
    rw [hsave] at hbad
    rcases hbad with h | h
    · exact h rfl
    · rw [hauth] at h
      exact Option.noConfusion h

/-- C7 (amended): for a new user (id not valid on entry) saved with a non-empty
raw password `p`, `Datastore.UserAuth(email, q)` succeeds exactly when the salted digest
of `q` is the stored salted digest of `p`. So `p` itself always authenticates,
every `q` whose digest differs is rejected, and an email that no stored record
has is rejected. -/
theorem C7_UserAuth_after_Save (env : Env) (clock : String) (fresh : ObjectId)
    (db : Collection) (u : User) (q : String)
    (hnew : u.ID.Valid = false) (hp : u.Password ≠ "")
    (h : (u.Save env clock fresh db).err = none) :
    (u.Save env clock fresh db).u.Password =
        hash env (u.Password ++ hash env (fresh.Hex ++ env.PASSWORD_SALT)) ∧
    ((Datastore.UserAuth env (u.Save env clock fresh db).db u.Email q).2 = none ↔
      hash env (q ++ hash env (fresh.Hex ++ env.PASSWORD_SALT)) =
        hash env (u.Password ++ hash env (fresh.Hex ++ env.PASSWORD_SALT))) ∧
    Datastore.UserAuth env (u.Save env clock fresh db).db u.Email u.Password =
        (some (u.Save env clock fresh db).u, none) ∧
    (hash env (q ++ hash env (fresh.Hex ++ env.PASSWORD_SALT)) ≠
        hash env (u.Password ++ hash env (fresh.Hex ++ env.PASSWORD_SALT)) →
      (Datastore.UserAuth env (u.Save env clock fresh db).db u.Email q).2 = some .ErrNotFound) ∧
    (∀ email : String, (∀ d ∈ (u.Save env clock fresh db).db, d.Email ≠ email) →
      Datastore.UserAuth env (u.Save env clock fresh db).db email q = (none, some .ErrNotFound)) := by
  obtain ⟨_, hu, _⟩ := Save_new_ok env clock fresh db u hnew h
  have hpw : (u.Save env clock fresh db).u.Password =
      hash env (u.Password ++ hash env (fresh.Hex ++ env.PASSWORD_SALT)) := by
    rw [hu]; simp only [if_neg hp]
  have hhp : ∀ x : String, (u.Save env clock fresh db).u.hashPass env x =
      hash env (x ++ hash env (fresh.Hex ++ env.PASSWORD_SALT)) := by
    intro x; rw [hu]; rfl
  have hq := UserAuth_after_Save_new env clock fresh db u q hnew h
  have hpp := UserAuth_after_Save_new env clock fresh db u u.Password hnew h
  rw [hhp, hpw] at hq hpp
  rw [if_pos rfl] at hpp
  refine ⟨hpw, ?_, hpp, ?_, fun email he => UserAuth_unknown_email env _ email q he⟩
  · rw [hq]
    by_cases hc : hash env (u.Password ++ hash env (fresh.Hex ++ env.PASSWORD_SALT)) =
        hash env (q ++ hash env (fresh.Hex ++ env.PASSWORD_SALT))
    · simp [hc]
    · simp [hc, Ne.symm hc]
  · intro hne
    rw [hq, if_neg (Ne.symm hne)]

/-- C7 (witness): the user of testUserAuth on an empty store; the raw password
authenticates. -/
theorem C7_UserAuth_after_Save_witness :
    Datastore.UserAuth sampleEnv
        (User.Save sampleEnv "2018-11-02 10:00:00 +0000 UTC" freshId []
          (mike ⟨[]⟩ "ILike2MoveItMoveIt")).db "mike@rtcl.io" "ILike2MoveItMoveIt" =
      (some (User.Save sampleEnv "2018-11-02 10:00:00 +0000 UTC" freshId []
          (mike ⟨[]⟩ "ILike2MoveItMoveIt")).u, none) :=
  (C7_UserAuth_after_Save sampleEnv "2018-11-02 10:00:00 +0000 UTC" freshId []
    (mike ⟨[]⟩ "ILike2MoveItMoveIt") "ilike2moveitmoveit" (by decide) (by decide)
    (by decide)).2.2.1

/-- C8: `hashPass(password)` is `hash(password ++ hash(hex(id) ++ secret))`
with `secret` the value of `PASSWORD_SALT`; the seeding routine stores every
record with its password replaced by that same value; hence on a store seeded
from records with distinct emails, and on the store seeded from
`MONGO_USERS_DATA`, every seeded user authenticates with its raw password. -/
theorem C8_hashPass_and_seeding (env : Env) :
    (∀ (u : User) (password : String),
      u.hashPass env password =
        hash env (password ++ hash env (u.ID.Hex ++ env.PASSWORD_SALT))) ∧
    (∀ xu : List User, (TestStore.usersData env xu []).1 = none →
      (TestStore.usersData env xu []).2 =
        xu.map (fun u => { u with Password := u.hashPass env u.Password })) ∧
    (∀ xu : List User, (TestStore.usersData env xu []).1 = none →
      (xu.map (fun u => u.Email)).Nodup →
      ∀ u ∈ xu, Datastore.UserAuth env (TestStore.usersData env xu []).2 u.Email u.Password =
        (some { u with Password := u.hashPass env u.Password }, none)) ∧
    ((TestStore.usersData env MONGO_USERS_DATA []).1 = none ∧
      ∀ u ∈ MONGO_USERS_DATA,
        Datastore.UserAuth env (TestStore.usersData env MONGO_USERS_DATA []).2 u.Email u.Password =
          (some { u with Password := u.hashPass env u.Password }, none)) := by
  have hdata : ∀ xu : List User, (TestStore.usersData env xu []).1 = none →
      (TestStore.usersData env xu []).2 =
        xu.map (fun u => { u with Password := u.hashPass env u.Password }) := by
    intro xu h
    have := usersData_eq env xu [] (TestStore.usersData env xu []).2 (Prod.ext h rfl)
    simpa using this
  have hauth : ∀ xu : List User, (TestStore.usersData env xu []).1 = none →
      (xu.map (fun u => u.Email)).Nodup →
      ∀ u ∈ xu, Datastore.UserAuth env (TestStore.usersData env xu []).2 u.Email u.Password =
        (some { u with Password := u.hashPass env u.Password }, none) := by
    intro xu h hemail u hu
    rw [hdata xu h]
    exact UserAuth_seeded env xu hemail u hu
  have hseed : (TestStore.usersData env MONGO_USERS_DATA []).1 = none := rfl
  exact ⟨fun _ _ => rfl, hdata, hauth, hseed, hauth MONGO_USERS_DATA hseed (by decide)⟩

/-- C8 (witness): the seeded user br@rtcl.io authenticates with "12345abcde". -/
theorem C8_hashPass_and_seeding_witness :
    (Datastore.UserAuth sampleEnv (TestStore.usersData sampleEnv MONGO_USERS_DATA []).2 "br@rtcl.io"
      "12345abcde").2 = none :=
  congrArg Prod.snd ((C8_hashPass_and_seeding sampleEnv).2.2.1 MONGO_USERS_DATA rfl (by decide)
    _ (List.mem_cons_self _ _))

/-- C10 (counterexample): a user whose id is already a valid object id and
whose password is empty is saved without error, and the record written to the
store has an empty `Password`. -/
theorem C10_counterexample :
    (User.Save sampleEnv "2018-11-02 10:00:00 +0000 UTC" freshId [] (mike sampleId "")).err = none ∧
    (User.Save sampleEnv "2018-11-02 10:00:00 +0000 UTC" freshId [] (mike sampleId "")).db =
      [mike sampleId ""] ∧
    (mike sampleId "").ID.Valid = true ∧
    (mike sampleId "").Password = "" := by
  refine ⟨by decide, by decide, by decide, by decide⟩

/-- C10 (amended): the record a successful `Save` writes has a non-empty
`Password` (a 64-character digest) when the user's id was not valid on entry;
when the id was already valid the user is written as given, so the written
`Password` is non-empty exactly when the input's is. For `SavePartial` the
same holds of the password after the update: whenever the call returns
without error, the written password is non-empty exactly when the id was not
valid, the user's password was non-empty, or the update carries a non-empty
password; and the call does return when every value of the update has the
type the method asserts. -/
theorem C10_Save_password (env : Env) (clock : String) (fresh : ObjectId) (db : Collection)
    (u : User) (update : bson.M) :
    ((u.Save env clock fresh db).err = none →
      (u.Save env clock fresh db).db =
          db.Upsert (u.Save env clock fresh db).u.ID (u.Save env clock fresh db).u ∧
      (u.Save env clock fresh db).u ∈ (u.Save env clock fresh db).db ∧
      (u.ID.Valid = false → (u.Save env clock fresh db).u.Password.length = 64) ∧
      (u.ID.Valid = true → (u.Save env clock fresh db).u = u) ∧
      ((u.Save env clock fresh db).u.Password ≠ "" ↔
        (u.ID.Valid = false ∨ u.Password ≠ ""))) ∧
    (∀ o, u.SavePartial env clock fresh db update = some o → o.err = none →
      o.db = db.Upsert o.u.ID o.u ∧
      o.u ∈ o.db ∧
      (o.u.Password ≠ "" ↔
        (u.ID.Valid = false ∨ u.Password ≠ "" ∨
          ∃ pw, update "password" = some (.string pw) ∧ pw ≠ ""))) ∧
    ((∀ key ∈ ["firstName", "lastName", "email", "password", "notification"],
        ∀ v, update key = some v → ∃ s, v = Value.string s) →
      (∀ v, update "categories" = some v →
        ∃ xs : List String, v = Value.slice (xs.map Value.string)) →
      ∃ o, u.SavePartial env clock fresh db update = some o) := by
  have key : ∀ v : User, (v.Save env clock fresh db).err = none →
      (v.Save env clock fresh db).db =
          db.Upsert (v.Save env clock fresh db).u.ID (v.Save env clock fresh db).u ∧
      (v.Save env clock fresh db).u ∈ (v.Save env clock fresh db).db ∧
      (v.ID.Valid = false → (v.Save env clock fresh db).u.Password.length = 64) ∧
      (v.ID.Valid = true → (v.Save env clock fresh db).u = v) ∧
      ((v.Save env clock fresh db).u.Password ≠ "" ↔
        (v.ID.Valid = false ∨ v.Password ≠ "")) := by
    intro v hv
    obtain ⟨h1, h2, h3, h4⟩ := Save_ok_summary env clock fresh db v hv
    refine ⟨h1, ?_, h2, h3, h4⟩
    rw [h1]
    exact self_mem_Upsert _ _ _
  refine ⟨key u, ?_, SavePartial_typed env clock fresh db u update⟩
  intro o ho h
  obtain ⟨w, hw, hcase⟩ := SavePartial_some env clock fresh db u update o ho
  have hpart : ∀ v : User, v.ID = u.ID → v.Password = w.Password →
      (v.Save env clock fresh db).err = none →
      (v.Save env clock fresh db).db =
          db.Upsert (v.Save env clock fresh db).u.ID (v.Save env clock fresh db).u ∧
      (v.Save env clock fresh db).u ∈ (v.Save env clock fresh db).db ∧
      ((v.Save env clock fresh db).u.Password ≠ "" ↔
        (u.ID.Valid = false ∨ u.Password ≠ "" ∨
          ∃ pw, update "password" = some (.string pw) ∧ pw ≠ "")) := by
    intro v hid hpw hv
    obtain ⟨h1, h2, _, _, h5⟩ := key v hv
    refine ⟨h1, h2, ?_⟩
    rw [h5, hid, hpw, applyUpdate_Password env u w update hw]
  rcases hcase with ⟨_, rfl⟩ | ⟨s, _, ⟨e, _, rfl⟩ | ⟨t, _, rfl⟩⟩
  · exact hpart _ (applyUpdate_ID env u w update hw) rfl h
  · simp at h
  · exact hpart _ (applyUpdate_ID env u w update hw) rfl h

/-- C10 (witness): a new user saved with a password, and a stored user updated
with a last name and an empty password. -/
theorem C10_Save_password_witness :
    (User.Save sampleEnv "2018-11-02 10:00:00 +0000 UTC" freshId []
        (mike ⟨[]⟩ "ILike2MoveItMoveIt")).u.Password.length = 64 ∧
    (∀ o, User.SavePartial sampleEnv "2018-11-02 10:00:00 +0000 UTC" freshId
        [mike sampleId "abc"] (mike sampleId "abc") sampleUpdateBlankPassword = some o →
      o.err = none →
      (o.u.Password ≠ "" ↔
        ((mike sampleId "abc").ID.Valid = false ∨ (mike sampleId "abc").Password ≠ "" ∨
          ∃ pw, sampleUpdateBlankPassword "password" = some (.string pw) ∧ pw ≠ ""))) ∧
    (User.SavePartial sampleEnv "2018-11-02 10:00:00 +0000 UTC" freshId
        [mike sampleId "abc"] (mike sampleId "abc") sampleUpdateBlankPassword).isSome = true :=
  ⟨((C10_Save_password sampleEnv "2018-11-02 10:00:00 +0000 UTC" freshId []
      (mike ⟨[]⟩ "ILike2MoveItMoveIt") emptyUpdate).1
        (by decide)).2.2.1 (by decide),
   fun o ho he =>
    (((C10_Save_password sampleEnv "2018-11-02 10:00:00 +0000 UTC" freshId
      [mike sampleId "abc"] (mike sampleId "abc") sampleUpdateBlankPassword).2.1 o ho he).2.2),
   by decide⟩

/-! ## Lemmas on email uniqueness -/

theorem map_Email_modifyFirst_of_fresh (p : User → Bool) (v : User) (c : Collection)
    (hnd : (c.map (fun d => d.Email)).Nodup) (hfree : ∀ d ∈ c, d.Email ≠ v.Email) :
    ((modifyFirst p (fun _ => v) c).map (fun d => d.Email)).Nodup := by
  induction c with
  | nil => simp [modifyFirst]
  | cons a c ih =>
    rw [List.map_cons, List.nodup_cons] at hnd
    have hfree2 : ∀ d ∈ c, d.Email ≠ v.Email := fun d hd => hfree d (List.mem_cons_of_mem _ hd)
    simp only [modifyFirst]
    split
    · rw [List.map_cons, List.nodup_cons]
      refine ⟨?_, hnd.2⟩
      intro hmem
      obtain ⟨d, hd, he⟩ := List.mem_map.1 hmem
      exact hfree2 d hd he
    · rw [List.map_cons, List.nodup_cons]
      refine ⟨?_, ih hnd.2 hfree2⟩
      intro hmem
      obtain ⟨d, hd, he⟩ := List.mem_map.1 hmem
      rcases mem_modifyFirst p v c d hd with h | h
      · rw [h] at he
        exact hfree a (List.mem_cons_self _ _) he.symm
      · exact hnd.1 (List.mem_map.2 ⟨d, h, he⟩)

theorem map_Email_Upsert_of_fresh (c : Collection) (id : ObjectId) (v : User)
    (hnd : (c.map (fun d => d.Email)).Nodup) (hfree : ∀ d ∈ c, d.Email ≠ v.Email) :
    ((c.Upsert id v).map (fun d => d.Email)).Nodup := by
  unfold Collection.Upsert
  split
  · exact map_Email_modifyFirst_of_fresh _ v c hnd hfree
  · rw [List.map_append, List.nodup_append]
    refine ⟨hnd, by simp, ?_⟩
    intro e he hv
    obtain ⟨d, hd, hde⟩ := List.mem_map.1 he
    simp only [List.map_cons, List.map_nil, List.mem_singleton] at hv
    exact hfree d hd (hde.trans hv)

theorem map_Email_modifyFirst_of_same (v : User) (c : Collection)
    (hsame : ∀ d ∈ c, d.ID = v.ID → d.Email = v.Email) :
    (modifyFirst (fun d => d.ID == v.ID) (fun _ => v) c).map (fun d => d.Email) =
      c.map (fun d => d.Email) := by
  induction c with
  | nil => simp [modifyFirst]
  | cons a c ih =>
    simp only [modifyFirst]
    split
    · rename_i ha
      have : a.Email = v.Email := hsame a (List.mem_cons_self _ _) (by simpa using ha)
      simp [this]
    · rw [List.map_cons, List.map_cons,
        ih (fun d hd => hsame d (List.mem_cons_of_mem _ hd))]

theorem map_ID_modifyFirst (v : User) (c : Collection) :
    (modifyFirst (fun d => d.ID == v.ID) (fun _ => v) c).map (fun d => d.ID) =
      c.map (fun d => d.ID) := by
  induction c with
  | nil => simp [modifyFirst]
  | cons a c ih =>
    simp only [modifyFirst]
    split
    · rename_i ha
      have : a.ID = v.ID := by simpa using ha
      simp [this]
    · rw [List.map_cons, List.map_cons, ih]

theorem map_ID_Upsert_nodup (c : Collection) (v : User)
    (hid : (c.map (fun d => d.ID)).Nodup) :
    ((c.Upsert v.ID v).map (fun d => d.ID)).Nodup := by
  unfold Collection.Upsert
  split
  · rw [map_ID_modifyFirst]; exact hid
  · rename_i hany
    rw [List.map_append, List.nodup_append]
    refine ⟨hid, by simp, ?_⟩
    intro e he hv
    obtain ⟨d, hd, hde⟩ := List.mem_map.1 he
    simp only [List.map_cons, List.map_nil, List.mem_singleton] at hv
    apply hany
    rw [List.any_eq_true]
    exact ⟨d, hd, by simp [hde, hv]⟩

theorem Save_rejects_taken_email (env : Env) (clock : String) (fresh : ObjectId)
    (db : Collection) (u : User) (hemail : (db.map (fun d => d.Email)).Nodup)
    (d : User) (hd : d ∈ db) (he : d.Email = u.Email) (hne : d.ID ≠ u.ID) :
    (u.Save env clock fresh db).err ≠ none := by
  have hfind : db.find? (fun x => x.Email == u.Email) = some d :=
    find?_of_unique db d _ hd (by simp [he]) (fun x hx hq =>
      List.inj_on_of_nodup_map hemail hx hd ((by simpa using hq : x.Email = u.Email).trans he.symm))
  unfold User.Save
  cases hcf : u.checkFields with
  | some e => simp
  | none =>
    have hby : User.zero.ByEmail db u.Email = (none, d) := by
      simp [User.ByEmail, Collection.One, hfind]
    simp [hby, hne]

/-- C11: if no two stored users share an email (and, as in every MongoDB
collection, no two share an `_id`), then `Save` returns an error whenever a
stored user with a different id has `u.Email`, for a new user and for an
existing one alike; and after a successful `Save` no two stored users share
an email (nor an `_id`). -/
theorem C11_email_unique (env : Env) (clock : String) (fresh : ObjectId) (db : Collection)
    (u : User) (hemail : (db.map (fun d => d.Email)).Nodup)
    (hid : (db.map (fun d => d.ID)).Nodup) :
    ((∃ d ∈ db, d.Email = u.Email ∧ d.ID ≠ u.ID) → (u.Save env clock fresh db).err ≠ none) ∧
    ((u.Save env clock fresh db).err = none →
      ((u.Save env clock fresh db).db.map (fun d => d.Email)).Nodup ∧
      ((u.Save env clock fresh db).db.map (fun d => d.ID)).Nodup) := by
  constructor
  · rintro ⟨d, hd, he, hne⟩
    exact Save_rejects_taken_email env clock fresh db u hemail d hd he hne
  · intro h
    cases hv : u.ID.Valid
    · obtain ⟨hfree, hu, hdb⟩ := Save_new_ok env clock fresh db u hv h
      have hue : (u.Save env clock fresh db).u.Email = u.Email := by rw [hu]
      have huid : (u.Save env clock fresh db).u.ID = fresh := by rw [hu]
      rw [hdb]
      constructor
      · apply map_Email_Upsert_of_fresh _ _ _ hemail
        intro d hd
        rw [hue]
        simpa using hfree d hd
      · have := map_ID_Upsert_nodup db (u.Save env clock fresh db).u hid
        rw [huid] at this
        exact this
    · rw [Save_valid_ok env clock fresh db u hv h]
      refine ⟨?_, map_ID_Upsert_nodup db u hid⟩
      by_cases hex : ∃ d ∈ db, d.Email = u.Email
      · obtain ⟨d, hd, he⟩ := hex
        have hdid : d.ID = u.ID := by
          by_contra hne
          exact Save_rejects_taken_email env clock fresh db u hemail d hd he hne h
        have hsame : ∀ x ∈ db, x.ID = u.ID → x.Email = u.Email := by
          intro x hx hxid
          have : x = d := List.inj_on_of_nodup_map hid hx hd (hxid.trans hdid.symm)
          rw [this, he]
        unfold Collection.Upsert
        have hany : db.any (fun x => x.ID == u.ID) = true := by
          rw [List.any_eq_true]
          exact ⟨d, hd, by simp [hdid]⟩
        rw [if_pos hany, map_Email_modifyFirst_of_same u db hsame]
        exact hemail
      · apply map_Email_Upsert_of_fresh _ _ _ hemail
        intro d hd he
        exact hex ⟨d, hd, he⟩

/-- C11 (witness): on the seeded store, a new user with the email of a seeded
user is refused. -/
theorem C11_email_unique_witness :
    (User.Save sampleEnv "2018-11-02 10:00:00 +0000 UTC" freshId
        (TestStore.usersData sampleEnv MONGO_USERS_DATA []).2
        { mike ⟨[]⟩ "secret" with Email := "br@rtcl.io" }).err ≠ none :=
  (C11_email_unique sampleEnv "2018-11-02 10:00:00 +0000 UTC" freshId
    (TestStore.usersData sampleEnv MONGO_USERS_DATA []).2
    { mike ⟨[]⟩ "secret" with Email := "br@rtcl.io" } (by decide) (by decide)).1
    ⟨(TestStore.usersData sampleEnv MONGO_USERS_DATA []).2.head (by decide),
      List.head_mem _, by decide, by decide⟩

/-- C12: when `FirstName`, `LastName` or `Email` is empty, `Save` returns an
error, the same whatever the collection holds, and leaves the user (its id
included) and the collection as they were; when the three are non-empty,
`checkFields` returns no error. -/
theorem C12_Save_missing_fields (env : Env) (clock : String) (fresh : ObjectId)
    (db : Collection) (u : User) :
    ((u.FirstName = "" ∨ u.LastName = "" ∨ u.Email = "") →
      (u.Save env clock fresh db).err ≠ none ∧
      (u.Save env clock fresh db).err = u.checkFields ∧
      (u.Save env clock fresh db).u = u ∧
      (u.Save env clock fresh db).db = db ∧
      ∀ (clock2 : String) (fresh2 : ObjectId) (db2 : Collection),
        u.Save env clock2 fresh2 db2 = ⟨u.checkFields, u, db2⟩) ∧
    ((u.FirstName ≠ "" ∧ u.LastName ≠ "" ∧ u.Email ≠ "") → u.checkFields = none) := by
  have hlen : ∀ x : String, (x.length == 0) = true ↔ x = "" := by
    intro x
    rcases x with ⟨l⟩
    cases l with
    | nil => simp [String.length]
    | cons c cs =>
      simp only [String.length, List.length_cons, beq_iff_eq, Nat.succ_ne_zero, false_iff]
      intro he
      exact absurd (congrArg String.length he) (by simp [String.length])
  constructor
  · intro h
    have hcf : ∃ e, u.checkFields = some e := by
      unfold User.checkFields
      split_ifs with c1 c2 c3
      · exact ⟨_, rfl⟩
      · exact ⟨_, rfl⟩
      · exact ⟨_, rfl⟩
      · exfalso
        rcases h with h | h | h
        · exact c1 ((hlen _).2 h)
        · exact c2 ((hlen _).2 h)
        · exact c3 ((hlen _).2 h)
    obtain ⟨e, he⟩ := hcf
    have hsave : ∀ (clock2 : String) (fresh2 : ObjectId) (db2 : Collection),
        u.Save env clock2 fresh2 db2 = ⟨u.checkFields, u, db2⟩ := by
      intro clock2 fresh2 db2
      simp [User.Save, he]
    rw [hsave clock fresh db]
    exact ⟨by simp [he], rfl, rfl, rfl, hsave⟩
  · rintro ⟨h1, h2, h3⟩
    have n1 : (u.FirstName.length == 0) = false := by
      rw [Bool.eq_false_iff]; exact fun hc => h1 ((hlen _).1 hc)
    have n2 : (u.LastName.length == 0) = false := by
      rw [Bool.eq_false_iff]; exact fun hc => h2 ((hlen _).1 hc)
    have n3 : (u.Email.length == 0) = false := by
      rw [Bool.eq_false_iff]; exact fun hc => h3 ((hlen _).1 hc)
    simp [User.checkFields, n1, n2, n3]

/-- C12 (witness): the three cases of testUserAddMissingFields end in an
error with the store untouched. -/
theorem C12_Save_missing_fields_witness :
    (User.Save sampleEnv "2018-11-02 10:00:00 +0000 UTC" freshId [mike sampleId "abc"]
        { mike ⟨[]⟩ "" with FirstName := "" }).err ≠ none ∧
    (User.Save sampleEnv "2018-11-02 10:00:00 +0000 UTC" freshId [mike sampleId "abc"]
        { mike ⟨[]⟩ "" with LastName := "" }).db = [mike sampleId "abc"] ∧
    (User.Save sampleEnv "2018-11-02 10:00:00 +0000 UTC" freshId [mike sampleId "abc"]
        { mike ⟨[]⟩ "" with Email := "" }).u = { mike ⟨[]⟩ "" with Email := "" } :=
  ⟨((C12_Save_missing_fields sampleEnv "2018-11-02 10:00:00 +0000 UTC" freshId
      [mike sampleId "abc"] { mike ⟨[]⟩ "" with FirstName := "" }).1 (Or.inl rfl)).1,
   ((C12_Save_missing_fields sampleEnv "2018-11-02 10:00:00 +0000 UTC" freshId
      [mike sampleId "abc"] { mike ⟨[]⟩ "" with LastName := "" }).1 (Or.inr (Or.inl rfl))).2.2.2.1,
   ((C12_Save_missing_fields sampleEnv "2018-11-02 10:00:00 +0000 UTC" freshId
      [mike sampleId "abc"] { mike ⟨[]⟩ "" with Email := "" }).1 (Or.inr (Or.inr rfl))).2.2.1⟩

/-! ## Lemmas on base64url and splitting -/

theorem base64Value_base64Char : ∀ n : Fin 64, base64Value (base64Char n.val) = some n.val := by
  decide

theorem base64Value_base64Char_of_lt (n : Nat) (h : n < 64) :
    base64Value (base64Char n) = some n :=
  base64Value_base64Char ⟨n, h⟩

theorem base64Decode_base64Encode (bs : List Byte) :
    base64Decode (base64Encode bs) = some bs := by
  induction bs using base64Encode.induct with
  | case1 a b c rest ih =>
    have ha := a.isLt
    have hb := b.isLt
    have hc := c.isLt
    simp only [base64Encode, base64Decode, ih,
      base64Value_base64Char_of_lt (a.val / 4) (by omega),
      base64Value_base64Char_of_lt (a.val % 4 * 16 + b.val / 16) (by omega),
      base64Value_base64Char_of_lt (b.val % 16 * 4 + c.val / 64) (by omega),
      base64Value_base64Char_of_lt (c.val % 64) (by omega)]
    congr 2
    · apply Fin.ext
      simp only [Fin.ofNat, Fin.val_mk]
      omega
    · congr 1
      · apply Fin.ext
        simp only [Fin.ofNat, Fin.val_mk]
        omega
      · congr 1
        apply Fin.ext
        simp only [Fin.ofNat, Fin.val_mk]
        omega
  | case2 a b =>
    have ha := a.isLt
    have hb := b.isLt
    simp only [base64Encode, base64Decode,
      base64Value_base64Char_of_lt (a.val / 4) (by omega),
      base64Value_base64Char_of_lt (a.val % 4 * 16 + b.val / 16) (by omega),
      base64Value_base64Char_of_lt (b.val % 16 * 4) (by omega)]
    congr 2
    · apply Fin.ext
      simp only [Fin.ofNat, Fin.val_mk]
      omega
    · congr 1
      apply Fin.ext
      simp only [Fin.ofNat, Fin.val_mk]
      omega
  | case3 a =>
    have ha := a.isLt
    simp only [base64Encode, base64Decode,
      base64Value_base64Char_of_lt (a.val / 4) (by omega),
      base64Value_base64Char_of_lt (a.val % 4 * 16) (by omega)]
    congr 2
    apply Fin.ext
    simp only [Fin.ofNat, Fin.val_mk]
    omega
  | case4 => rfl

theorem base64Char_plain_fin : ∀ n : Fin 64,
    base64Char n.val ≠ '.' ∧ isSpace (base64Char n.val) = false := by
  decide

theorem base64Char_plain (n : Nat) : base64Char n ≠ '.' ∧ isSpace (base64Char n) = false := by
  by_cases h : n < 64
  · exact base64Char_plain_fin ⟨n, h⟩
  · have : base64Char n = 'A' := by
      unfold base64Char
      exact List.getD_eq_default _ _ (by simpa [base64Alphabet] using h)
    rw [this]
    decide

theorem base64Encode_plain (bs : List Byte) :
    ∀ c ∈ base64Encode bs, c ≠ '.' ∧ isSpace c = false := by
  induction bs using base64Encode.induct with
  | case1 a b c rest ih =>
    intro x hx
    simp only [base64Encode, List.mem_cons] at hx
    rcases hx with h | h | h | h | h
    · rw [h]; exact base64Char_plain _
    · rw [h]; exact base64Char_plain _
    · rw [h]; exact base64Char_plain _
    · rw [h]; exact base64Char_plain _
    · exact ih x h
  | case2 a b =>
    intro x hx
    simp only [base64Encode, List.mem_cons, List.mem_singleton, List.not_mem_nil, or_false] at hx
    rcases hx with h | h | h <;> (rw [h]; exact base64Char_plain _)
  | case3 a =>
    intro x hx
    simp only [base64Encode, List.mem_cons, List.mem_singleton, List.not_mem_nil, or_false] at hx
    rcases hx with h | h <;> (rw [h]; exact base64Char_plain _)
  | case4 => intro x hx; simp [base64Encode] at hx

theorem base64Encode_ne_nil (bs : List Byte) (h : bs ≠ []) : base64Encode bs ≠ [] := by
  induction bs using base64Encode.induct with
  | case1 a b c rest ih => simp [base64Encode]
  | case2 a b => simp [base64Encode]
  | case3 a => simp [base64Encode]
  | case4 => exact absurd rfl h

theorem splitOn_of_not_mem (sep : Char) (a : List Char) (h : sep ∉ a) :
    splitOn sep a = [a] := by
  induction a with
  | nil => rfl
  | cons c cs ih =>
    have hc : c ≠ sep := fun he => h (he ▸ List.mem_cons_self _ _)
    have hcs : sep ∉ cs := fun hm => h (List.mem_cons_of_mem _ hm)
    simp [splitOn, hc, ih hcs]

theorem splitOn_append (sep : Char) (a rest : List Char) (h : sep ∉ a) :
    splitOn sep (a ++ sep :: rest) = a :: splitOn sep rest := by
  induction a with
  | nil => simp [splitOn]
  | cons c cs ih =>
    have hc : c ≠ sep := fun he => h (he ▸ List.mem_cons_self _ _)
    have hcs : sep ∉ cs := fun hm => h (List.mem_cons_of_mem _ hm)
    simp [splitOn, hc, ih hcs]

theorem splitOn_three (a b c : List Char) (ha : '.' ∉ a) (hb : '.' ∉ b) (hc : '.' ∉ c) :
    splitOn '.' (a ++ '.' :: (b ++ '.' :: c)) = [a, b, c] := by
  rw [splitOn_append _ _ _ ha, splitOn_append _ _ _ hb, splitOn_of_not_mem _ _ hc]

theorem dot_not_mem_base64Encode (bs : List Byte) : '.' ∉ base64Encode bs :=
  fun h => (base64Encode_plain bs '.' h).1 rfl

/-! ## Lemmas on the token functions -/

theorem Encode_error (lib : TokenLib) (now : Time) (t : Token)
    (h : t.issuer = "" ∨ t.signingKey = "" ∨ t.ttlHours ≤ 0) :
    t.Encode lib now = (t, some (.New "EncodingError")) := by
  simp [Token.Encode, h]

theorem Encode_ok (lib : TokenLib) (now : Time) (t : Token)
    (h1 : t.issuer ≠ "") (h2 : t.signingKey ≠ "") (h3 : 0 < t.ttlHours) :
    t.Encode lib now = ({ t.stamp now with Encoded := (t.stamp now).sign lib }, none) := by
  have hn : ¬ (t.issuer = "" ∨ t.signingKey = "" ∨ t.ttlHours ≤ 0) := by
    rintro (h | h | h)
    · exact h1 h
    · exact h2 h
    · omega
  simp only [Token.Encode, if_neg hn]

theorem sign_data (lib : TokenLib) (t : Token) :
    (t.sign lib).data =
      base64Encode tokenHeader ++ '.' :: (base64Encode (lib.marshal t.payload) ++ '.' ::
        base64Encode (lib.mac t.signingKey (t.signingInput lib)).toList) := by
  simp [Token.sign, Token.signingInput, String.data_append]

theorem splitOn_sign (lib : TokenLib) (t : Token) :
    splitOn '.' (t.sign lib).data =
      [base64Encode tokenHeader, base64Encode (lib.marshal t.payload),
        base64Encode (lib.mac t.signingKey (t.signingInput lib)).toList] := by
  rw [sign_data]
  exact splitOn_three _ _ _ (dot_not_mem_base64Encode _) (dot_not_mem_base64Encode _)
    (dot_not_mem_base64Encode _)

theorem mac_toList_ne_nil (d : Digest) : d.toList ≠ [] := by
  intro h
  have := d.toList_length
  rw [h] at this
  exact absurd this (by decide)

theorem tokenHeader_ne_nil : tokenHeader ≠ [] := by
  decide

/-- The clock-free checks of `decode` on a signed token: with a payload that
parses back, the outcome depends on the MAC under the checking key alone. -/
theorem parse_sign (lib : TokenLib) (t : Token) (key : String)
    (hcodec : lib.unmarshal (lib.marshal t.payload) = some t.payload)
    (hne : lib.marshal t.payload ≠ []) :
    Token.parse lib (t.sign lib) key =
      if lib.mac t.signingKey (t.signingInput lib) = lib.mac key (t.signingInput lib)
      then .ok t.payload else .error (.New "SignatureError") := by
  unfold Token.parse
  rw [splitOn_sign]
  have e1 : (base64Encode tokenHeader).isEmpty = false := by
    rw [List.isEmpty_eq_false]; exact base64Encode_ne_nil _ tokenHeader_ne_nil
  have e2 : (base64Encode (lib.marshal t.payload)).isEmpty = false := by
    rw [List.isEmpty_eq_false]; exact base64Encode_ne_nil _ hne
  have e3 : (base64Encode (lib.mac t.signingKey (t.signingInput lib)).toList).isEmpty = false := by
    rw [List.isEmpty_eq_false]; exact base64Encode_ne_nil _ (mac_toList_ne_nil _)
  simp only [e1, e2, e3, Bool.or_self, Bool.false_eq_true, if_false, base64Decode_base64Encode,
    hcodec]
  have hin : String.mk (base64Encode tokenHeader ++ '.' :: base64Encode (lib.marshal t.payload)) =
      t.signingInput lib := rfl
  rw [hin]
  by_cases hm : lib.mac t.signingKey (t.signingInput lib) = lib.mac key (t.signingInput lib)
  · rw [if_pos hm, if_pos (by rw [hm])]
  · rw [if_neg hm, if_neg]
    intro hl
    exact hm (Mathlib.Vector.toList_injective hl)

/-- With another MAC under the checking key, the checks of `decode` fail,
whatever the serialization does. -/
theorem parse_sign_of_mac_ne (lib : TokenLib) (t : Token) (key : String)
    (hm : lib.mac key (t.signingInput lib) ≠ lib.mac t.signingKey (t.signingInput lib)) :
    ∃ err, Token.parse lib (t.sign lib) key = .error err := by
  unfold Token.parse
  rw [splitOn_sign]
  simp only [base64Decode_base64Encode]
  have hin : String.mk (base64Encode tokenHeader ++ '.' :: base64Encode (lib.marshal t.payload)) =
      t.signingInput lib := rfl
  rw [hin]
  split
  · exact ⟨_, rfl⟩
  · cases lib.unmarshal (lib.marshal t.payload) with
    | none => exact ⟨_, rfl⟩
    | some pl =>
      simp only
      rw [if_neg]
      · exact ⟨_, rfl⟩
      · intro hl
        exact hm (Mathlib.Vector.toList_injective hl).symm

theorem DecodeToken_Encode (lib : TokenLib) (now now2 : Time) (t : Token)
    (h1 : t.issuer ≠ "") (h2 : t.signingKey ≠ "") (h3 : 0 < t.ttlHours)
    (hcodec : lib.unmarshal (lib.marshal (t.stamp now).payload) = some (t.stamp now).payload)
    (hne : lib.marshal (t.stamp now).payload ≠ []) :
    DecodeToken lib now2 (t.Encode lib now).1.Encoded t.signingKey =
      if t.Claims.IssuedAt.getD (Unix now) ≤ Unix now2 ∧
          Unix now2 < t.Claims.IssuedAt.getD (Unix now) + t.ttlHours * 3600
      then ((t.Encode lib now).1, none)
      else (Token.zero, some (.New "ExpiryError")) := by
  rw [Encode_ok lib now t h1 h2 h3]
  have hp := parse_sign lib (t.stamp now) t.signingKey hcodec hne
  have hk : (t.stamp now).signingKey = t.signingKey := rfl
  rw [hk, if_pos rfl] at hp
  simp only [DecodeToken, hp]
  have hiat : (t.stamp now).payload.issuedAt = t.Claims.IssuedAt.getD (Unix now) := rfl
  have hexp : (t.stamp now).payload.expiresAt =
      t.Claims.IssuedAt.getD (Unix now) + t.ttlHours * 3600 := rfl
  rw [hiat, hexp]
  split
  · have httl : (t.Claims.IssuedAt.getD (Unix now) + t.ttlHours * 3600 -
        t.Claims.IssuedAt.getD (Unix now)) / 3600 = t.ttlHours := by
      rw [add_sub_cancel_left]
      exact Int.mul_ediv_cancel _ (by decide)
    rw [httl]
    rfl
  · rfl

theorem parse_Encode_other_key (lib : TokenLib) (now : Time) (t : Token) (key : String)
    (h1 : t.issuer ≠ "") (h2 : t.signingKey ≠ "") (h3 : 0 < t.ttlHours)
    (hm : lib.mac key ((t.stamp now).signingInput lib) ≠
      lib.mac t.signingKey ((t.stamp now).signingInput lib)) :
    ∃ err, Token.parse lib (t.Encode lib now).1.Encoded key = .error err := by
  rw [Encode_ok lib now t h1 h2 h3]
  exact parse_sign_of_mac_ne lib (t.stamp now) key hm

theorem Unix_add_hours (now : Time) (h : Int) :
    Unix (now + h * 3600000000000) = Unix now + h * 3600 := by
  unfold Unix
  have : h * 3600000000000 = (h * 3600) * 1000000000 := by ring
  rw [this, Int.add_mul_ediv_right _ _ (by decide)]

/-! ## Lemmas on fields and trimming -/

theorem fieldsFrom_append_plain (cur w rest : List Char) (hw : ∀ c ∈ w, isSpace c = false) :
    fieldsFrom cur (w ++ rest) = fieldsFrom (cur ++ w) rest := by
  induction w generalizing cur with
  | nil => simp
  | cons a w ih =>
    have ha : isSpace a = false := hw a (List.mem_cons_self _ _)
    have hw2 : ∀ c ∈ w, isSpace c = false := fun c hc => hw c (List.mem_cons_of_mem _ hc)
    have hstep : fieldsFrom cur (a :: (w ++ rest)) = fieldsFrom (cur ++ [a]) (w ++ rest) := by
      simp only [fieldsFrom, ha, Bool.false_eq_true, if_false]
    rw [List.cons_append, hstep, ih _ hw2]
    simp

theorem fieldsFrom_plain (cur l : List Char) (hcur : ∀ c ∈ cur, isSpace c = false) :
    ∀ x ∈ fieldsFrom cur l, ∀ c ∈ x.data, isSpace c = false := by
  induction l generalizing cur with
  | nil =>
    intro x hx
    simp only [fieldsFrom] at hx
    split at hx
    · simp at hx
    · rw [List.mem_singleton] at hx
      rw [hx]
      exact hcur
  | cons a l ih =>
    intro x hx
    simp only [fieldsFrom] at hx
    split at hx
    · split at hx
      · exact ih [] (by simp) x hx
      · rcases List.mem_cons.1 hx with h | h
        · rw [h]; exact hcur
        · exact ih [] (by simp) x h
    · rename_i ha
      refine ih (cur ++ [a]) ?_ x hx
      intro c hc
      rcases List.mem_append.1 hc with h | h
      · exact hcur c h
      · rw [List.mem_singleton] at h
        rw [h]
        simpa using ha

theorem Fields_plain (s : String) : ∀ x ∈ Fields s, ∀ c ∈ x.data, isSpace c = false :=
  fieldsFrom_plain [] s.data (by simp)

theorem dropWhile_plain (l : List Char) (h : ∀ c ∈ l, isSpace c = false) :
    l.dropWhile isSpace = l := by
  cases l with
  | nil => rfl
  | cons a l => simp [List.dropWhile, h a (List.mem_cons_self _ _)]

theorem TrimSpace_plain (s : String) (h : ∀ c ∈ s.data, isSpace c = false) :
    TrimSpace s = s := by
  unfold TrimSpace
  rw [dropWhile_plain _ h, dropWhile_plain _ (fun c hc => h c (List.mem_reverse.1 hc)),
    List.reverse_reverse]

theorem Fields_Bearer (enc : String) (hne : enc.data ≠ [])
    (h : ∀ c ∈ enc.data, isSpace c = false) :
    Fields ("Bearer " ++ enc) = ["Bearer", enc] := by
  have hd : ("Bearer " ++ enc).data = "Bearer".data ++ (' ' :: (enc.data ++ [])) := by
    simp [String.data_append]
  unfold Fields
  rw [hd, fieldsFrom_append_plain [] _ _ (by decide)]
  have hsp : isSpace ' ' = true := by decide
  simp only [List.nil_append, fieldsFrom, hsp, if_true]
  have hb : ("Bearer".data).isEmpty = false := by decide
  rw [hb]
  simp only [Bool.false_eq_true, if_false]
  rw [fieldsFrom_append_plain [] _ _ h]
  simp only [List.nil_append, fieldsFrom]
  have he : enc.data.isEmpty = false := by
    rw [List.isEmpty_eq_false]; exact hne
  rw [he]
  rfl

theorem sign_plain (lib : TokenLib) (t : Token) :
    ∀ c ∈ (t.sign lib).data, isSpace c = false := by
  intro c hc
  rw [sign_data] at hc
  have hdot : isSpace '.' = false := by decide
  rcases List.mem_append.1 hc with h | h
  · exact (base64Encode_plain _ c h).2
  · rcases List.mem_cons.1 h with h | h
    · rw [h]; exact hdot
    · rcases List.mem_append.1 h with h | h
      · exact (base64Encode_plain _ c h).2
      · rcases List.mem_cons.1 h with h | h
        · rw [h]; exact hdot
        · exact (base64Encode_plain _ c h).2

theorem sign_ne_nil (lib : TokenLib) (t : Token) : (t.sign lib).data ≠ [] := by
  rw [sign_data]
  intro h
  have := congrArg List.length h
  simp at this

/-- A bearer header carrying a signed token is decoded as that token. -/
theorem AuthHeaderToken_Bearer_sign (decode : String → String → Token × Option Error)
    (lib : TokenLib) (key : String) (t : Token) :
    AuthHeaderToken decode key ("Bearer " ++ t.sign lib) = decode (t.sign lib) key := by
  unfold AuthHeaderToken
  rw [Fields_Bearer _ (sign_ne_nil lib t) (sign_plain lib t)]
  simp only [bne_self_eq_false, Bool.false_eq_true, if_false]
  rw [TrimSpace_plain _ (sign_plain lib t)]

/-! ## The claims on tokens -/

/-- C13: for a non-empty issuer, a non-empty signing key, a positive ttl and
any custom claims, encoding succeeds, and decoding the encoded string under
the same key, at the same clock reading and at any reading inside the token's
window, succeeds and returns the encoded token, equal in every field. The
serialization library is assumed to parse back the payload it wrote, which is
not empty. -/
theorem C13_token_round_trip (lib : TokenLib) (now now2 : Time) (issuer key : String)
    (ttl : Int) (c : CustomClaims)
    (hissuer : issuer ≠ "") (hkey : key ≠ "") (httl : 0 < ttl)
    (hcodec : lib.unmarshal (lib.marshal
        ⟨issuer, c.id, c.name, c.role, Unix now, Unix now + ttl * 3600⟩) =
      some ⟨issuer, c.id, c.name, c.role, Unix now, Unix now + ttl * 3600⟩)
    (hne : lib.marshal ⟨issuer, c.id, c.name, c.role, Unix now, Unix now + ttl * 3600⟩ ≠ []) :
    (((NewToken issuer key ttl).CustomClaims c).Encode lib now).2 = none ∧
    DecodeToken lib now (((NewToken issuer key ttl).CustomClaims c).Encode lib now).1.Encoded key =
      ((((NewToken issuer key ttl).CustomClaims c).Encode lib now).1, none) ∧
    (Unix now ≤ Unix now2 → Unix now2 < Unix now + ttl * 3600 →
      DecodeToken lib now2 (((NewToken issuer key ttl).CustomClaims c).Encode lib now).1.Encoded
          key =
        ((((NewToken issuer key ttl).CustomClaims c).Encode lib now).1, none)) := by
  have hdec : ∀ n2 : Time,
      DecodeToken lib n2 (((NewToken issuer key ttl).CustomClaims c).Encode lib now).1.Encoded key =
        if Unix now ≤ Unix n2 ∧ Unix n2 < Unix now + ttl * 3600
        then ((((NewToken issuer key ttl).CustomClaims c).Encode lib now).1, none)
        else (Token.zero, some (.New "ExpiryError")) :=
    fun n2 => DecodeToken_Encode lib now n2 ((NewToken issuer key ttl).CustomClaims c)
      hissuer hkey httl hcodec hne
  refine ⟨?_, ?_, ?_⟩
  · rw [Encode_ok lib now _ hissuer hkey httl]
  · rw [hdec now, if_pos ⟨le_refl _, by omega⟩]
  · intro ha hb
    rw [hdec now2, if_pos ⟨ha, hb⟩]

/-- C13 (witness): the token of TestDecodeTokenString, decoded one hour after
it was encoded. -/
theorem C13_token_round_trip_witness :
    DecodeToken sampleLib (1541152800000000000 + 3600000000000)
        (((NewToken "TestTokenIssuer" "testTokenSigningKey" 4).CustomClaims
          ⟨"5b3bcd72463cd6029e04de18", "Mike Donnici", "Member"⟩).Encode sampleLib
            1541152800000000000).1.Encoded "testTokenSigningKey" =
      ((((NewToken "TestTokenIssuer" "testTokenSigningKey" 4).CustomClaims
          ⟨"5b3bcd72463cd6029e04de18", "Mike Donnici", "Member"⟩).Encode sampleLib
            1541152800000000000).1, none) :=
  (C13_token_round_trip sampleLib 1541152800000000000 (1541152800000000000 + 3600000000000)
    "TestTokenIssuer" "testTokenSigningKey" 4
    ⟨"5b3bcd72463cd6029e04de18", "Mike Donnici", "Member"⟩
    (by decide) (by decide) (by decide) (by decide) (by decide)).2.2 (by decide) (by decide)

/-- C16: `NewToken(issuer, signingKey, ttlHours).Encode()` returns an error
when the issuer is empty, the signing key is empty or the ttl is not positive,
and no error otherwise; the string of a successfully encoded token splits on
`.` into exactly three parts. -/
theorem C16_Encode_policy (lib : TokenLib) (now : Time) (issuer signingKey : String)
    (ttlHours : Int) :
    ((issuer = "" ∨ signingKey = "" ∨ ttlHours ≤ 0) →
      ((NewToken issuer signingKey ttlHours).Encode lib now).2 ≠ none) ∧
    ((issuer ≠ "" ∧ signingKey ≠ "" ∧ 0 < ttlHours) →
      ((NewToken issuer signingKey ttlHours).Encode lib now).2 = none) ∧
    (((NewToken issuer signingKey ttlHours).Encode lib now).2 = none →
      (splitOn '.' ((NewToken issuer signingKey ttlHours).Encode lib now).1.Encoded.data).length
        = 3) := by
  refine ⟨?_, ?_, ?_⟩
  · intro h
    rw [Encode_error lib now _ h]
    simp
  · rintro ⟨h1, h2, h3⟩
    rw [Encode_ok lib now _ h1 h2 h3]
  · intro h
    by_cases hbad : issuer = "" ∨ signingKey = "" ∨ ttlHours ≤ 0
    · rw [Encode_error lib now _ hbad] at h
      simp at h
    · have h1 : issuer ≠ "" := fun hc => hbad (Or.inl hc)
      have h2 : signingKey ≠ "" := fun hc => hbad (Or.inr (Or.inl hc))
      have h3 : 0 < ttlHours := by
        by_contra hc
        exact hbad (Or.inr (Or.inr (by omega)))
      rw [Encode_ok lib now (NewToken issuer signingKey ttlHours) h1 h2 h3]
      simp only [splitOn_sign, List.length_cons, List.length_nil]

/-- C16 (witness): the four policies of jwt_test.go. -/
theorem C16_Encode_policy_witness :
    ((NewToken "" "testTokenSigningKey" 4).Encode sampleLib 1541152800000000000).2 ≠ none ∧
    ((NewToken "TestTokenIssuer" "" 4).Encode sampleLib 1541152800000000000).2 ≠ none ∧
    ((NewToken "TestTokenIssuer" "testTokenSigningKey" 0).Encode sampleLib
        1541152800000000000).2 ≠ none ∧
    ((NewToken "TestTokenIssuer" "testTokenSigningKey" 4).Encode sampleLib
        1541152800000000000).2 = none :=
  ⟨(C16_Encode_policy sampleLib 1541152800000000000 "" "testTokenSigningKey" 4).1 (Or.inl rfl),
   (C16_Encode_policy sampleLib 1541152800000000000 "TestTokenIssuer" "" 4).1
      (Or.inr (Or.inl rfl)),
   (C16_Encode_policy sampleLib 1541152800000000000 "TestTokenIssuer" "testTokenSigningKey" 0).1
      (Or.inr (Or.inr (le_refl _))),
   (C16_Encode_policy sampleLib 1541152800000000000 "TestTokenIssuer" "testTokenSigningKey" 4).2.1
      ⟨by decide, by decide, by decide⟩⟩

theorem Valid_of_parse_ok (lib : TokenLib) (now : Time) (t : Token) (payload : Payload)
    (iat : Int) (hp : Token.parse lib t.Encoded t.signingKey = .ok payload)
    (hiat : t.Claims.IssuedAt = some iat) :
    t.Valid lib now = true ↔ iat ≤ Unix now ∧ Unix now < t.Claims.ExpiresAt := by
  simp [Token.Valid, hp, hiat]

theorem Valid_of_parse_error (lib : TokenLib) (now : Time) (t : Token) (err : Error)
    (hp : Token.parse lib t.Encoded t.signingKey = .error err) :
    t.Valid lib now = false := by
  simp [Token.Valid, hp]

/-- C14: a correctly signed token is valid exactly while
`issuedAt <= now < expiresAt`. For the token built with `SetTimes(iat)` and
encoded under a good policy: it is valid at `now` exactly when
`iat <= now < iat + ttl hours`; when `iat` lies in the future it is invalid
although `now < expiresAt`, when it has expired it is invalid, and in both
cases the bearer header carrying it is rejected with an error; inside the
window the bearer header yields the token. -/
theorem C14_token_time_window (lib : TokenLib) (now0 now iat : Time) (issuer key : String)
    (ttl : Int) (c : CustomClaims)
    (hissuer : issuer ≠ "") (hkey : key ≠ "") (httl : 0 < ttl)
    (hcodec : lib.unmarshal (lib.marshal
        ⟨issuer, c.id, c.name, c.role, Unix iat, Unix iat + ttl * 3600⟩) =
      some ⟨issuer, c.id, c.name, c.role, Unix iat, Unix iat + ttl * 3600⟩)
    (hne : lib.marshal ⟨issuer, c.id, c.name, c.role, Unix iat, Unix iat + ttl * 3600⟩ ≠ []) :
    (∀ (t : Token) (payload : Payload) (issued : Int),
      Token.parse lib t.Encoded t.signingKey = .ok payload → t.Claims.IssuedAt = some issued →
      (t.Valid lib now = true ↔ issued ≤ Unix now ∧ Unix now < t.Claims.ExpiresAt)) ∧
    ((((NewToken issuer key ttl).CustomClaims c).SetTimes iat).Encode lib now0).2 = none ∧
    (((((NewToken issuer key ttl).CustomClaims c).SetTimes iat).Encode lib now0).1.Valid lib now = true ↔
      Unix iat ≤ Unix now ∧ Unix now < Unix iat + ttl * 3600) ∧
    (Unix now < Unix iat →
      Unix now < ((((NewToken issuer key ttl).CustomClaims c).SetTimes iat).Encode lib now0).1.Claims.ExpiresAt ∧
      ((((NewToken issuer key ttl).CustomClaims c).SetTimes iat).Encode lib now0).1.Valid lib now = false ∧
      (AuthHeaderToken (DecodeToken lib now) key ("Bearer " ++ ((((NewToken issuer key ttl).CustomClaims c).SetTimes iat).Encode lib now0).1.Encoded)).2 ≠ none) ∧
    (Unix iat + ttl * 3600 ≤ Unix now →
      ((((NewToken issuer key ttl).CustomClaims c).SetTimes iat).Encode lib now0).1.Valid lib now = false ∧
      (AuthHeaderToken (DecodeToken lib now) key ("Bearer " ++ ((((NewToken issuer key ttl).CustomClaims c).SetTimes iat).Encode lib now0).1.Encoded)).2 ≠ none) ∧
    (Unix iat ≤ Unix now → Unix now < Unix iat + ttl * 3600 →
      AuthHeaderToken (DecodeToken lib now) key ("Bearer " ++ ((((NewToken issuer key ttl).CustomClaims c).SetTimes iat).Encode lib now0).1.Encoded) =
        (((((NewToken issuer key ttl).CustomClaims c).SetTimes iat).Encode lib now0).1, none)) := by
  have henc := Encode_ok lib now0 (((NewToken issuer key ttl).CustomClaims c).SetTimes iat)
    hissuer hkey httl
  have hdec : DecodeToken lib now ((((NewToken issuer key ttl).CustomClaims c).SetTimes iat).Encode lib now0).1.Encoded key =
      if Unix iat ≤ Unix now ∧ Unix now < Unix iat + ttl * 3600
      then (((((NewToken issuer key ttl).CustomClaims c).SetTimes iat).Encode lib now0).1, none) else (Token.zero, some (.New "ExpiryError")) :=
    DecodeToken_Encode lib now0 now
      (((NewToken issuer key ttl).CustomClaims c).SetTimes iat) hissuer hkey httl hcodec hne
  have hsig : ((((NewToken issuer key ttl).CustomClaims c).SetTimes iat).Encode lib now0).1.Encoded =
      ((((NewToken issuer key ttl).CustomClaims c).SetTimes iat).stamp now0).sign lib := by
    rw [henc]
  have hparse := parse_sign lib
    ((((NewToken issuer key ttl).CustomClaims c).SetTimes iat).stamp now0) key hcodec hne
  have hk : ((((NewToken issuer key ttl).CustomClaims c).SetTimes iat).stamp now0).signingKey =
    key := rfl
  rw [hk, if_pos rfl] at hparse
  have hvalid : ((((NewToken issuer key ttl).CustomClaims c).SetTimes iat).Encode lib now0).1.Valid lib now = true ↔
      Unix iat ≤ Unix now ∧ Unix now < Unix iat + ttl * 3600 := by
    rw [henc]
    exact Valid_of_parse_ok lib now _ _ (Unix iat) hparse rfl
  have hbearer : AuthHeaderToken (DecodeToken lib now) key ("Bearer " ++ ((((NewToken issuer key ttl).CustomClaims c).SetTimes iat).Encode lib now0).1.Encoded) =
      if Unix iat ≤ Unix now ∧ Unix now < Unix iat + ttl * 3600
      then (((((NewToken issuer key ttl).CustomClaims c).SetTimes iat).Encode lib now0).1, none) else (Token.zero, some (.New "ExpiryError")) := by
    rw [hsig, AuthHeaderToken_Bearer_sign, ← hsig, hdec]
  have hexp : ((((NewToken issuer key ttl).CustomClaims c).SetTimes iat).Encode lib now0).1.Claims.ExpiresAt = Unix iat + ttl * 3600 := by
    rw [henc]; rfl
  refine ⟨fun t payload issued hp hi => Valid_of_parse_ok lib now t payload issued hp hi,
    by rw [henc], hvalid, ?_, ?_, ?_⟩
  · intro hfut
    refine ⟨by rw [hexp]; omega, ?_, ?_⟩
    · rw [Bool.eq_false_iff]
      intro hv
      have := hvalid.1 hv
      omega
    · rw [hbearer, if_neg (by omega)]
      simp
  · intro hpast
    refine ⟨?_, ?_⟩
    · rw [Bool.eq_false_iff]
      intro hv
      have := hvalid.1 hv
      omega
    · rw [hbearer, if_neg (by omega)]
      simp
  · intro ha hb
    rw [hbearer, if_pos ⟨ha, hb⟩]

/-- C14 (witness): the token of TestTokenWithFutureDate, issued four hours
ahead with a ttl of four hours, is invalid now and rejected as a bearer
token. -/
theorem C14_token_time_window_witness :
    Unix 1541152800000000000 <
        ((((NewToken "TestTokenIssuer" "testTokenSigningKey" 4).CustomClaims
          ⟨"5b3bcd72463cd6029e04de18", "Mike Donnici", "Member"⟩).SetTimes
            (1541152800000000000 + 4 * 3600000000000)).Encode sampleLib
              1541152800000000000).1.Claims.ExpiresAt ∧
    ((((NewToken "TestTokenIssuer" "testTokenSigningKey" 4).CustomClaims
          ⟨"5b3bcd72463cd6029e04de18", "Mike Donnici", "Member"⟩).SetTimes
            (1541152800000000000 + 4 * 3600000000000)).Encode sampleLib
              1541152800000000000).1.Valid sampleLib 1541152800000000000 = false ∧
    (AuthHeaderToken (DecodeToken sampleLib 1541152800000000000) "testTokenSigningKey"
      ("Bearer " ++ ((((NewToken "TestTokenIssuer" "testTokenSigningKey" 4).CustomClaims
          ⟨"5b3bcd72463cd6029e04de18", "Mike Donnici", "Member"⟩).SetTimes
            (1541152800000000000 + 4 * 3600000000000)).Encode sampleLib
              1541152800000000000).1.Encoded)).2 ≠ none :=
  (C14_token_time_window sampleLib 1541152800000000000 1541152800000000000
    (1541152800000000000 + 4 * 3600000000000) "TestTokenIssuer" "testTokenSigningKey" 4
    ⟨"5b3bcd72463cd6029e04de18", "Mike Donnici", "Member"⟩
    (by decide) (by decide) (by decide) (by decide) (by decide)).2.2.2.1 (by decide)

/-- The serialization of worked examples parses back the payload of the token
that the next theorem encodes. -/
theorem sampleLib_codec :
    sampleLib.unmarshal (sampleLib.marshal
      ⟨"Test Server", "5b3bcd72463cd6029e04de18", "Mike Donnici", "user",
        1541152800, 1541167200⟩) =
      some ⟨"Test Server", "5b3bcd72463cd6029e04de18", "Mike Donnici", "user",
        1541152800, 1541167200⟩ ∧
    sampleLib.marshal
      ⟨"Test Server", "5b3bcd72463cd6029e04de18", "Mike Donnici", "user",
        1541152800, 1541167200⟩ ≠ [] := by
  decide

/-- C15 (counterexample): whatever the MAC function (its tags being of a fixed
length) and whatever serialization that parses back the payload of this token,
there are two different signing keys `k` and `k'` such that the token encoded
under `k` is decoded without error under `k'`: infinitely many keys give
finitely many tags of the one signed text. So "every other key is refused"
holds for no token library. -/
theorem C15_counterexample :
    ¬ ∃ lib : TokenLib,
      lib.unmarshal (lib.marshal
        ⟨"Test Server", "5b3bcd72463cd6029e04de18", "Mike Donnici", "user",
          1541152800, 1541167200⟩) =
        some ⟨"Test Server", "5b3bcd72463cd6029e04de18", "Mike Donnici", "user",
          1541152800, 1541167200⟩ ∧
      lib.marshal
        ⟨"Test Server", "5b3bcd72463cd6029e04de18", "Mike Donnici", "user",
          1541152800, 1541167200⟩ ≠ [] ∧
      ∀ k k' : String, k ≠ "" → k' ≠ k →
        (DecodeToken lib 1541152800000000000
          (((NewToken "Test Server" k 4).CustomClaims
            ⟨"5b3bcd72463cd6029e04de18", "Mike Donnici", "user"⟩).Encode lib
              1541152800000000000).1.Encoded k').2 ≠ none := by
  rintro ⟨lib, hcodec, hne, hclaim⟩
  have hpayload : ∀ k : String,
      ((((NewToken "Test Server" k 4).CustomClaims
        ⟨"5b3bcd72463cd6029e04de18", "Mike Donnici", "user"⟩).stamp
          1541152800000000000).payload) =
      ⟨"Test Server", "5b3bcd72463cd6029e04de18", "Mike Donnici", "user",
        1541152800, 1541167200⟩ := fun _ => rfl
  have hinput : ∀ k : String,
      ((((NewToken "Test Server" k 4).CustomClaims
        ⟨"5b3bcd72463cd6029e04de18", "Mike Donnici", "user"⟩).stamp
          1541152800000000000).signingInput lib) =
      ((((NewToken "Test Server" "" 4).CustomClaims
        ⟨"5b3bcd72463cd6029e04de18", "Mike Donnici", "user"⟩).stamp
          1541152800000000000).signingInput lib) := fun _ => rfl
  obtain ⟨n, m, hnm, hf⟩ := Finite.exists_ne_map_eq_of_infinite
    (fun n : ℕ => lib.mac (String.mk (List.replicate (n + 1) 'a'))
      ((((NewToken "Test Server" "" 4).CustomClaims
        ⟨"5b3bcd72463cd6029e04de18", "Mike Donnici", "user"⟩).stamp
          1541152800000000000).signingInput lib))
  have hk : String.mk (List.replicate (n + 1) 'a') ≠ "" := by
    intro he
    have := congrArg String.length he
    simp [String.length] at this
  have hkk : String.mk (List.replicate (m + 1) 'a') ≠ String.mk (List.replicate (n + 1) 'a') :=
    replicate_string_injective m n (Ne.symm hnm)
  apply hclaim _ _ hk hkk
  have henc := Encode_ok lib 1541152800000000000
    ((NewToken "Test Server" (String.mk (List.replicate (n + 1) 'a')) 4).CustomClaims
      ⟨"5b3bcd72463cd6029e04de18", "Mike Donnici", "user"⟩)
    (by show "Test Server" ≠ ""; decide) hk (by show (0 : Int) < 4; decide)
  have hp := parse_sign lib
    (((NewToken "Test Server" (String.mk (List.replicate (n + 1) 'a')) 4).CustomClaims
      ⟨"5b3bcd72463cd6029e04de18", "Mike Donnici", "user"⟩).stamp 1541152800000000000)
    (String.mk (List.replicate (m + 1) 'a'))
    (by rw [hpayload]; exact hcodec) (by rw [hpayload]; exact hne)
  rw [hinput] at hp
  have hsk : (((NewToken "Test Server" (String.mk (List.replicate (n + 1) 'a')) 4).CustomClaims
      ⟨"5b3bcd72463cd6029e04de18", "Mike Donnici", "user"⟩).stamp
        1541152800000000000).signingKey = String.mk (List.replicate (n + 1) 'a') := rfl
  rw [hsk, if_pos hf] at hp
  rw [henc]
  simp only [DecodeToken, hp]
  rw [if_pos (by
    show Unix 1541152800000000000 ≤ Unix 1541152800000000000 ∧
      Unix 1541152800000000000 < Unix 1541152800000000000 + 4 * 3600
    decide)]

/-- C15 (amended): for a token encoded under a good policy with key `k` and a
key `k'` whose MAC of the signed text differs from the MAC under `k`,
`DecodeToken(encoded, k')` returns an error, and a token that carries that
encoded string with the signing key `k'` is not valid. -/
theorem C15_other_key_rejected (lib : TokenLib) (now now2 : Time) (t : Token) (key : String)
    (h1 : t.issuer ≠ "") (h2 : t.signingKey ≠ "") (h3 : 0 < t.ttlHours)
    (hm : lib.mac key ((t.stamp now).signingInput lib) ≠
      lib.mac t.signingKey ((t.stamp now).signingInput lib)) :
    (DecodeToken lib now2 (t.Encode lib now).1.Encoded key).2 ≠ none ∧
    (∀ x : Token, x.Encoded = (t.Encode lib now).1.Encoded → x.signingKey = key →
      x.Valid lib now2 = false) := by
  obtain ⟨err, herr⟩ := parse_Encode_other_key lib now t key h1 h2 h3 hm
  constructor
  · simp [DecodeToken, herr]
  · intro x hx hk
    apply Valid_of_parse_error lib now2 x err
    rw [hx, hk]
    exact herr

/-- C15 (witness): the two tokens of TestInvalidToken, signed with
"testTokenSigningKey" and with that key followed by "x". -/
theorem C15_other_key_rejected_witness :
    (DecodeToken sampleLib 1541152800000000000
      ((NewToken "TestTokenIssuer" "testTokenSigningKey" 4).Encode sampleLib
        1541152800000000000).1.Encoded "testTokenSigningKeyx").2 ≠ none :=
  (C15_other_key_rejected sampleLib 1541152800000000000 1541152800000000000
    (NewToken "TestTokenIssuer" "testTokenSigningKey" 4) "testTokenSigningKeyx"
    (by decide) (by decide) (by decide) (by decide)).1

/-! ## The token of a user -/

theorem ByID_found (db : Collection) (u d : User) (id : String)
    (h : u.ByID db id = (none, d)) : d ∈ db ∧ d.ID = ObjectIdHex id := by
  unfold User.ByID at h
  split_ifs at h with hid
  · simp at h
  · unfold Collection.One at h
    cases hf : db.find? (fun d => d.ID == ObjectIdHex id) with
    | none => rw [hf] at h; simp at h
    | some x =>
      rw [hf] at h
      simp only [Prod.mk.injEq, true_and] at h
      subst h
      refine ⟨List.mem_of_find?_eq_some hf, ?_⟩
      have := List.find?_some hf
      simpa using this

theorem Token_claims (lib : TokenLib) (now : Time) (u : User) (issuer signingKey : String)
    (ttl : Int) :
    (u.Token lib now issuer signingKey ttl).1.Claims.ID = u.ID.Hex ∧
    (u.Token lib now issuer signingKey ttl).1.Claims.Name = u.FirstName ++ " " ++ u.LastName ∧
    (u.Token lib now issuer signingKey ttl).1.Claims.Role = "user" := by
  unfold User.Token Token.Encode
  dsimp only
  split_ifs <;> exact ⟨rfl, rfl, rfl⟩

/-- C17: the token of `User.Token(issuer, signingKey, ttl)` is the encoding of
a new token of that policy with the custom claims id = hex of the user's ID,
name = FirstName ++ " " ++ LastName, role = "user", and the token returned
carries exactly those three claims. `Datastore.FreshUserToken` for a user id
that `ByID` finds returns the encoded string of that construction on the
stored user (under a policy that `Encode` accepts, always without error), the
user found being a stored one with the id asked for; it fails when the user
is not found; and two stores in which `ByID` finds the same user give the
same result, for one policy and one reading of the clock. -/
theorem C17_user_token (lib : TokenLib) (now : Time) (db : Collection) (u : User)
    (userID issuer signingKey : String) (ttl : Int) :
    u.Token lib now issuer signingKey ttl =
      ((NewToken issuer signingKey ttl).CustomClaims
        ⟨u.ID.Hex, u.FirstName ++ " " ++ u.LastName, "user"⟩).Encode lib now ∧
    ((u.Token lib now issuer signingKey ttl).1.Claims.ID = u.ID.Hex ∧
     (u.Token lib now issuer signingKey ttl).1.Claims.Name = u.FirstName ++ " " ++ u.LastName ∧
     (u.Token lib now issuer signingKey ttl).1.Claims.Role = "user") ∧
    (∀ d : User, User.zero.ByID db userID = (none, d) →
      (d ∈ db ∧ d.ID = ObjectIdHex userID) ∧
      Datastore.FreshUserToken lib now db userID issuer signingKey ttl =
        (if (d.Token lib now issuer signingKey ttl).2 = none
         then ((d.Token lib now issuer signingKey ttl).1.String, none)
         else ("", some (.New "could not issue token"))) ∧
      (issuer ≠ "" → signingKey ≠ "" → 0 < ttl →
        Datastore.FreshUserToken lib now db userID issuer signingKey ttl =
          ((d.Token lib now issuer signingKey ttl).1.Encoded, none))) ∧
    (∀ (e : Error) (d : User), User.zero.ByID db userID = (some e, d) →
      Datastore.FreshUserToken lib now db userID issuer signingKey ttl =
        ("", some (.New "could not fetch user to re-issue token"))) ∧
    (∀ db2 : Collection, User.zero.ByID db2 userID = User.zero.ByID db userID →
      Datastore.FreshUserToken lib now db2 userID issuer signingKey ttl =
        Datastore.FreshUserToken lib now db userID issuer signingKey ttl) := by
  refine ⟨rfl, Token_claims lib now u issuer signingKey ttl, ?_, ?_, ?_⟩
  · intro d hd
    have hfresh : Datastore.FreshUserToken lib now db userID issuer signingKey ttl =
        (if (d.Token lib now issuer signingKey ttl).2 = none
         then ((d.Token lib now issuer signingKey ttl).1.String, none)
         else ("", some (.New "could not issue token"))) := by
      unfold Datastore.FreshUserToken
      rw [hd]
      simp only []
      rcases ht : d.Token lib now issuer signingKey ttl with ⟨t, _ | e⟩ <;> simp [ht]
    refine ⟨ByID_found db User.zero d userID hd, hfresh, ?_⟩
    intro h1 h2 h3
    have hok : (d.Token lib now issuer signingKey ttl).2 = none := by
      unfold User.Token
      rw [Encode_ok lib now _ h1 h2 h3]
    rw [hfresh, if_pos hok]
    rfl
  · intro e d hd
    unfold Datastore.FreshUserToken
    rw [hd]
  · intro db2 h
    unfold Datastore.FreshUserToken
    rw [h]

/-- C17 (witness): the user of testUserToken in the test data, and the fresh
token for that id. -/
theorem C17_user_token_witness :
    ((MONGO_USERS_DATA.headD User.zero).Token sampleLib 1541152800000000000
        "TestTokenIssuer" "testTokenSigningKey" 4).1.Claims.ID = "5b3bcd72463cd6029e04de18" ∧
    ((MONGO_USERS_DATA.headD User.zero).Token sampleLib 1541152800000000000
        "TestTokenIssuer" "testTokenSigningKey" 4).1.Claims.Name = "Broderick Reynolds" ∧
    ((MONGO_USERS_DATA.headD User.zero).Token sampleLib 1541152800000000000
        "TestTokenIssuer" "testTokenSigningKey" 4).1.Claims.Role = "user" ∧
    Datastore.FreshUserToken sampleLib 1541152800000000000 MONGO_USERS_DATA
        "5b3bcd72463cd6029e04de18" "TestTokenIssuer" "testTokenSigningKey" 4 =
      (((MONGO_USERS_DATA.headD User.zero).Token sampleLib 1541152800000000000
        "TestTokenIssuer" "testTokenSigningKey" 4).1.Encoded, none) := by
  have h := C17_user_token sampleLib 1541152800000000000 MONGO_USERS_DATA
    (MONGO_USERS_DATA.headD User.zero) "5b3bcd72463cd6029e04de18"
    "TestTokenIssuer" "testTokenSigningKey" 4
  have hid : (MONGO_USERS_DATA.headD User.zero).ID.Hex = "5b3bcd72463cd6029e04de18" := by
    decide
  have hname : (MONGO_USERS_DATA.headD User.zero).FirstName ++ " " ++
      (MONGO_USERS_DATA.headD User.zero).LastName = "Broderick Reynolds" := by decide
  have hby : User.zero.ByID MONGO_USERS_DATA "5b3bcd72463cd6029e04de18" =
      (none, MONGO_USERS_DATA.headD User.zero) := by decide
  refine ⟨?_, ?_, h.2.1.2.2, ?_⟩
  · rw [h.2.1.1, hid]
  · rw [h.2.1.2.1, hname]
  · exact ((h.2.2.1 _ hby).2.2 (by decide) (by decide) (by decide))

/-! ## The middleware helpers -/

theorem AuthHeaderToken_Bearer_Encode (lib : TokenLib) (now now2 : Time) (t : Token)
    (h1 : t.issuer ≠ "") (h2 : t.signingKey ≠ "") (h3 : 0 < t.ttlHours)
    (hcodec : lib.unmarshal (lib.marshal (t.stamp now).payload) = some (t.stamp now).payload)
    (hne : lib.marshal (t.stamp now).payload ≠ [])
    (hw : t.Claims.IssuedAt.getD (Unix now) ≤ Unix now2 ∧
      Unix now2 < t.Claims.IssuedAt.getD (Unix now) + t.ttlHours * 3600) :
    AuthHeaderToken (DecodeToken lib now2) t.signingKey
        ("Bearer " ++ (t.Encode lib now).1.Encoded) = ((t.Encode lib now).1, none) := by
  have hsig : (t.Encode lib now).1.Encoded = (t.stamp now).sign lib := by
    rw [Encode_ok lib now t h1 h2 h3]
  rw [hsig, AuthHeaderToken_Bearer_sign, ← hsig,
    DecodeToken_Encode lib now now2 t h1 h2 h3 hcodec hne, if_pos hw]

theorem AuthHeaderToken_cases (decode : String → String → Token × Option Error)
    (key authorization : String) :
    (∀ x1 rest, Fields authorization = "Bearer" :: x1 :: rest →
      AuthHeaderToken decode key authorization = decode x1 key) ∧
    ((Fields authorization).length < 2 ∨ (Fields authorization).head? ≠ some "Bearer" →
      AuthHeaderToken decode key authorization =
        (Token.zero, some (.New "authorization header should be: Bearer [jwt]"))) := by
  constructor
  · intro x1 rest h
    have hplain : ∀ c ∈ x1.data, isSpace c = false :=
      Fields_plain authorization x1 (by rw [h]; simp)
    unfold AuthHeaderToken
    rw [h]
    simp only [bne_self_eq_false, Bool.false_eq_true, if_false]
    rw [TrimSpace_plain _ hplain]
  · intro h
    unfold AuthHeaderToken
    rcases hf : Fields authorization with _ | ⟨x0, _ | ⟨x1, rest⟩⟩
    · rfl
    · rfl
    · rw [hf] at h
      rcases h with h | h
      · simp only [List.length_cons] at h
        omega
      · have hx : x0 ≠ "Bearer" := by
          intro e
          apply h
          rw [e]
          rfl
        simp [hx]

/-- C18: `ValidateAuthHeaderToken(r, userID)` with a non-empty userID returns
nil exactly when `AuthHeaderToken(r)` succeeds and the decoded token's
`Claims.ID` equals userID; with an empty userID it returns nil exactly when
`AuthHeaderToken(r)` succeeds; when it does not succeed its error is returned;
and a header whose token decodes is refused with "token user id mismatch" for
every non-empty user id other than the token's own. -/
theorem C18_ValidateAuthHeaderToken (decode : String → String → Token × Option Error)
    (signingKey authorization userID : String) :
    (userID ≠ "" →
      (ValidateAuthHeaderToken decode signingKey authorization userID = none ↔
        (AuthHeaderToken decode signingKey authorization).2 = none ∧
        (AuthHeaderToken decode signingKey authorization).1.Claims.ID = userID)) ∧
    (ValidateAuthHeaderToken decode signingKey authorization "" = none ↔
      (AuthHeaderToken decode signingKey authorization).2 = none) ∧
    (∀ err, (AuthHeaderToken decode signingKey authorization).2 = some err →
      ValidateAuthHeaderToken decode signingKey authorization userID = some err) ∧
    ((AuthHeaderToken decode signingKey authorization).2 = none → userID ≠ "" →
      userID ≠ (AuthHeaderToken decode signingKey authorization).1.Claims.ID →
      ValidateAuthHeaderToken decode signingKey authorization userID =
        some (.New "token user id mismatch")) := by
  unfold ValidateAuthHeaderToken
  rcases AuthHeaderToken decode signingKey authorization with ⟨t, _ | e⟩
  · refine ⟨?_, ?_, ?_, ?_⟩
    · intro hu
      simp only [bne_iff_ne, ne_eq, hu, not_false_eq_true, if_true, true_and]
      by_cases hid : t.Claims.ID = userID
      · simp [hid]
      · simp [hid]
    · simp
    · intro err h
      simp at h
    · intro _ hu hid
      simp only [bne_iff_ne, ne_eq, hu, not_false_eq_true, if_true]
      rw [if_pos (fun e => hid e.symm)]
  · refine ⟨?_, ?_, ?_, ?_⟩
    · intro _
      simp
    · simp
    · intro err h
      simp only [Option.some.injEq] at h
      rw [h]
    · intro h
      simp at h

/-- C18 (witness): the token of the user 5b3bcd72463cd6029e04de18 in a Bearer
header passes for that id and for no id, and is refused for another id. -/
theorem C18_ValidateAuthHeaderToken_witness :
    ValidateAuthHeaderToken (DecodeToken sampleLib 1541152800000000000) "testTokenSigningKey"
      ("Bearer " ++ (((NewToken "TestTokenIssuer" "testTokenSigningKey" 4).CustomClaims
          ⟨"5b3bcd72463cd6029e04de18", "Mike Donnici", "user"⟩).Encode sampleLib
            1541152800000000000).1.Encoded) "5b3bcd72463cd6029e04de18" = none ∧
    ValidateAuthHeaderToken (DecodeToken sampleLib 1541152800000000000) "testTokenSigningKey"
      ("Bearer " ++ (((NewToken "TestTokenIssuer" "testTokenSigningKey" 4).CustomClaims
          ⟨"5b3bcd72463cd6029e04de18", "Mike Donnici", "user"⟩).Encode sampleLib
            1541152800000000000).1.Encoded) "5b3bcd72463cd6029e04de19" =
        some (.New "token user id mismatch") := by
  have hauth := AuthHeaderToken_Bearer_Encode sampleLib 1541152800000000000 1541152800000000000
    ((NewToken "TestTokenIssuer" "testTokenSigningKey" 4).CustomClaims
      ⟨"5b3bcd72463cd6029e04de18", "Mike Donnici", "user"⟩)
    (by decide) (by decide) (by decide) (by decide) (by decide) (by decide)
  have hkey : ((NewToken "TestTokenIssuer" "testTokenSigningKey" 4).CustomClaims
      ⟨"5b3bcd72463cd6029e04de18", "Mike Donnici", "user"⟩).signingKey =
        "testTokenSigningKey" := rfl
  rw [hkey] at hauth
  have hid : (((NewToken "TestTokenIssuer" "testTokenSigningKey" 4).CustomClaims
      ⟨"5b3bcd72463cd6029e04de18", "Mike Donnici", "user"⟩).Encode sampleLib
        1541152800000000000).1.Claims.ID = "5b3bcd72463cd6029e04de18" := by
    rw [Encode_ok sampleLib _ _ (by decide) (by decide) (by decide)]
    rfl
  constructor
  · refine ((C18_ValidateAuthHeaderToken _ _ _ "5b3bcd72463cd6029e04de18").1 (by decide)).2 ?_
    rw [hauth]
    exact ⟨rfl, hid⟩
  · refine (C18_ValidateAuthHeaderToken _ _ _ "5b3bcd72463cd6029e04de19").2.2.2 ?_
      (by decide) ?_
    · rw [hauth]
    · rw [hauth]
      show "5b3bcd72463cd6029e04de19" ≠ _
      rw [hid]
      decide

/-- C19: `AuthHeaderToken` returns its own error, whatever the decoder would
answer, when the Authorization value has fewer than two whitespace-separated
fields or a first field other than "Bearer"; so the empty (missing) header, a
bare token and "bearer x" are refused. Otherwise, the fields being "Bearer",
a second field and any further ones, its result is exactly the decoder's
result on the second field and the configured signing key. -/
theorem C19_AuthHeaderToken (decode : String → String → Token × Option Error)
    (signingKey authorization : String) :
    ((Fields authorization).length < 2 ∨ (Fields authorization).head? ≠ some "Bearer" →
      AuthHeaderToken decode signingKey authorization =
        (Token.zero, some (.New "authorization header should be: Bearer [jwt]"))) ∧
    (∀ x1 rest, Fields authorization = "Bearer" :: x1 :: rest →
      AuthHeaderToken decode signingKey authorization = decode x1 signingKey) ∧
    AuthHeaderToken decode signingKey "" =
      (Token.zero, some (.New "authorization header should be: Bearer [jwt]")) ∧
    AuthHeaderToken decode signingKey "eyJhbGciOiJIUzI1NiJ9.eyJpZCI6IjEifQ.c2ln" =
      (Token.zero, some (.New "authorization header should be: Bearer [jwt]")) ∧
    AuthHeaderToken decode signingKey "bearer x" =
      (Token.zero, some (.New "authorization header should be: Bearer [jwt]")) ∧
    AuthHeaderToken decode signingKey "Bearer  abc.def.ghi  and more" =
      decode "abc.def.ghi" signingKey := by
  have hc := AuthHeaderToken_cases decode signingKey
  refine ⟨(hc authorization).2, (hc authorization).1, ?_, ?_, ?_, ?_⟩
  · exact (hc "").2 (by decide)
  · exact (hc "eyJhbGciOiJIUzI1NiJ9.eyJpZCI6IjEifQ.c2ln").2 (by decide)
  · exact (hc "bearer x").2 (by decide)
  · exact (hc "Bearer  abc.def.ghi  and more").1 "abc.def.ghi" ["and", "more"] (by decide)

/-! ## The confirmation key -/

theorem String_append_left_ne (a b c : String) (h : b ≠ c) : a ++ b ≠ a ++ c := by
  intro e
  apply h
  have hd := congrArg String.data e
  rw [String.data_append, String.data_append] at hd
  exact String.ext (List.append_cancel_left hd)

/-- When both readings of the clock fall on one UTC date, the key is the digest
of lower(Email) ++ Password ++ month name ++ day of that date. -/
theorem KeyGen_one_date (env : Env) (now1 now2 : Time) (u : User)
    (h : utcDays now1 = utcDays now2) :
    u.KeyGen env now1 now2 =
      hash env (ToLower env u.Email ++ u.Password ++ MonthString (Month now2) ++
        Itoa (Day now2)) := by
  unfold User.KeyGen User.KeyGen_s hash Month
  rw [h]

/-- Two evaluations whose four readings of the clock fall on one UTC date give
the same key. -/
theorem KeyGen_same_day (env : Env) (a1 a2 b1 b2 : Time) (u : User)
    (ha : utcDays a1 = utcDays a2) (hab : utcDays a2 = utcDays b1)
    (hb : utcDays b1 = utcDays b2) :
    u.KeyGen env a1 a2 = u.KeyGen env b1 b2 := by
  unfold User.KeyGen User.KeyGen_s Month Day
  rw [ha, hab, hb]

/-- C20 (the code at the failing input): with the first reading of the clock
at 2019-01-31T23:59:59.999999999Z and the second at 2019-02-01T00:00:00Z,
`KeyGen` hashes lower(Email) ++ Password ++ "January" ++ "1". That is the
string of neither date between which the call ran (January 31 and February 1),
and the key returned is the key of 2019-01-01. -/
theorem C20_KeyGen_reads_clock_twice (env : Env) (u : User) :
    (Month 1548979199999999999 = 1 ∧ Day 1548979199999999999 = 31) ∧
    (Month 1548979200000000000 = 2 ∧ Day 1548979200000000000 = 1) ∧
    u.KeyGen_s env 1548979199999999999 1548979200000000000 =
      ToLower env u.Email ++ u.Password ++ "January" ++ "1" ∧
    u.KeyGen_s env 1548979199999999999 1548979200000000000 ≠
      u.KeyGen_s env 1548979199999999999 1548979199999999999 ∧
    u.KeyGen_s env 1548979199999999999 1548979200000000000 ≠
      u.KeyGen_s env 1548979200000000000 1548979200000000000 ∧
    u.KeyGen env 1548979199999999999 1548979200000000000 =
      u.KeyGen env 1546300800000000000 1546300800000000000 := by
  have m1 : Month 1548979199999999999 = 1 := by decide
  have d1 : Day 1548979199999999999 = 31 := by decide
  have m2 : Month 1548979200000000000 = 2 := by decide
  have d2 : Day 1548979200000000000 = 1 := by decide
  have m0 : Month 1546300800000000000 = 1 := by decide
  have d0 : Day 1546300800000000000 = 1 := by decide
  have i1 : Itoa 1 = "1" := by decide
  have i31 : Itoa 31 = "31" := by decide
  have s1 : MonthString 1 = "January" := rfl
  have s2 : MonthString 2 = "February" := rfl
  refine ⟨⟨m1, d1⟩, ⟨m2, d2⟩, ?_, ?_, ?_, ?_⟩
  · unfold User.KeyGen_s
    rw [m1, d2, i1, s1]
  · unfold User.KeyGen_s
    rw [m1, d2, d1, i1, i31, s1]
    exact String_append_left_ne _ _ _ (by decide)
  · unfold User.KeyGen_s
    rw [m1, d2, m2, i1, s1, s2]
    rw [String.append_assoc _ "January", String.append_assoc _ "February"]
    exact String_append_left_ne _ _ _ (by decide)
  · unfold User.KeyGen User.KeyGen_s
    rw [m1, d2, m0, d0]

/-! ## The digest as text -/

theorem hexDigit_mem_fin : ∀ n : Fin 16, hexDigit n.val ∈ "0123456789abcdef".data := by
  decide

theorem hexDigit_mem (n : Nat) (h : n < 16) : hexDigit n ∈ "0123456789abcdef".data :=
  hexDigit_mem_fin ⟨n, h⟩

theorem hexString_digits (bs : List Byte) :
    ∀ c ∈ (hexString bs).data, c ∈ "0123456789abcdef".data := by
  intro c hc
  simp only [hexString, List.mem_flatMap] at hc
  obtain ⟨b, _, hb⟩ := hc
  simp only [hexByte, List.mem_cons, List.mem_singleton, List.not_mem_nil, or_false] at hb
  have hlt : b.val < 256 := b.isLt
  rcases hb with hb | hb
  · rw [hb]
    exact hexDigit_mem _ (by omega)
  · rw [hb]
    exact hexDigit_mem _ (by omega)

/-- C27: for every input string `hash` returns exactly 64 characters, each one
of `0123456789abcdef`; equal inputs give equal outputs; `User.KeyGen` and
`User.hashPass` return a string of 64 such characters whatever the user, the
clock readings and the password. -/
theorem C27_hash_fixed_length (env : Env) (s s2 : String) (u : User) (now1 now2 : Time)
    (password : String) :
    (hash env s).length = 64 ∧
    (∀ c ∈ (hash env s).data, c ∈ "0123456789abcdef".data) ∧
    (s = s2 → hash env s = hash env s2) ∧
    ((u.KeyGen env now1 now2).length = 64 ∧
      ∀ c ∈ (u.KeyGen env now1 now2).data, c ∈ "0123456789abcdef".data) ∧
    ((u.hashPass env password).length = 64 ∧
      ∀ c ∈ (u.hashPass env password).data, c ∈ "0123456789abcdef".data) := by
  refine ⟨hash_length env s, hexString_digits _, fun h => by rw [h], ⟨?_, ?_⟩, ⟨?_, ?_⟩⟩
  · exact hash_length env (u.KeyGen_s env now1 now2)
  · exact hexString_digits _
  · exact hash_length env _
  · exact hexString_digits _

/-- C29: `KeyGen` reads the time only through the month of its first clock
reading and the day of the month of its second, and the email only through
its lower-cased form. So for one password hash, readings with the same UTC
month and day give the same key whatever the year (2018-11-02T10:00:00Z and
2019-11-02T23:00:00Z are such readings), and so do two emails with the same
lower-cased form (as `Mike@RTCL.io` and `mike@rtcl.io` under ASCII
lower-casing). -/
theorem C29_KeyGen_dependence (env : Env) (a1 a2 b1 b2 : Time) (u v : User) :
    (Month a1 = Month b1 → Day a2 = Day b2 → u.KeyGen env a1 a2 = u.KeyGen env b1 b2) ∧
    u.KeyGen env 1541152800000000000 1541152800000000000 =
      u.KeyGen env 1572735600000000000 1572735600000000000 ∧
    (ToLower env u.Email = ToLower env v.Email → u.Password = v.Password →
      u.KeyGen env a1 a2 = v.KeyGen env a1 a2) ∧
    (ToLower sampleEnv "Mike@RTCL.io" = ToLower sampleEnv "mike@rtcl.io" ∧
      ({ u with Email := "Mike@RTCL.io" }).KeyGen sampleEnv a1 a2 =
        ({ u with Email := "mike@rtcl.io" }).KeyGen sampleEnv a1 a2) := by
  have hm : Month 1541152800000000000 = Month 1572735600000000000 := by decide
  have hd : Day 1541152800000000000 = Day 1572735600000000000 := by decide
  have hl : ToLower sampleEnv "Mike@RTCL.io" = ToLower sampleEnv "mike@rtcl.io" := by decide
  refine ⟨?_, ?_, ?_, hl, ?_⟩
  · intro h1 h2
    unfold User.KeyGen User.KeyGen_s
    rw [h1, h2]
  · unfold User.KeyGen User.KeyGen_s
    rw [hm, hd]
  · intro h1 h2
    unfold User.KeyGen User.KeyGen_s
    rw [h1, h2]
  · unfold User.KeyGen User.KeyGen_s
    simp only [hl]

/-! ## Notifications due -/

/-- C22: `UsersDueNotification` returns, in the order of the collection,
exactly the stored users whose notification time `t` satisfies
`epoch < t < now`, both bounds strict, with no error; a user whose
notification is the zero value of `time.Time` (what a missing field decodes
to), the epoch, `now` or a later time is not returned; the collection is
left as it was. On the test data, at 2018-11-02T10:00:00Z, the two users
with the notification 2018-01-01 are returned and the one with 2118-01-01 is
not. -/
theorem C22_UsersDueNotification (now : Time) (db : Collection) :
    (Datastore.UsersDueNotification now db).xu =
      db.filter (fun d => decide (epoch < d.Notification ∧ d.Notification < now)) ∧
    (∀ d : User, d ∈ (Datastore.UsersDueNotification now db).xu ↔
      d ∈ db ∧ epoch < d.Notification ∧ d.Notification < now) ∧
    (∀ d ∈ db, d.Notification = zeroTime ∨ d.Notification = epoch ∨ now ≤ d.Notification →
      d ∉ (Datastore.UsersDueNotification now db).xu) ∧
    (Datastore.UsersDueNotification now db).err = none ∧
    (Datastore.UsersDueNotification now db).db = db ∧
    (Datastore.UsersDueNotification 1541152800000000000 MONGO_USERS_DATA).xu =
      MONGO_USERS_DATA.take 2 := by
  have hmem : ∀ d : User, d ∈ (Datastore.UsersDueNotification now db).xu ↔
      d ∈ db ∧ epoch < d.Notification ∧ d.Notification < now := by
    intro d
    simp [Datastore.UsersDueNotification, Collection.All, List.mem_filter]
  refine ⟨?_, hmem, ?_, rfl, rfl, by decide⟩
  · simp [Datastore.UsersDueNotification, Collection.All, Bool.decide_and]
  · intro d _ hd hin
    obtain ⟨_, h1, h2⟩ := (hmem d).1 hin
    have hz : zeroTime < epoch := by decide
    rcases hd with hd | hd | hd
    · rw [hd] at h1
      exact absurd h1 (not_lt.2 (le_of_lt hz))
    · rw [hd] at h1
      exact lt_irrefl _ h1
    · exact absurd h2 (not_lt.2 hd)

/-! ## What `Save` does to the password and the lock -/

theorem Save_fixes_valid (env : Env) (clock : String) (fresh : ObjectId) (db : Collection)
    (u : User) (hid : u.ID.Valid = true) : (u.Save env clock fresh db).u = u := by
  cases he : (u.Save env clock fresh db).err with
  | none => rw [Save_valid_ok env clock fresh db u hid he]
  | some e =>
    exact (Save_error_unchanged env clock fresh db u (by rw [he]; exact Option.some_ne_none e)).1

/-- C28: a `Save` that returns no error, for a user whose ID is not a valid
object id on entry, assigns the fresh ID, sets `Locked` to true and replaces
the password by `hashPass` of it (of `impossiblePassword()` when it is empty)
salted with the fresh ID, and stores that user; for a user whose ID is valid
it stores the user as given, `Password` and `Locked` included, and leaves the
user value as it was. Saving the saved user again, at any clock reading and
on any collection, returns the same user value: the password is not hashed a
second time. `fresh` is the value of `bson.NewObjectId()`, a valid id. -/
theorem C28_Save_hashes_new_only (env : Env) (clock : String) (fresh : ObjectId)
    (db : Collection) (u : User)
    (h : (u.Save env clock fresh db).err = none) (hfresh : fresh.Valid = true) :
    (u.ID.Valid = false →
      (u.Save env clock fresh db).u =
        { u with
          ID := fresh, Locked := true,
          Password := ({ u with ID := fresh }).hashPass env
            (if u.Password = "" then impossiblePassword env clock else u.Password) } ∧
      (u.Save env clock fresh db).db = db.Upsert fresh (u.Save env clock fresh db).u) ∧
    (u.ID.Valid = true →
      u.Save env clock fresh db = ⟨none, u, db.Upsert u.ID u⟩ ∧
      u ∈ (u.Save env clock fresh db).db) ∧
    (∀ (clock2 : String) (fresh2 : ObjectId) (db2 : Collection),
      ((u.Save env clock fresh db).u.Save env clock2 fresh2 db2).u =
        (u.Save env clock fresh db).u) := by
  refine ⟨?_, ?_, ?_⟩
  · intro hv
    obtain ⟨_, hu, hdb⟩ := Save_new_ok env clock fresh db u hv h
    exact ⟨by rw [hu]; rfl, hdb⟩
  · intro hv
    have hs := Save_valid_ok env clock fresh db u hv h
    refine ⟨hs, ?_⟩
    rw [hs]
    exact self_mem_Upsert db u.ID u
  · intro clock2 fresh2 db2
    apply Save_fixes_valid
    cases hv : u.ID.Valid
    · obtain ⟨_, hu, _⟩ := Save_new_ok env clock fresh db u hv h
      rw [hu]
      exact hfresh
    · rw [Save_valid_ok env clock fresh db u hv h]
      exact hv

/-- C28 (witness): a record submitted with a chosen valid ID, the password
"plain" and `Locked` false is stored as it is. -/
theorem C28_Save_hashes_new_only_witness :
    User.Save sampleEnv "2018-11-02 10:00:00 +0000 UTC" freshId [] (mike sampleId "plain") =
      ⟨none, mike sampleId "plain", [mike sampleId "plain"]⟩ ∧
    (mike sampleId "plain").Password = "plain" ∧ (mike sampleId "plain").Locked = false :=
  ⟨((C28_Save_hashes_new_only sampleEnv "2018-11-02 10:00:00 +0000 UTC" freshId []
      (mike sampleId "plain") (by decide) (by decide)).2.1 (by decide)).1, rfl, rfl⟩

/-! ## Saving a stored user -/

theorem find?_modifyFirst_self (p : User → Bool) (v : User) (c : Collection)
    (hv : p v = true) (h : ∃ d ∈ c, p d = true) :
    (modifyFirst p (fun _ => v) c).find? p = some v := by
  induction c with
  | nil => simp at h
  | cons a c ih =>
    simp only [modifyFirst]
    by_cases hpa : p a = true
    · simp [hpa, hv]
    · obtain ⟨d, hd, hpd⟩ := h
      rcases List.mem_cons.1 hd with hd | hd
      · subst hd; exact absurd hpd hpa
      · simp only [hpa, Bool.false_eq_true, if_false, List.find?_cons]
        exact ih ⟨d, hd, hpd⟩

theorem find?_Upsert_self (c : Collection) (u : User) :
    (c.Upsert u.ID u).find? (fun d => d.ID == u.ID) = some u := by
  unfold Collection.Upsert
  split
  · rename_i h
    exact find?_modifyFirst_self _ u c (by simp) (List.any_eq_true.1 h)
  · rename_i h
    have hnone : ∀ d ∈ c, (d.ID == u.ID) = false := by
      intro d hd
      cases hq : (d.ID == u.ID)
      · rfl
      · exact absurd (List.any_eq_true.2 ⟨d, hd, hq⟩) h
    rw [List.find?_append, List.find?_eq_none.2 (fun d hd => by simp [hnone d hd])]
    simp

theorem Save_valid_succeeds (env : Env) (clock : String) (fresh : ObjectId) (db : Collection)
    (u : User) (hid : u.ID.Valid = true) (hfields : u.checkFields = none)
    (hemail : ∀ d ∈ db, d.Email = u.Email → d.ID = u.ID) :
    u.Save env clock fresh db = ⟨none, u, db.Upsert u.ID u⟩ := by
  apply Save_valid_ok env clock fresh db u hid
  unfold User.Save
  simp only [hfields, hid]
  have hcheck : ((User.zero.ByEmail db u.Email).1.isNone &&
      (User.zero.ByEmail db u.Email).2.ID != u.ID) = false := by
    unfold User.ByEmail Collection.One
    cases hf : db.find? (fun d => d.Email == u.Email) with
    | none => simp
    | some d =>
      have hd := List.mem_of_find?_eq_some hf
      have he : d.Email = u.Email := by simpa using List.find?_some hf
      simp [hemail d hd he]
  simp [hcheck]

theorem hexDecode_length : ∀ (l : List Char) (bs : List Byte), hexDecode l = some bs →
    2 * bs.length = l.length
  | [], bs, h => by
    simp only [hexDecode, Option.some.injEq] at h
    subst h
    rfl
  | [_], bs, h => by simp [hexDecode] at h
  | c1 :: c2 :: rest, bs, h => by
    unfold hexDecode at h
    cases h1 : hexValue c1 <;> cases h2 : hexValue c2 <;> cases h3 : hexDecode rest <;>
      simp only [h1, h2, h3, Option.some.injEq] at h <;> try exact Option.noConfusion h
    subst h
    have := hexDecode_length rest _ h3
    simp only [List.length_cons]
    omega

theorem IsObjectIdHex_valid (id : String) (h : IsObjectIdHex id = true) :
    (ObjectIdHex id).Valid = true := by
  have hlen := hexDecode_length
  unfold IsObjectIdHex at h
  simp only [Bool.and_eq_true, beq_iff_eq] at h
  obtain ⟨h24, hsome⟩ := h
  obtain ⟨bs, hbs⟩ := Option.isSome_iff_exists.1 hsome
  have := hlen _ _ hbs
  unfold ObjectIdHex ObjectId.Valid
  rw [hbs]
  simp only [beq_iff_eq]
  rw [String.length] at h24
  omega

theorem UserByID_found (db : Collection) (id : String) (u : User)
    (h : Datastore.UserByID db id = (some u, none)) :
    IsObjectIdHex id = true ∧ db.find? (fun d => d.ID == ObjectIdHex id) = some u ∧
    u ∈ db ∧ u.ID = ObjectIdHex id ∧ u.ID.Valid = true := by
  unfold Datastore.UserByID at h
  cases hid : IsObjectIdHex id
  · simp [hid] at h
  · simp only [hid, Bool.not_true, Bool.false_eq_true, if_false] at h
    unfold Collection.One at h
    cases hf : db.find? (fun d => d.ID == ObjectIdHex id) with
    | none => simp [hf] at h
    | some x =>
      simp only [hf, Prod.mk.injEq, Option.some.injEq, and_true] at h
      subst h
      have hx : x.ID = ObjectIdHex id := by simpa using List.find?_some hf
      refine ⟨rfl, rfl, List.mem_of_find?_eq_some hf, hx, ?_⟩
      rw [hx]
      exact IsObjectIdHex_valid id hid

theorem UserByID_of_find (db : Collection) (id : String) (u : User)
    (hid : IsObjectIdHex id = true)
    (h : db.find? (fun d => d.ID == ObjectIdHex id) = some u) :
    Datastore.UserByID db id = (some u, none) := by
  simp [Datastore.UserByID, hid, Collection.One, h]

/-! ## Package time: dates and days -/

theorem absYear_spec (d : Int) (h0 : 0 ≤ d) :
    ∃ e c f j r : Int, 0 ≤ e ∧ (0 ≤ c ∧ c ≤ 3) ∧ (0 ≤ f ∧ f ≤ 24) ∧ (0 ≤ j ∧ j ≤ 3) ∧
      (0 ≤ r ∧ r ≤ 365) ∧ (r = 365 → j = 3 ∧ (f = 24 → c = 3)) ∧
      absYear d = (400 * e + 100 * c + 4 * f + j, r) ∧
      d = 146097 * e + 36524 * c + 1461 * f + 365 * j + r := by
  unfold absYear
  simp only
  obtain ⟨e, he⟩ : ∃ e, e = d / 146097 := ⟨_, rfl⟩
  rw [← he]
  obtain ⟨r1, hr1⟩ : ∃ r1, r1 = d - 146097 * e := ⟨_, rfl⟩
  rw [← hr1]
  have hr1b : 0 ≤ r1 ∧ r1 < 146097 := by omega
  obtain ⟨g, hg⟩ : ∃ g, g = r1 / 36524 := ⟨_, rfl⟩
  rw [← hg]
  have hg4 : 0 ≤ g ∧ g ≤ 4 := by omega
  obtain ⟨c, hc⟩ : ∃ c, c = g - g / 4 := ⟨_, rfl⟩
  rw [← hc]
  obtain ⟨r2, hr2⟩ : ∃ r2, r2 = r1 - 36524 * c := ⟨_, rfl⟩
  rw [← hr2]
  have hr2b : (0 ≤ c ∧ c ≤ 3) ∧ 0 ≤ r2 ∧ r2 ≤ 36524 ∧ (r2 = 36524 → c = 3) := by
    obtain ⟨h1, h2⟩ := hg4
    interval_cases g <;> omega
  obtain ⟨f, hf⟩ : ∃ f, f = r2 / 1461 := ⟨_, rfl⟩
  rw [← hf]
  have hf24 : 0 ≤ f ∧ f ≤ 24 := by omega
  obtain ⟨r3, hr3⟩ : ∃ r3, r3 = r2 - 1461 * f := ⟨_, rfl⟩
  rw [← hr3]
  have hr3b : 0 ≤ r3 ∧ r3 ≤ 1460 := by omega
  obtain ⟨k, hk⟩ : ∃ k, k = r3 / 365 := ⟨_, rfl⟩
  rw [← hk]
  have hk4 : 0 ≤ k ∧ k ≤ 4 := by omega
  obtain ⟨j, hj⟩ : ∃ j, j = k - k / 4 := ⟨_, rfl⟩
  rw [← hj]
  obtain ⟨r4, hr4⟩ : ∃ r4, r4 = r3 - 365 * j := ⟨_, rfl⟩
  rw [← hr4]
  have hr4b : (0 ≤ j ∧ j ≤ 3) ∧ 0 ≤ r4 ∧ r4 ≤ 365 ∧ (r4 = 365 → j = 3) := by
    obtain ⟨h1, h2⟩ := hk4
    interval_cases k <;> omega
  refine ⟨e, c, f, j, r4, by omega, hr2b.1, hf24, hr4b.1, ⟨hr4b.2.1, hr4b.2.2.1⟩, ?_, rfl,
    by omega⟩
  intro h
  refine ⟨hr4b.2.2.2 h, ?_⟩
  intro h24
  apply hr2b.2.2.2
  have := hr4b.2.2.2 h
  omega

theorem daysSinceEpoch_spec (e c f j : Int) (he : 0 ≤ e ∧ e ≤ 10000000000)
    (hc : 0 ≤ c ∧ c ≤ 3) (hf : 0 ≤ f ∧ f ≤ 24) (hj : 0 ≤ j ∧ j ≤ 3) :
    daysSinceEpoch (400 * e + 100 * c + 4 * f + j + absoluteZeroYear) =
      146097 * e + 36524 * c + 1461 * f + 365 * j := by
  unfold daysSinceEpoch
  simp only
  have h0 : uint64 (int64 (400 * e + 100 * c + 4 * f + j + absoluteZeroYear - absoluteZeroYear)) =
      400 * e + 100 * c + 4 * f + j := by
    unfold uint64 int64
    omega
  rw [h0]
  have h1 : (400 * e + 100 * c + 4 * f + j) / 400 = e := by omega
  rw [h1]
  have h2 : 400 * e + 100 * c + 4 * f + j - 400 * e = 100 * c + 4 * f + j := by omega
  rw [h2]
  have h3 : (100 * c + 4 * f + j) / 100 = c := by omega
  rw [h3]
  have h4 : 100 * c + 4 * f + j - 100 * c = 4 * f + j := by omega
  rw [h4]
  have h5 : (4 * f + j) / 4 = f := by omega
  rw [h5]
  unfold uint64
  omega

theorem isLeap_spec (e c f j : Int) (hc : 0 ≤ c ∧ c ≤ 3) (hf : 0 ≤ f ∧ f ≤ 24)
    (hj : 0 ≤ j ∧ j ≤ 3) :
    isLeap (400 * e + 100 * c + 4 * f + j + absoluteZeroYear) = true ↔
      (j = 3 ∧ (f = 24 → c = 3)) := by
  unfold isLeap absoluteZeroYear
  simp only [Bool.and_eq_true, Bool.or_eq_true, beq_iff_eq, bne_iff_ne, ne_eq]
  constructor
  · rintro ⟨h4, h100 | h400⟩
    · omega
    · omega
  · rintro ⟨h3, hfc⟩
    refine ⟨by omega, ?_⟩
    by_cases hf24 : f = 24
    · right
      have := hfc hf24
      omega
    · left
      omega

theorem daysBefore_bounds (m : Int) : 0 ≤ daysBefore m ∧ daysBefore m ≤ 365 := by
  unfold daysBefore
  generalize m.toNat = n
  by_cases h : n < 13
  · interval_cases n <;> simp
  · rw [List.getD_eq_default _ _ (by simpa using h)]
    omega

theorem norm_id (hi lo base : Int) (h0 : 0 ≤ lo) (h1 : lo < base) :
    norm hi lo base = (hi, lo) := by
  have h2 : ¬ lo < 0 := by omega
  have h3 : ¬ lo ≥ base := by omega
  unfold norm
  simp only [if_neg h2, if_neg h3]

/-- The result of `Date` for fields in their usual ranges except the day,
when no 64-bit arithmetic overflows and the location has the offset `off`
around the second `T` the result falls on. -/
theorem Date_zone (loc : Location) (year month day hour min sec nsec off T : Int)
    (hmonth : 1 ≤ month ∧ month ≤ 12) (hhour : 0 ≤ hour ∧ hour < 24)
    (hmin : 0 ≤ min ∧ min < 60) (hsec : 0 ≤ sec ∧ sec < 60)
    (hnsec : 0 ≤ nsec ∧ nsec < 1000000000)
    (hday : -9000000000000000000 ≤ day ∧ day ≤ 9000000000000000000)
    (hoff : -100000 ≤ off ∧ off ≤ 100000)
    (hyear : 0 ≤ daysSinceEpoch year ∧ daysSinceEpoch year ≤ 300000000000000)
    (hT : T = (daysSinceEpoch year + daysBefore (month - 1) +
        (if isLeap year = true ∧ month ≥ 3 then 1 else 0) + (day - 1)) * 86400 +
        (hour * 3600 + min * 60 + sec) - unixToAbsolute - off)
    (hrange : -100000000000000000 ≤ T ∧ T ≤ 100000000000000000)
    (hzone : ∀ s, T - 100000 ≤ s → s ≤ T + 100000 →
      (loc.lookup s).offset = off ∧ (loc.lookup s).start ≤ s ∧ s < (loc.lookup s).stop) :
    Date year month day hour min sec nsec loc = T * 1000000000 + nsec := by
  unfold Date
  have hm : int64 (month - 1) = month - 1 := by
    unfold int64
    omega
  simp only [hm]
  rw [norm_id year (month - 1) 12 (by omega) (by omega)]
  simp only
  rw [norm_id sec nsec 1000000000 hnsec.1 hnsec.2]
  simp only
  rw [norm_id min sec 60 hsec.1 hsec.2]
  simp only
  rw [norm_id hour min 60 hmin.1 hmin.2]
  simp only
  rw [norm_id day hour 24 hhour.1 hhour.2]
  simp only
  have hB := daysBefore_bounds (month - 1 + 1 - 1)
  have hmm : month - 1 + 1 = month := by omega
  rw [hmm] at hB ⊢
  generalize daysBefore (month - 1) = B at hB hT ⊢
  generalize daysSinceEpoch year = Y at hyear hT ⊢
  obtain ⟨L, hL⟩ : ∃ L : Int, L = (if isLeap year = true ∧ month ≥ 3 then 1 else 0) := ⟨_, rfl⟩
  have hLb : 0 ≤ L ∧ L ≤ 1 := by
    rw [hL]
    split <;> omega
  have hd1 : (if isLeap year = true ∧ month ≥ 3 then uint64 (uint64 (Y + B) + 1)
      else uint64 (Y + B)) = Y + B + L := by
    rw [hL]
    unfold uint64
    split <;> omega
  rw [hd1]
  rw [← hL] at hT
  clear hd1 hL hmm hm
  obtain ⟨D, hD⟩ : ∃ D : Int, D = Y + B + L + (day - 1) := ⟨_, rfl⟩
  obtain ⟨C, hC⟩ : ∃ C : Int, C = hour * 3600 + min * 60 + sec := ⟨_, rfl⟩
  have hCb : 0 ≤ C ∧ C < 86400 := by omega
  rw [← hD, ← hC] at hT
  have hTU : T + unixToAbsolute + off = D * 86400 + C := by omega
  have hU : unixToAbsolute = 9223372028715321600 := by decide
  have hd2 : uint64 (Y + B + L + uint64 (int64 (day - 1))) = D := by
    unfold uint64 int64
    omega
  rw [hd2, ← hC]
  have habs : uint64 (uint64 (D * 86400) + uint64 (int64 C)) = D * 86400 + C := by
    unfold uint64 int64
    omega
  rw [habs, ← hTU]
  clear habs hd2 hC hD hT hTU hCb hLb hB hyear hday hhour hmin hsec hmonth
  have hunix : int64 (int64 (T + unixToAbsolute + off) - unixToAbsolute) = T + off := by
    unfold int64
    omega
  rw [hunix]
  obtain ⟨hz1, hz2, hz3⟩ := hzone (T + off) (by omega) (by omega)
  rw [hz1]
  have h3 : int64 (T + off - off) = T := by
    unfold int64
    omega
  by_cases h0 : off = 0
  · rw [if_neg (by simpa using h0), h0]
    ring
  · rw [if_pos h0, h3]
    by_cases h1 : T < (loc.lookup (T + off)).start
    · rw [if_pos h1]
      have h4 : int64 ((loc.lookup (T + off)).start - 1) = (loc.lookup (T + off)).start - 1 := by
        unfold int64
        omega
      rw [h4, (hzone ((loc.lookup (T + off)).start - 1) (by omega) (by omega)).1, h3]
    · rw [if_neg h1]
      by_cases h2 : T ≥ (loc.lookup (T + off)).stop
      · rw [if_pos h2, (hzone ((loc.lookup (T + off)).stop) (by omega) (by omega)).1, h3]
      · rw [if_neg h2, h3]

theorem abs_eq (loc : Location) (t : Time) (off : Int)
    (ht : -100000000000000000 ≤ Unix t ∧ Unix t ≤ 100000000000000000)
    (hoff : -100000 ≤ off ∧ off ≤ 100000)
    (h0 : (loc.lookup (Unix t)).offset = off) :
    abs loc t = Unix t + off + unixToAbsolute := by
  have hU : unixToAbsolute = 9223372028715321600 := by decide
  unfold abs
  simp only [h0]
  unfold uint64 int64
  omega

theorem FixedZone_lookup (off s : Int) (h0 : -9000000000000000000 ≤ s)
    (h1 : s ≤ 9000000000000000000) :
    ((FixedZone off).lookup s).offset = off ∧ ((FixedZone off).lookup s).start ≤ s ∧
      s < ((FixedZone off).lookup s).stop := by
  refine ⟨rfl, ?_, ?_⟩
  · show alpha ≤ s
    unfold alpha
    omega
  · show s < Rtcl.omega
    simp only [Rtcl.omega]
    omega

theorem ymd_fin : ∀ (leap : Bool) (m : Fin 12) (d : Fin 31),
    ((d.val : Int) + 1 ≤ (if ((m.val : Int) + 1 = 2 ∧ leap = true) then 29
      else daysBefore ((m.val : Int) + 1) - daysBefore ((m.val : Int) + 1 - 1))) →
    (daysBefore ((m.val : Int) + 1 - 1) + (if leap = true ∧ (m.val : Int) + 1 ≥ 3 then 1 else 0) +
        ((d.val : Int) + 1 - 1) ≤ 364 + (if leap = true then 1 else 0)) ∧
    absMonthDay leap (daysBefore ((m.val : Int) + 1 - 1) +
        (if leap = true ∧ (m.val : Int) + 1 ≥ 3 then 1 else 0) + ((d.val : Int) + 1 - 1)) =
      ((m.val : Int) + 1, (d.val : Int) + 1) := by
  decide

theorem year_split (year : Int) (h : -292277022399 ≤ year ∧ year ≤ 300000000000) :
    ∃ e c f j : Int, (0 ≤ e ∧ e ≤ 10000000000) ∧ (0 ≤ c ∧ c ≤ 3) ∧ (0 ≤ f ∧ f ≤ 24) ∧
      (0 ≤ j ∧ j ≤ 3) ∧ year = 400 * e + 100 * c + 4 * f + j + absoluteZeroYear := by
  obtain ⟨y, hy⟩ : ∃ y : Int, y = year + 292277022399 := ⟨_, rfl⟩
  refine ⟨y / 400, y % 400 / 100, y % 100 / 4, y % 4, ?_, ?_, ?_, ?_, ?_⟩
  · omega
  · omega
  · omega
  · omega
  · unfold absoluteZeroYear
    omega

theorem UTC_lookup (s : Int) (h0 : -9000000000000000000 ≤ s) (h1 : s ≤ 9000000000000000000) :
    (UTC.lookup s).offset = 0 ∧ (UTC.lookup s).start ≤ s ∧ s < (UTC.lookup s).stop :=
  FixedZone_lookup 0 s h0 h1

theorem absYear_unique (e c f j r e1 c1 f1 j1 r1 : Int)
    (hc : 0 ≤ c ∧ c ≤ 3) (hf : 0 ≤ f ∧ f ≤ 24) (hj : 0 ≤ j ∧ j ≤ 3)
    (hr : 0 ≤ r ∧ r ≤ 365) (hl : r = 365 → j = 3 ∧ (f = 24 → c = 3))
    (he1 : 0 ≤ e1) (hc1 : 0 ≤ c1 ∧ c1 ≤ 3) (hf1 : 0 ≤ f1 ∧ f1 ≤ 24) (hj1 : 0 ≤ j1 ∧ j1 ≤ 3)
    (hr1 : 0 ≤ r1 ∧ r1 ≤ 365) (hl1 : r1 = 365 → j1 = 3 ∧ (f1 = 24 → c1 = 3))
    (h : 146097 * e + 36524 * c + 1461 * f + 365 * j + r =
      146097 * e1 + 36524 * c1 + 1461 * f1 + 365 * j1 + r1) :
    e = e1 ∧ c = c1 ∧ f = f1 ∧ j = j1 ∧ r = r1 := by
  have a1 : 365 * j + r ≤ 1460 := by
    by_cases h365 : r = 365
    · have := (hl h365).1
      omega
    · omega
  have a2 : 365 * j1 + r1 ≤ 1460 := by
    by_cases h365 : r1 = 365
    · have := (hl1 h365).1
      omega
    · omega
  have b1 : 1461 * f + 365 * j + r ≤ 36524 ∧ (1461 * f + 365 * j + r = 36524 → c = 3) := by
    by_cases h365 : r = 365
    · have := hl h365
      by_cases h24 : f = 24
      · have := this.2 h24
        omega
      · omega
    · omega
  have b2 : 1461 * f1 + 365 * j1 + r1 ≤ 36524 ∧
      (1461 * f1 + 365 * j1 + r1 = 36524 → c1 = 3) := by
    by_cases h365 : r1 = 365
    · have := hl1 h365
      by_cases h24 : f1 = 24
      · have := this.2 h24
        omega
      · omega
    · omega
  have hee : e = e1 := by omega
  subst hee
  have hcc : c = c1 := by omega
  subst hcc
  have hff : f = f1 := by omega
  subst hff
  have hjj : j = j1 := by
    by_cases h365 : r = 365
    · have := (hl h365).1
      omega
    · by_cases h365b : r1 = 365
      · have := (hl1 h365b).1
        omega
      · omega
  subst hjj
  refine ⟨rfl, rfl, rfl, rfl, by omega⟩

theorem daysIn_le (month year : Int) (hm : 1 ≤ month ∧ month ≤ 12) :
    daysIn month year ≤ 31 := by
  unfold daysIn
  obtain ⟨h1, h2⟩ := hm
  split
  · omega
  · interval_cases month <;> simp [daysBefore]

/-- The date that `Date` puts together in UTC at midnight is read back by
`absDate`, with the clock at zero. -/
theorem Date_UTC_midnight (year month day : Int)
    (hy : 0 ≤ year ∧ year ≤ 9999) (hm : 1 ≤ month ∧ month ≤ 12)
    (hd : 1 ≤ day ∧ day ≤ daysIn month year) :
    Date year month day 0 0 0 0 UTC % 86400000000000 = 0 ∧
    absDate (abs UTC (Date year month day 0 0 0 0 UTC)) = (year, month, day) ∧
    absClock (abs UTC (Date year month day 0 0 0 0 UTC)) = (0, 0, 0) := by
  have hU : unixToAbsolute = 9223372028715321600 := by decide
  obtain ⟨e, c, f, j, he, hc, hf, hj, hyr⟩ := year_split year (by omega)
  have hdse := daysSinceEpoch_spec e c f j he hc hf hj
  have hl := isLeap_spec e c f j hc hf hj
  rw [← hyr] at hdse hl
  have hd31 := daysIn_le month year hm
  -- the month and the day as indices
  have hmn : (month - 1).toNat < 12 := by omega
  have hdn : (day - 1).toNat < 31 := by omega
  have hmv : (((⟨(month - 1).toNat, hmn⟩ : Fin 12).val : Int)) + 1 = month := by
    simp only
    omega
  have hdv : (((⟨(day - 1).toNat, hdn⟩ : Fin 31).val : Int)) + 1 = day := by
    simp only
    omega
  have hfin := ymd_fin (isLeap year) ⟨(month - 1).toNat, hmn⟩ ⟨(day - 1).toNat, hdn⟩
  rw [hmv, hdv] at hfin
  have hfin2 := hfin (by
    have := hd.2
    unfold daysIn at this
    exact this)
  obtain ⟨hyd, hmd⟩ := hfin2
  obtain ⟨r, hr⟩ : ∃ r : Int, r = daysBefore (month - 1) +
      (if isLeap year = true ∧ month ≥ 3 then 1 else 0) + (day - 1) := ⟨_, rfl⟩
  rw [← hr] at hyd hmd
  have hB := daysBefore_bounds (month - 1)
  have hr0 : 0 ≤ r := by
    rw [hr]
    split <;> omega
  have hr365 : r ≤ 365 ∧ (r = 365 → j = 3 ∧ (f = 24 → c = 3)) := by
    by_cases hleap : isLeap year = true
    · rw [if_pos hleap] at hyd
      exact ⟨by omega, fun _ => hl.1 hleap⟩
    · rw [if_neg hleap] at hyd
      exact ⟨by omega, fun h => by omega⟩
  obtain ⟨N, hN⟩ : ∃ N : Int, N = daysSinceEpoch year + r := ⟨_, rfl⟩
  have hT : N * 86400 - unixToAbsolute = (daysSinceEpoch year + daysBefore (month - 1) +
        (if isLeap year = true ∧ month ≥ 3 then 1 else 0) + (day - 1)) * 86400 +
        (0 * 3600 + 0 * 60 + 0) - unixToAbsolute - 0 := by
    rw [hN, hr]
    ring
  have hNb : 106000000000000 ≤ N ∧ N ≤ 107000000000000 := by
    unfold absoluteZeroYear at hyr
    omega
  have hdate := Date_zone UTC year month day 0 0 0 0 0 (N * 86400 - unixToAbsolute) hm
    (by decide) (by decide) (by decide) (by decide) (by omega) (by decide)
    (by
      unfold absoluteZeroYear at hyr
      omega) hT (by omega)
    (fun s h1 h2 => UTC_lookup s (by omega) (by omega))
  have hK : Date year month day 0 0 0 0 UTC =
      (N - 106751991073094) * 86400000000000 := by
    rw [hdate, hU]
    ring
  have hunix : Unix (Date year month day 0 0 0 0 UTC) = N * 86400 - unixToAbsolute := by
    rw [hdate]
    unfold Unix
    rw [add_zero]
    exact Int.mul_ediv_cancel _ (by decide)
  have habs : abs UTC (Date year month day 0 0 0 0 UTC) = N * 86400 := by
    rw [abs_eq UTC _ 0 (by rw [hunix]; omega) (by decide) rfl, hunix]
    ring
  refine ⟨?_, ?_, ?_⟩
  · rw [hK]
    exact Int.mul_emod_left _ _
  · rw [habs]
    unfold absDate
    simp only
    rw [Int.mul_ediv_cancel _ (by decide : (86400 : Int) ≠ 0)]
    obtain ⟨e1, c1, f1, j1, r1, he1, hc1, hf1, hj1, hr1, hl1, hay, hdec⟩ :=
      absYear_spec N (by omega)
    have huniq := absYear_unique e c f j r e1 c1 f1 j1 r1 hc hf hj ⟨hr0, hr365.1⟩
      hr365.2 he1 hc1 hf1 hj1 hr1 hl1 (by omega)
    obtain ⟨h1, h2, h3, h4, h5⟩ := huniq
    subst h1 h2 h3 h4 h5
    rw [hay]
    simp only
    have hyear : int64 (int64 (400 * e + 100 * c + 4 * f + j) + absoluteZeroYear) = year := by
      rw [hyr]
      unfold int64 absoluteZeroYear
      omega
    rw [hyear, hmd]
  · rw [habs]
    unfold absClock
    simp [Int.mul_emod_left]

theorem Parse_error (s : String) (e : Error) (h : Parse s = .error e) :
    e = .ParseError "2006-01-02" s := by
  unfold Parse at h
  simp only at h
  repeat' split at h
  all_goals first
    | exact (Except.error.inj h).symm
    | cases h

theorem getnum_eq_some (v : List Char) (n : Int) (rest : List Char)
    (h : getnum v = some (n, rest)) :
    ∃ a b : Char, v = a :: b :: rest ∧ isDigit a = true ∧ isDigit b = true ∧
      n = digitValue a * 10 + digitValue b := by
  rcases v with _ | ⟨a, _ | ⟨b, r⟩⟩
  · simp [getnum] at h
  · simp [getnum] at h
  · simp only [getnum] at h
    by_cases hd : (isDigit a && isDigit b) = true
    · rw [if_pos hd] at h
      simp only [Option.some.injEq, Prod.mk.injEq] at h
      simp only [Bool.and_eq_true] at hd
      exact ⟨a, b, by rw [h.2], hd.1, hd.2, h.1.symm⟩
    · rw [if_neg hd] at h
      cases h

theorem Parse_ok (s : String) (t : Time) (h : Parse s = .ok t) :
    ∃ y0 y1 y2 y3 m0 m1 d0 d1 : Char,
      s = String.mk [y0, y1, y2, y3, '-', m0, m1, '-', d0, d1] ∧
      (isDigit y0 = true ∧ isDigit y1 = true ∧ isDigit y2 = true ∧ isDigit y3 = true ∧
        isDigit m0 = true ∧ isDigit m1 = true ∧ isDigit d0 = true ∧ isDigit d1 = true) ∧
      (1 ≤ digitValue m0 * 10 + digitValue m1 ∧ digitValue m0 * 10 + digitValue m1 ≤ 12) ∧
      (1 ≤ digitValue d0 * 10 + digitValue d1 ∧
        digitValue d0 * 10 + digitValue d1 ≤ daysIn (digitValue m0 * 10 + digitValue m1)
          (((digitValue y0 * 10 + digitValue y1) * 10 + digitValue y2) * 10 + digitValue y3)) ∧
      t = Date (((digitValue y0 * 10 + digitValue y1) * 10 + digitValue y2) * 10 + digitValue y3)
        (digitValue m0 * 10 + digitValue m1) (digitValue d0 * 10 + digitValue d1) 0 0 0 0 UTC := by
  obtain ⟨l⟩ := s
  rcases l with _ | ⟨y0, _ | ⟨y1, _ | ⟨y2, _ | ⟨y3, v1⟩⟩⟩⟩
  · simp [Parse] at h
  · simp [Parse] at h
  · simp [Parse] at h
  · simp [Parse] at h
  simp only [Parse] at h
  by_cases hy : (isDigit y0 && isDigit y1 && isDigit y2 && isDigit y3) = true
  swap
  · rw [if_neg hy] at h
    cases h
  rw [if_pos hy] at h
  rcases v1 with _ | ⟨c1, v2⟩
  · cases h
  simp only at h
  by_cases hc1 : c1 = '-'
  swap
  · rw [if_neg hc1] at h
    cases h
  rw [if_pos hc1] at h
  rcases hg : getnum v2 with _ | ⟨month, v3⟩
  · rw [hg] at h
    cases h
  rw [hg] at h
  simp only at h
  by_cases hmr : month ≤ 0 ∨ 12 < month
  · rw [if_pos hmr] at h
    cases h
  rw [if_neg hmr] at h
  rcases v3 with _ | ⟨c2, v4⟩
  · cases h
  simp only at h
  by_cases hc2 : c2 = '-'
  swap
  · rw [if_neg hc2] at h
    cases h
  rw [if_pos hc2] at h
  rcases hg2 : getnum v4 with _ | ⟨day, rest⟩
  · rw [hg2] at h
    cases h
  rw [hg2] at h
  rcases rest with _ | ⟨x, rest⟩
  swap
  · cases h
  simp only at h
  by_cases hdr : day < 1 ∨ day > daysIn month
      (((digitValue y0 * 10 + digitValue y1) * 10 + digitValue y2) * 10 + digitValue y3)
  · rw [if_pos hdr] at h
    cases h
  rw [if_neg hdr] at h
  obtain ⟨m0, m1, hv2, hm0, hm1, hmonth⟩ := getnum_eq_some v2 month _ hg
  obtain ⟨d0, d1, hv4, hd0, hd1, hday⟩ := getnum_eq_some v4 day _ hg2
  simp only [Bool.and_eq_true] at hy
  subst hv2 hv4 hc1 hc2 hmonth hday
  refine ⟨y0, y1, y2, y3, m0, m1, d0, d1, rfl,
    ⟨hy.1.1.1, hy.1.1.2, hy.1.2, hy.2, hm0, hm1, hd0, hd1⟩, by omega, by omega,
    (Except.ok.inj h).symm⟩

theorem digitValue_range (c : Char) (h : isDigit c = true) :
    0 ≤ digitValue c ∧ digitValue c ≤ 9 := by
  unfold isDigit at h
  unfold digitValue
  simp only [Bool.and_eq_true, decide_eq_true_eq] at h
  omega

/-- A value that `time.Parse("2006-01-02", .)` accepts is the text of a date
that exists, year, month and day in digits, and the time returned is
midnight in UTC of that date. -/
theorem Parse_midnight (s : String) (t : Time) (h : Parse s = .ok t) :
    ∃ y0 y1 y2 y3 m0 m1 d0 d1 : Char,
      s = String.mk [y0, y1, y2, y3, '-', m0, m1, '-', d0, d1] ∧
      (isDigit y0 = true ∧ isDigit y1 = true ∧ isDigit y2 = true ∧ isDigit y3 = true ∧
        isDigit m0 = true ∧ isDigit m1 = true ∧ isDigit d0 = true ∧ isDigit d1 = true) ∧
      t = Date (((digitValue y0 * 10 + digitValue y1) * 10 + digitValue y2) * 10 + digitValue y3)
        (digitValue m0 * 10 + digitValue m1) (digitValue d0 * 10 + digitValue d1) 0 0 0 0 UTC ∧
      absDate (abs UTC t) =
        (((digitValue y0 * 10 + digitValue y1) * 10 + digitValue y2) * 10 + digitValue y3,
          digitValue m0 * 10 + digitValue m1, digitValue d0 * 10 + digitValue d1) ∧
      absClock (abs UTC t) = (0, 0, 0) ∧
      t % 86400000000000 = 0 := by
  obtain ⟨y0, y1, y2, y3, m0, m1, d0, d1, hs, hdig, hm, hd, ht⟩ := Parse_ok s t h
  have r0 := digitValue_range y0 hdig.1
  have r1 := digitValue_range y1 hdig.2.1
  have r2 := digitValue_range y2 hdig.2.2.1
  have r3 := digitValue_range y3 hdig.2.2.2.1
  obtain ⟨h1, h2, h3⟩ := Date_UTC_midnight
    (((digitValue y0 * 10 + digitValue y1) * 10 + digitValue y2) * 10 + digitValue y3)
    (digitValue m0 * 10 + digitValue m1) (digitValue d0 * 10 + digitValue d1)
    (by omega) hm hd
  rw [← ht] at h1 h2 h3
  exact ⟨y0, y1, y2, y3, m0, m1, d0, d1, hs, hdig, ht, h2, h3, h1⟩

/-! ## Partial updates -/

/-- C24 (counterexample): the update map that the JSON body
`\x7b"firstName": 5\x7d` decodes to, on a stored user. The key `firstName` is
present but its value is a `float64`, so the assertion `firstName.(string)`
panics: `SavePartial` does not return, the field is not changed and nothing
is saved; the handler of `PUT /user` writes no response. -/
theorem C24_counterexample :
    (mike sampleId "5e884898").SavePartial sampleEnv "2018-11-02 10:00:00 +0000 UTC" freshId
        [mike sampleId "5e884898"] sampleUpdateNumber = none ∧
    (sampleUpdateNumber "firstName").isSome = true ∧
    updateUserHandler sampleEnv "2018-11-02 10:00:00 +0000 UTC" freshId MONGO_USERS_DATA
        "5b3bcd72463cd6029e04de18" (.ok sampleUpdateNumber) =
      ⟨[], MONGO_USERS_DATA, [], true⟩ := by
  refine ⟨by decide, by decide, by decide⟩

/-- C24 (amended): for a user with a valid ID and an update map in which
every value present under `firstName`, `lastName`, `email`, `password` and
`notification` is a string and the value present under `categories` is a
list of strings, `SavePartial` returns and leaves the user with `firstName`,
`lastName` and `email` copied from the map when present, `categories`
replaced by the list given when present, `Password` replaced by
`hashPass(password)` when a non-empty password is present (kept when the
password is absent or empty), `Notification` replaced by the time that
`time.Parse("2006-01-02", .)` returns when a notification is present, and
every other field, and every field whose key is absent, as it was. When it
returns no error the record of that ID in the collection is this user; when
it returns an error the collection is as it was. A notification that does
not parse makes the call return the parse error with the collection as it
was. A notification that parses is the text of a date, four digits of year,
two of month and two of day, and the time stored is midnight in UTC of that
date: `time.Date(year, month, day, 0, 0, 0, 0, time.UTC)`, whose date in UTC
is that year, month and day and whose clock is 00:00:00. -/
theorem C24_SavePartial_frame (env : Env) (clock : String) (fresh : ObjectId)
    (db : Collection) (u : User) (update : bson.M) (hid : u.ID.Valid = true)
    (hstr : ∀ key ∈ ["firstName", "lastName", "email", "password", "notification"],
      ∀ v, update key = some v → ∃ s, v = Value.string s)
    (hcat : ∀ v, update "categories" = some v →
      ∃ xs : List String, v = Value.slice (xs.map Value.string)) :
    ∃ o, u.SavePartial env clock fresh db update = some o ∧
      (∀ (s : String) (e : Error), update "notification" = some (.string s) →
        Parse s = .error e → o.err = some e ∧ o.db = db) ∧
      (∀ t : Time,
        (update "notification" = none ∧ t = u.Notification) ∨
          (∃ s, update "notification" = some (.string s) ∧ Parse s = .ok t) →
        o.u =
          { u with
            FirstName := (update.str "firstName").getD u.FirstName,
            LastName := (update.str "lastName").getD u.LastName,
            Email := (update.str "email").getD u.Email,
            Password := (match update.str "password" with
              | some pw => if pw = "" then u.Password else u.hashPass env pw
              | none => u.Password),
            Categories := (update.strs "categories").getD u.Categories,
            Notification := t } ∧
        (o.err = none →
          o.db = db.Upsert u.ID o.u ∧ o.db.find? (fun d => d.ID == u.ID) = some o.u) ∧
        (o.err ≠ none → o.db = db)) ∧
      (∀ (s : String) (t : Time), update "notification" = some (.string s) →
        Parse s = .ok t →
        ∃ y0 y1 y2 y3 m0 m1 d0 d1 : Char,
          s = String.mk [y0, y1, y2, y3, '-', m0, m1, '-', d0, d1] ∧
          (isDigit y0 = true ∧ isDigit y1 = true ∧ isDigit y2 = true ∧ isDigit y3 = true ∧
            isDigit m0 = true ∧ isDigit m1 = true ∧ isDigit d0 = true ∧ isDigit d1 = true) ∧
          t = Date
            (((digitValue y0 * 10 + digitValue y1) * 10 + digitValue y2) * 10 + digitValue y3)
            (digitValue m0 * 10 + digitValue m1) (digitValue d0 * 10 + digitValue d1)
            0 0 0 0 UTC ∧
          absDate (abs UTC t) =
            (((digitValue y0 * 10 + digitValue y1) * 10 + digitValue y2) * 10 + digitValue y3,
              digitValue m0 * 10 + digitValue m1, digitValue d0 * 10 + digitValue d1) ∧
          absClock (abs UTC t) = (0, 0, 0) ∧
          t % 86400000000000 = 0) := by
  have hsave : ∀ v : User, v.ID = u.ID →
      (v.Save env clock fresh db).u = v ∧
      ((v.Save env clock fresh db).err = none →
        (v.Save env clock fresh db).db = db.Upsert u.ID (v.Save env clock fresh db).u ∧
        (v.Save env clock fresh db).db.find? (fun d => d.ID == u.ID) =
          some (v.Save env clock fresh db).u) ∧
      ((v.Save env clock fresh db).err ≠ none → (v.Save env clock fresh db).db = db) := by
    intro v hv
    have hvid : v.ID.Valid = true := by rw [hv]; exact hid
    refine ⟨Save_fixes_valid env clock fresh db v hvid, ?_, ?_⟩
    · intro he
      rw [Save_valid_ok env clock fresh db v hvid he, hv]
      refine ⟨rfl, ?_⟩
      have := find?_Upsert_self db v
      rw [hv] at this
      exact this
    · intro he
      exact (Save_error_unchanged env clock fresh db v he).2
  obtain ⟨o, ho⟩ := SavePartial_typed env clock fresh db u update hstr hcat
  obtain ⟨w, hw, hcase⟩ := SavePartial_some env clock fresh db u update o ho
  have hweq := applyUpdate_some env u w update hw
  have hwid : w.ID = u.ID := applyUpdate_ID env u w update hw
  refine ⟨o, ho, ?_, ?_, ?_⟩
  · intro s e hs he
    rcases hcase with ⟨hn, _⟩ | ⟨s1, hs1, ⟨e1, he1, rfl⟩ | ⟨t1, ht1, _⟩⟩
    · rw [hn] at hs
      cases hs
    · rw [hs1] at hs
      have hss : s1 = s := by simpa using hs
      rw [hss, he] at he1
      exact ⟨by rw [Except.error.inj he1], rfl⟩
    · rw [hs1] at hs
      have hss : s1 = s := by simpa using hs
      rw [hss, he] at ht1
      cases ht1
  · intro t ht
    rcases hcase with ⟨hn, rfl⟩ | ⟨s1, hs1, ⟨e1, he1, rfl⟩ | ⟨t1, ht1, rfl⟩⟩
    · have ht2 : t = u.Notification := by
        rcases ht with ⟨_, h⟩ | ⟨s, hs, _⟩
        · exact h
        · rw [hn] at hs
          cases hs
      obtain ⟨h1, h2, h3⟩ := hsave w hwid
      refine ⟨?_, h2, h3⟩
      rw [h1, hweq, ht2]
    · exfalso
      rcases ht with ⟨hn, _⟩ | ⟨s, hs, hp⟩
      · rw [hn] at hs1
        cases hs1
      · rw [hs1] at hs
        have hss : s1 = s := by simpa using hs
        rw [hss, hp] at he1
        cases he1
    · have ht2 : t1 = t := by
        rcases ht with ⟨hn, _⟩ | ⟨s, hs, hp⟩
        · rw [hn] at hs1
          cases hs1
        · rw [hs1] at hs
          have hss : s1 = s := by simpa using hs
          rw [hss, hp] at ht1
          exact (Except.ok.inj ht1).symm
      obtain ⟨h1, h2, h3⟩ := hsave { w with Notification := t1 } hwid
      refine ⟨?_, h2, h3⟩
      rw [h1, hweq, ht2]
  · intro s t _ hp
    exact Parse_midnight s t hp

/-- C24 (witness): the update of testUserSavePartial, the last name, the
categories and the notification date 2018-11-02, on a stored user; the time
stored is 2018-11-02T00:00:00Z. -/
theorem C24_SavePartial_frame_witness :
    ∃ o, (mike sampleId "5e884898").SavePartial sampleEnv "2018-11-02 10:00:00 +0000 UTC"
        freshId [mike sampleId "5e884898"] sampleUpdate = some o ∧
      o.u = { mike sampleId "5e884898" with
        LastName := "SavedPartially", Categories := ["one", "two"],
        Notification := 1541116800000000000 } ∧
      absDate (abs UTC o.u.Notification) = (2018, 11, 2) := by
  obtain ⟨o, ho, _, h2, _⟩ := C24_SavePartial_frame sampleEnv "2018-11-02 10:00:00 +0000 UTC"
    freshId [mike sampleId "5e884898"] (mike sampleId "5e884898") sampleUpdate (by decide)
    (by
      intro key hk v hv
      simp only [List.mem_cons, List.mem_singleton, List.not_mem_nil, or_false] at hk
      rcases hk with rfl | rfl | rfl | rfl | rfl <;> simp [sampleUpdate] at hv <;>
        exact ⟨_, hv.symm⟩)
    (by
      intro v hv
      simp [sampleUpdate] at hv
      exact ⟨["one", "two"], hv.symm⟩)
  have h := (h2 1541116800000000000 (Or.inr ⟨"2018-11-02", rfl, rfl⟩)).1
  refine ⟨o, ho, ?_, ?_⟩
  · rw [h]
    decide
  · rw [h]
    decide

/-! ## The handlers -/

theorem authHandler_failure (env : Env) (lib : TokenLib) (now : Time)
    (issuer signingKey : String) (hoursTTL : Int) (db : Collection) (c : Credentials)
    (h : (Datastore.UserAuth env db c.Email c.Password).2 ≠ none) :
    authHandler env lib now issuer signingKey hoursTTL db (.ok c) =
      ⟨[respondJSON 401 .null (some (.New "could not authorize user"))], db, [], false⟩ := by
  unfold authHandler
  rcases hr : Datastore.UserAuth env db c.Email c.Password with ⟨u, _ | e⟩
  · rw [hr] at h
    exact absurd rfl h
  · simp only [hr]

/-- C25: for two decoded requests to `/auth` for which `UserAuth` returns an
error, whatever the error (an email that no record has, or a password whose
hash is not the stored one), `authHandler` writes the same single response,
status 401 with the error "could not authorize user", writes no token and
leaves the collection as it was. -/
theorem C25_auth_failure_uniform (env : Env) (lib : TokenLib) (now : Time)
    (issuer signingKey : String) (hoursTTL : Int) (db : Collection) (c1 c2 : Credentials)
    (h1 : (Datastore.UserAuth env db c1.Email c1.Password).2 ≠ none)
    (h2 : (Datastore.UserAuth env db c2.Email c2.Password).2 ≠ none) :
    authHandler env lib now issuer signingKey hoursTTL db (.ok c1) =
      authHandler env lib now issuer signingKey hoursTTL db (.ok c2) ∧
    (authHandler env lib now issuer signingKey hoursTTL db (.ok c1)).writes =
      [⟨401, .error (.New "could not authorize user")⟩] ∧
    (∀ r ∈ (authHandler env lib now issuer signingKey hoursTTL db (.ok c1)).writes,
      ∀ token userId : String, r.body ≠ .json (.auth token userId)) ∧
    (authHandler env lib now issuer signingKey hoursTTL db (.ok c1)).db = db := by
  rw [authHandler_failure env lib now issuer signingKey hoursTTL db c1 h1,
    authHandler_failure env lib now issuer signingKey hoursTTL db c2 h2]
  refine ⟨rfl, rfl, ?_, rfl⟩
  intro r hr token userId
  rw [List.mem_singleton.1 hr]
  intro hb
  exact Body.noConfusion hb

/-- C25 (witness): on a store with the one user mike@rtcl.io, the request of an
unknown email (`UserAuth` fails with not found) and the request of the known
email with a wrong password get the same response. -/
theorem C25_auth_failure_uniform_witness :
    (Datastore.UserAuth sampleEnv [mike sampleId "5e884898"] "nobody@rtcl.io" "abc").1 = none ∧
    (Datastore.UserAuth sampleEnv [mike sampleId "5e884898"] "mike@rtcl.io" "wrong").1 =
      some (mike sampleId "5e884898") ∧
    authHandler sampleEnv sampleLib 1541152800000000000 "TestTokenIssuer" "testTokenSigningKey"
        4 [mike sampleId "5e884898"] (.ok ⟨"nobody@rtcl.io", "abc"⟩) =
      authHandler sampleEnv sampleLib 1541152800000000000 "TestTokenIssuer"
        "testTokenSigningKey" 4 [mike sampleId "5e884898"] (.ok ⟨"mike@rtcl.io", "wrong"⟩) :=
  ⟨by decide, by decide,
    (C25_auth_failure_uniform sampleEnv sampleLib 1541152800000000000 "TestTokenIssuer"
      "testTokenSigningKey" 4 [mike sampleId "5e884898"] ⟨"nobody@rtcl.io", "abc"⟩
      ⟨"mike@rtcl.io", "wrong"⟩ (by decide) (by decide)).1⟩

theorem userConfirmationHandler_found (env : Env) (now1 now2 : Time) (clock : String)
    (fresh : ObjectId) (db : Collection) (id key : String) (u : User)
    (hfound : Datastore.UserByID db id = (some u, none)) :
    userConfirmationHandler env now1 now2 clock fresh db id key =
      if key != u.KeyGen env now1 now2 then
        ⟨[respondJSON 400 .null (some (.New "invalid key"))], db, [], false⟩
      else
        ⟨(match ({ u with Locked := false }.Save env clock fresh db).err with
            | some err => [respondJSON 500 .null (some err)]
            | none => []) ++
          [respondJSON 200
            (.user { ({ u with Locked := false }.Save env clock fresh db).u with
              Password := PasswordMask }) none],
          ({ u with Locked := false }.Save env clock fresh db).db, [], false⟩ := by
  unfold userConfirmationHandler
  simp only [hfound]

/-- C21: for a stored user found by the id of the request (its checked fields
not empty, its email held by no record of another id) and every key string:
when the key equals `u.KeyGen()` computed by the handler, the handler saves
the user with `Locked = false`, every other field as stored, and answers 200
with that user, so that the record fetched again has `Locked = false`; for
any other key it answers 400 "invalid key" and leaves the collection as it
was. So a locked user is unlocked by the call exactly when the key is the
recomputed one. -/
theorem C21_confirmation (env : Env) (now1 now2 : Time) (clock : String) (fresh : ObjectId)
    (db : Collection) (id key : String) (u : User)
    (hfound : Datastore.UserByID db id = (some u, none))
    (hfields : u.checkFields = none)
    (hemail : ∀ d ∈ db, d.Email = u.Email → d.ID = u.ID) :
    (key = u.KeyGen env now1 now2 →
      userConfirmationHandler env now1 now2 clock fresh db id key =
        ⟨[respondJSON 200 (.user { u with Locked := false, Password := PasswordMask }) none],
          db.Upsert u.ID { u with Locked := false }, [], false⟩ ∧
      Datastore.UserByID (userConfirmationHandler env now1 now2 clock fresh db id key).db id =
        (some { u with Locked := false }, none)) ∧
    (key ≠ u.KeyGen env now1 now2 →
      userConfirmationHandler env now1 now2 clock fresh db id key =
        ⟨[respondJSON 400 .null (some (.New "invalid key"))], db, [], false⟩) ∧
    (u.Locked = true →
      ((∃ v, Datastore.UserByID (userConfirmationHandler env now1 now2 clock fresh db id key).db
          id = (some v, none) ∧ v.Locked = false) ↔
        key = u.KeyGen env now1 now2)) := by
  obtain ⟨hhex, _, _, huid, hvalid⟩ := UserByID_found db id u hfound
  have hrun := userConfirmationHandler_found env now1 now2 clock fresh db id key u hfound
  have hsave : { u with Locked := false }.Save env clock fresh db =
      ⟨none, { u with Locked := false }, db.Upsert u.ID { u with Locked := false }⟩ :=
    Save_valid_succeeds env clock fresh db { u with Locked := false } hvalid hfields hemail
  have hyes : key = u.KeyGen env now1 now2 →
      userConfirmationHandler env now1 now2 clock fresh db id key =
        ⟨[respondJSON 200 (.user { u with Locked := false, Password := PasswordMask }) none],
          db.Upsert u.ID { u with Locked := false }, [], false⟩ := by
    intro hk
    rw [hrun, hsave, hk]
    simp
  have hno : key ≠ u.KeyGen env now1 now2 →
      userConfirmationHandler env now1 now2 clock fresh db id key =
        ⟨[respondJSON 400 .null (some (.New "invalid key"))], db, [], false⟩ := by
    intro hk
    rw [hrun, if_pos (by simpa using hk)]
  have hfetch : Datastore.UserByID (db.Upsert u.ID { u with Locked := false }) id =
      (some { u with Locked := false }, none) := by
    apply UserByID_of_find _ _ _ hhex
    rw [← huid]
    exact find?_Upsert_self db { u with Locked := false }
  refine ⟨fun hk => ⟨hyes hk, ?_⟩, hno, ?_⟩
  · rw [hyes hk]
    exact hfetch
  · intro hlocked
    constructor
    · rintro ⟨v, hv, hvl⟩
      by_contra hk
      rw [hno hk] at hv
      have hvu : v = u := by
        rw [hfound] at hv
        simp only [Prod.mk.injEq, Option.some.injEq, and_true] at hv
        exact hv.symm
      rw [hvu, hlocked] at hvl
      exact Bool.noConfusion hvl
    · intro hk
      refine ⟨{ u with Locked := false }, ?_, rfl⟩
      rw [hyes hk]
      exact hfetch

/-- C21 (witness): the locked user of id 070707070707070707070707 is unlocked
with the key of the day and stays locked with the key "wrong". -/
theorem C21_confirmation_witness :
    (userConfirmationHandler sampleEnv 1541152800000000000 1541152800000000000
        "2018-11-02 10:00:00 +0000 UTC" freshId [sampleUser sampleId []]
        "070707070707070707070707"
        ((sampleUser sampleId []).KeyGen sampleEnv 1541152800000000000
          1541152800000000000)).db =
      [{ sampleUser sampleId [] with Locked := false }] ∧
    userConfirmationHandler sampleEnv 1541152800000000000 1541152800000000000
        "2018-11-02 10:00:00 +0000 UTC" freshId [sampleUser sampleId []]
        "070707070707070707070707" "wrong" =
      ⟨[⟨400, .error (.New "invalid key")⟩], [sampleUser sampleId []], [], false⟩ := by
  have h := C21_confirmation sampleEnv 1541152800000000000 1541152800000000000
    "2018-11-02 10:00:00 +0000 UTC" freshId [sampleUser sampleId []]
    "070707070707070707070707"
  refine ⟨?_, (h "wrong" (sampleUser sampleId []) (by decide) (by decide) (by decide)).2.1
    (by decide)⟩
  rw [((h _ (sampleUser sampleId []) (by decide) (by decide) (by decide)).1 rfl).1]
  decide

theorem UserByID_not_found (db : Collection) (id : String) (hid : IsObjectIdHex id = true)
    (h : ∀ d ∈ db, d.ID ≠ ObjectIdHex id) :
    Datastore.UserByID db id = (none, some .ErrNotFound) := by
  have hf : db.find? (fun d => d.ID == ObjectIdHex id) = none := by
    rw [List.find?_eq_none]
    intro d hd
    simpa using h d hd
  simp [Datastore.UserByID, hid, Collection.One, hf]

/-- For every well-formed object id that no stored user has, `userByIDHandler`
writes the 404 response and then dereferences the nil user. -/
theorem userByIDHandler_not_found (db : Collection) (id : String)
    (hid : IsObjectIdHex id = true) (h : ∀ d ∈ db, d.ID ≠ ObjectIdHex id) :
    userByIDHandler db id =
      ⟨[⟨404, .error (.New "user not found")⟩], db, [], true⟩ := by
  unfold userByIDHandler
  rw [UserByID_not_found db id hid h]
  simp [hid, respondNotFoundOrBadRequest, respondJSON]

/-- C30 (the code at the failing input): on the test data, for the well-formed
id 5b3bcd72463cd6029e04de99 that no user has, `userByIDHandler` writes the
404 "user not found" response and then, not having returned, dereferences the
nil user and panics; `userByTokenHandler` does the same after its 500
response, and `userNotificationHandler` after its 404 response when the
notification is `welcome` or `reset`. -/
theorem C30_handlers_dereference_nil :
    userByIDHandler MONGO_USERS_DATA "5b3bcd72463cd6029e04de99" =
      ⟨[⟨404, .error (.New "user not found")⟩], MONGO_USERS_DATA, [], true⟩ ∧
    userByTokenHandler MONGO_USERS_DATA "5b3bcd72463cd6029e04de99" =
      ⟨[⟨500, .error .ErrNotFound⟩], MONGO_USERS_DATA, [], true⟩ ∧
    userNotificationHandler MONGO_USERS_DATA "5b3bcd72463cd6029e04de99" "welcome" =
      ⟨[⟨404, .error (.New "user not found")⟩], MONGO_USERS_DATA, [], true⟩ ∧
    userNotificationHandler MONGO_USERS_DATA "5b3bcd72463cd6029e04de99" "reset" =
      ⟨[⟨404, .error (.New "user not found")⟩], MONGO_USERS_DATA, [], true⟩ ∧
    (updateUserHandler sampleEnv "2018-11-02 10:00:00 +0000 UTC" freshId MONGO_USERS_DATA
        "5b3bcd72463cd6029e04de99" (.ok emptyUpdate)).panicked =
      false := by
  refine ⟨by decide, by decide, by decide, by decide, by decide⟩

/-! ## Users that differ only in the password -/

theorem find?_masked (db1 db2 : Collection) (p : User → Bool)
    (h : db1.masked = db2.masked) (hp : ∀ d : User, p d.masked = p d) :
    (db1.find? p).map User.masked = (db2.find? p).map User.masked := by
  have hc : p ∘ User.masked = p := funext hp
  have key : ∀ db : Collection, (db.find? p).map User.masked = db.masked.find? p := by
    intro db
    unfold Collection.masked
    rw [List.find?_map, hc]
  rw [key db1, key db2, h]

theorem any_masked (db1 db2 : Collection) (p : User → Bool)
    (h : db1.masked = db2.masked) (hp : ∀ d : User, p d.masked = p d) :
    db1.any p = db2.any p := by
  have hc : p ∘ User.masked = p := funext hp
  have key : ∀ db : Collection, db.any p = db.masked.any p := by
    intro db
    unfold Collection.masked
    rw [List.any_map, hc]
  rw [key db1, key db2, h]

theorem masked_fields (u1 u2 : User) (h : u1.masked = u2.masked) :
    u1.ID = u2.ID ∧ u1.FirstName = u2.FirstName ∧ u1.LastName = u2.LastName ∧
    u1.Email = u2.Email ∧ u1.Locked = u2.Locked ∧ u1.Categories = u2.Categories ∧
    u1.Searches = u2.Searches ∧ u1.Notification = u2.Notification :=
  ⟨show u1.masked.ID = u2.masked.ID from congrArg User.ID h, show u1.masked.FirstName = u2.masked.FirstName from congrArg User.FirstName h, show u1.masked.LastName = u2.masked.LastName from congrArg User.LastName h,
    show u1.masked.Email = u2.masked.Email from congrArg User.Email h, show u1.masked.Locked = u2.masked.Locked from congrArg User.Locked h, show u1.masked.Categories = u2.masked.Categories from congrArg User.Categories h,
    show u1.masked.Searches = u2.masked.Searches from congrArg User.Searches h, show u1.masked.Notification = u2.masked.Notification from congrArg User.Notification h⟩

theorem masked_eq_iff (u1 u2 : User) :
    u1.masked = u2.masked ↔
      u1.ID = u2.ID ∧ u1.FirstName = u2.FirstName ∧ u1.LastName = u2.LastName ∧
      u1.Email = u2.Email ∧ u1.Locked = u2.Locked ∧ u1.Categories = u2.Categories ∧
      u1.Searches = u2.Searches ∧ u1.Notification = u2.Notification := by
  constructor
  · exact masked_fields u1 u2
  · rintro ⟨h1, h2, h3, h4, h5, h6, h7, h8⟩
    unfold User.masked
    rw [h1, h2, h3, h4, h5, h6, h7, h8]

theorem UserByID_masked (db1 db2 : Collection) (id : String) (h : db1.masked = db2.masked) :
    (Datastore.UserByID db1 id).2 = (Datastore.UserByID db2 id).2 ∧
    (Datastore.UserByID db1 id).1.map User.masked =
      (Datastore.UserByID db2 id).1.map User.masked := by
  have hf := find?_masked db1 db2 (fun d => d.ID == ObjectIdHex id) h (fun _ => rfl)
  unfold Datastore.UserByID Collection.One
  cases IsObjectIdHex id
  · exact ⟨rfl, rfl⟩
  · cases h1 : db1.find? (fun d => d.ID == ObjectIdHex id) <;>
      cases h2 : db2.find? (fun d => d.ID == ObjectIdHex id) <;>
      simp [h1, h2] at hf ⊢
    exact hf

theorem Save_masked (env : Env) (clock : String) (fresh : ObjectId) (db1 db2 : Collection)
    (u1 u2 : User) (hu : u1.masked = u2.masked) (hdb : db1.masked = db2.masked) :
    (u1.Save env clock fresh db1).err = (u2.Save env clock fresh db2).err ∧
    (u1.Save env clock fresh db1).u.masked = (u2.Save env clock fresh db2).u.masked := by
  obtain ⟨hid, hfn, hln, hem, hlk, hcat, hse, hno⟩ := masked_fields u1 u2 hu
  have hcf : u1.checkFields = u2.checkFields := by
    unfold User.checkFields
    rw [hfn, hln, hem]
  have hf := find?_masked db1 db2 (fun d => d.Email == u1.Email) hdb (fun _ => rfl)
  unfold User.Save
  rw [← hcf]
  cases u1.checkFields with
  | some e => exact ⟨rfl, hu⟩
  | none =>
    simp only [User.ByEmail, Datastore.UserEmailExists, Datastore.UserByEmail, Collection.One,
      ← hem, ← hid]
    cases h1 : db1.find? (fun d => d.Email == u1.Email) with
    | none =>
      cases h2 : db2.find? (fun d => d.Email == u1.Email) with
      | some d2 => simp [h1, h2] at hf
      | none =>
        simp only [Option.isNone_some, Bool.false_and, Bool.false_eq_true, if_false]
        cases hv : u1.ID.Valid
        · simp only [Bool.not_false, if_true, Bool.false_eq_true, if_false]
          by_cases hp1 : u1.Password = "" <;> by_cases hp2 : u2.Password = "" <;>
            simp [User.masked, hfn, hln, hem, hid, hlk, hcat, hse, hno, hp1, hp2]
        · simp only [Bool.not_true, Bool.false_eq_true, if_false]
          simp [User.masked, hfn, hln, hem, hid, hlk, hcat, hse, hno]
    | some d1 =>
      cases h2 : db2.find? (fun d => d.Email == u1.Email) with
      | none => simp [h1, h2] at hf
      | some d2 =>
        simp only [h1, h2, Option.map_some', Option.some.injEq] at hf
        have hd : d1.ID = d2.ID := (masked_fields d1 d2 hf).1
        simp only [Option.isNone_none, Bool.true_and, ← hd]
        cases hne : (d1.ID != u1.ID)
        · simp only [Bool.false_eq_true, if_false]
          cases hv : u1.ID.Valid
          · simp only [Bool.not_false, if_true]
            simp [User.masked, hfn, hln, hem, hid, hlk, hcat, hse, hno]
          · simp only [Bool.not_true, Bool.false_eq_true, if_false]
            simp [User.masked, hfn, hln, hem, hid, hlk, hcat, hse, hno]
        · simp only [if_true]
          simp [User.masked, hfn, hln, hem, hid, hlk, hcat, hse, hno]

theorem applyUpdate_masked (env : Env) (u1 u2 : User) (update : bson.M)
    (hu : u1.masked = u2.masked) :
    (u1.applyUpdate env update = none ∧ u2.applyUpdate env update = none) ∨
    ∃ v1 v2, u1.applyUpdate env update = some v1 ∧ u2.applyUpdate env update = some v2 ∧
      v1.masked = v2.masked := by
  obtain ⟨hid, hfn, hln, hem, hlk, hcat, hse, hno⟩ := masked_fields u1 u2 hu
  rcases applyUpdate_uniform env update with hg | hb
  · refine Or.inr ⟨_, _, hg u1, hg u2, ?_⟩
    simp [User.masked, hfn, hln, hem, hid, hlk, hcat, hse, hno]
  · exact Or.inl ⟨hb u1, hb u2⟩

theorem SavePartial_masked (env : Env) (clock : String) (fresh : ObjectId)
    (db1 db2 : Collection) (u1 u2 : User) (update : bson.M)
    (hu : u1.masked = u2.masked) (hdb : db1.masked = db2.masked) :
    (u1.SavePartial env clock fresh db1 update = none ∧
      u2.SavePartial env clock fresh db2 update = none) ∨
    ∃ o1 o2, u1.SavePartial env clock fresh db1 update = some o1 ∧
      u2.SavePartial env clock fresh db2 update = some o2 ∧
      o1.err = o2.err ∧ o1.u.masked = o2.u.masked := by
  unfold User.SavePartial
  rcases applyUpdate_masked env u1 u2 update hu with ⟨h1, h2⟩ | ⟨v1, v2, h1, h2, ha⟩
  · left
    rw [h1, h2]
    exact ⟨rfl, rfl⟩
  · rw [h1, h2]
    simp only [Option.some_bind]
    rcases update "notification" with _ | x
    · right
      exact ⟨_, _, rfl, rfl, Save_masked env clock fresh db1 db2 _ _ ha hdb⟩
    · dsimp only
      rcases x.assertString with _ | s
      · left
        exact ⟨rfl, rfl⟩
      · right
        refine ⟨_, _, rfl, rfl, ?_⟩
        beta_reduce
        cases Parse s with
        | error e => exact ⟨rfl, ha⟩
        | ok t =>
          dsimp only
          apply Save_masked env clock fresh db1 db2 _ _ _ hdb
          obtain ⟨hid, hfn, hln, hem, hlk, hcat, hse, hno⟩ := masked_fields _ _ ha
          simp [User.masked, hfn, hln, hem, hid, hlk, hcat, hse]

theorem SaveSearch_masked (env : Env) (now : Time) (db1 db2 : Collection) (u1 u2 : User)
    (query : String) (hu : u1.masked = u2.masked) (hdb : db1.masked = db2.masked) :
    (u1.SaveSearch env now db1 query).err = (u2.SaveSearch env now db2 query).err ∧
    (u1.SaveSearch env now db1 query).u.masked = (u2.SaveSearch env now db2 query).u.masked := by
  obtain ⟨hid, hfn, hln, hem, hlk, hcat, hse, hno⟩ := masked_fields u1 u2 hu
  have hany := any_masked db1 db2 (fun d => d.ID == u1.ID) hdb (fun _ => rfl)
  have hex : u1.SearchExists env query = u2.SearchExists env query := by
    unfold User.SearchExists
    rw [hse]
  unfold User.SaveSearch Collection.Update
  rw [← hex, ← hid, ← hany]
  cases u1.SearchExists env query
  · cases db1.any (fun d => d.ID == u1.ID)
    · simp [User.masked, hfn, hln, hem, hid, hlk, hcat, hse, hno]
    · simp [User.masked, hfn, hln, hem, hid, hlk, hcat, hse, hno]
  · simp [User.masked, hfn, hln, hem, hid, hlk, hcat, hse, hno]

theorem DeleteSearch_masked (env : Env) (now : Time) (db1 db2 : Collection) (u1 u2 : User)
    (query : String) (hu : u1.masked = u2.masked) (hdb : db1.masked = db2.masked) :
    (u1.DeleteSearch env now db1 query).err = (u2.DeleteSearch env now db2 query).err ∧
    (u1.DeleteSearch env now db1 query).u.masked =
      (u2.DeleteSearch env now db2 query).u.masked := by
  obtain ⟨hid, hfn, hln, hem, hlk, hcat, hse, hno⟩ := masked_fields u1 u2 hu
  have hany := any_masked db1 db2 (fun d => d.ID == u1.ID) hdb (fun _ => rfl)
  have hex : u1.SearchExists env query = u2.SearchExists env query := by
    unfold User.SearchExists
    rw [hse]
  unfold User.DeleteSearch Collection.Update
  rw [← hex, ← hid, ← hany]
  cases u1.SearchExists env query
  · simp [User.masked, hfn, hln, hem, hid, hlk, hcat, hse, hno]
  · cases db1.any (fun d => d.ID == u1.ID)
    · simp [User.masked, hfn, hln, hem, hid, hlk, hcat, hse, hno]
    · simp [User.masked, hfn, hln, hem, hid, hlk, hcat, hse, hno]

/-! ## The password in the responses -/

theorem respondJSON_null_masked (status : Nat) (err : Option Error) :
    (respondJSON status .null err).Masked := by
  intro u hb
  cases err <;> simp [respondJSON] at hb

theorem respondJSON_user_masked (status : Nat) (u0 : User) (err : Option Error) :
    (respondJSON status (.user { u0 with Password := PasswordMask }) err).Masked := by
  intro u hb
  cases err with
  | some e => simp [respondJSON] at hb
  | none =>
    simp only [respondJSON, Body.json.injEq, Data.user.injEq] at hb
    rw [← hb]

theorem respondNotFoundOrBadRequest_masked (err : Option Error) :
    ∀ r ∈ respondNotFoundOrBadRequest err, r.Masked := by
  intro r hr
  unfold respondNotFoundOrBadRequest at hr
  split at hr
  · rw [List.mem_singleton.1 hr]
    exact respondJSON_null_masked _ _
  · cases err with
    | none => simp at hr
    | some e =>
      rw [List.mem_singleton.1 hr]
      exact respondJSON_null_masked _ _

theorem addUserHandler_masked (env : Env) (clock : String) (fresh : ObjectId)
    (db : Collection) (body : Except Error User) :
    (addUserHandler env clock fresh db body).Masked := by
  unfold addUserHandler Handled.Masked
  cases body with
  | error e => simp [respondJSON_null_masked]
  | ok u =>
    dsimp only
    cases (u.Save env clock fresh db).err <;>
      simp [respondJSON_null_masked, respondJSON_user_masked]

theorem userByIDHandler_masked (db : Collection) (id : String) :
    (userByIDHandler db id).Masked := by
  unfold userByIDHandler Handled.Masked
  have hw : ∀ (e : Option Error) (r : Response), r ∈ ((match e with
      | some err => respondNotFoundOrBadRequest (some err)
      | none => []) : List Response) → r.Masked := by
    intro e r hr
    cases e with
    | none => simp at hr
    | some err => exact respondNotFoundOrBadRequest_masked _ r hr
  split
  · simp [respondJSON_null_masked]
  · dsimp only
    cases (Datastore.UserByID db id).1 with
    | none => exact hw _
    | some u =>
      intro r hr
      rcases List.mem_append.1 hr with h | h
      · exact hw _ r h
      · rw [List.mem_singleton.1 h]
        exact respondJSON_user_masked _ _ _

theorem userByTokenHandler_masked (db : Collection) (userID : String) :
    (userByTokenHandler db userID).Masked := by
  unfold userByTokenHandler Handled.Masked
  have hw : ∀ (e : Option Error) (r : Response), r ∈ ((match e with
      | some err => [respondJSON 500 .null (some err)]
      | none => []) : List Response) → r.Masked := by
    intro e r hr
    cases e with
    | none => simp at hr
    | some err =>
      rw [List.mem_singleton.1 hr]
      exact respondJSON_null_masked _ _
  dsimp only
  cases (Datastore.UserByID db userID).1 with
  | none => exact hw _
  | some u =>
    intro r hr
    rcases List.mem_append.1 hr with h | h
    · exact hw _ r h
    · rw [List.mem_singleton.1 h]
      exact respondJSON_user_masked _ _ _

theorem updateUserHandler_masked (env : Env) (clock : String) (fresh : ObjectId)
    (db : Collection) (userID : String) (body : Except Error bson.M) :
    (updateUserHandler env clock fresh db userID body).Masked := by
  unfold updateUserHandler Handled.Masked
  split
  · simp [respondJSON_null_masked]
  · split
    · simp [respondJSON_null_masked]
    · split
      · simp
      · split
        · simp
        · split <;> simp [respondJSON_null_masked, respondJSON_user_masked]

theorem saveSearchHandler_masked (env : Env) (now : Time) (db : Collection) (userID : String)
    (body : Except Error Search) :
    (saveSearchHandler env now db userID body).Masked := by
  unfold saveSearchHandler Handled.Masked
  split
  · simp [respondJSON_null_masked]
  · split
    · simp [respondJSON_null_masked]
    · split
      · simp
      · dsimp only
        split <;> simp [respondJSON_null_masked, respondJSON_user_masked]

theorem deleteSearchHandler_masked (env : Env) (now : Time) (db : Collection)
    (userID : String) (body : Except Error Search) :
    (deleteSearchHandler env now db userID body).Masked := by
  unfold deleteSearchHandler Handled.Masked
  split
  · simp [respondJSON_null_masked]
  · split
    · simp [respondJSON_null_masked]
    · split
      · simp
      · dsimp only
        split <;> simp [respondJSON_null_masked, respondJSON_user_masked]

theorem userConfirmationHandler_masked (env : Env) (now1 now2 : Time) (clock : String)
    (fresh : ObjectId) (db : Collection) (id key : String) :
    (userConfirmationHandler env now1 now2 clock fresh db id key).Masked := by
  unfold userConfirmationHandler Handled.Masked
  split
  · simp [respondJSON_null_masked]
  · simp [respondJSON_null_masked]
  · simp
  · split
    · simp [respondJSON_null_masked]
    · dsimp only
      intro r hr
      rcases List.mem_append.1 hr with h | h
      · split at h
        · rw [List.mem_singleton.1 h]
          exact respondJSON_null_masked _ _
        · simp at h
      · rw [List.mem_singleton.1 h]
        exact respondJSON_user_masked _ _ _

theorem masked_eq_with (u : User) : ({ u with Password := PasswordMask } : User) = u.masked :=
  rfl

theorem option_masked_cases (r1 r2 : Option User)
    (hu : r1.map User.masked = r2.map User.masked) :
    (r1 = none ∧ r2 = none) ∨
      ∃ u1 u2, r1 = some u1 ∧ r2 = some u2 ∧ u1.masked = u2.masked := by
  cases r1 with
  | none =>
    cases r2 with
    | none => exact Or.inl ⟨rfl, rfl⟩
    | some u2 => simp at hu
  | some u1 =>
    cases r2 with
    | none => simp at hu
    | some u2 =>
      simp only [Option.map_some', Option.some.injEq] at hu
      exact Or.inr ⟨u1, u2, rfl, rfl, hu⟩

theorem userByIDHandler_same (db1 db2 : Collection) (id : String)
    (h : db1.masked = db2.masked) :
    (userByIDHandler db1 id).writes = (userByIDHandler db2 id).writes := by
  obtain ⟨he, hu⟩ := UserByID_masked db1 db2 id h
  unfold userByIDHandler
  split
  · rfl
  · dsimp only
    rw [← he]
    rcases option_masked_cases _ _ hu with ⟨h1, h2⟩ | ⟨u1, u2, h1, h2, hm⟩
    · simp only [h1, h2]
    · simp only [h1, h2, masked_eq_with, hm]

theorem userByTokenHandler_same (db1 db2 : Collection) (userID : String)
    (h : db1.masked = db2.masked) :
    (userByTokenHandler db1 userID).writes = (userByTokenHandler db2 userID).writes := by
  obtain ⟨he, hu⟩ := UserByID_masked db1 db2 userID h
  unfold userByTokenHandler
  dsimp only
  rw [← he]
  rcases option_masked_cases _ _ hu with ⟨h1, h2⟩ | ⟨u1, u2, h1, h2, hm⟩
  · simp only [h1, h2]
  · simp only [h1, h2, masked_eq_with, hm]

theorem addUserHandler_same (env : Env) (clock : String) (fresh : ObjectId)
    (db1 db2 : Collection) (u1 u2 : User)
    (hu : u1.masked = u2.masked) (h : db1.masked = db2.masked) :
    (addUserHandler env clock fresh db1 (.ok u1)).writes =
      (addUserHandler env clock fresh db2 (.ok u2)).writes := by
  obtain ⟨he, hm⟩ := Save_masked env clock fresh db1 db2 u1 u2 hu h
  unfold addUserHandler
  dsimp only
  rw [← he]
  cases (u1.Save env clock fresh db1).err with
  | some e => rfl
  | none => simp only [masked_eq_with, hm]

theorem updateUserHandler_same (env : Env) (clock : String) (fresh : ObjectId)
    (db1 db2 : Collection) (userID : String) (body : Except Error bson.M)
    (h : db1.masked = db2.masked) :
    (updateUserHandler env clock fresh db1 userID body).writes =
      (updateUserHandler env clock fresh db2 userID body).writes := by
  obtain ⟨he, hu⟩ := UserByID_masked db1 db2 userID h
  unfold updateUserHandler
  rcases hr1 : Datastore.UserByID db1 userID with ⟨r1, e1⟩
  rcases hr2 : Datastore.UserByID db2 userID with ⟨r2, e2⟩
  rw [hr1, hr2] at he hu
  dsimp only at he hu
  subst he
  cases e1 with
  | some e => rfl
  | none =>
    dsimp only
    cases body with
    | error e => rfl
    | ok update =>
      dsimp only
      rcases option_masked_cases r1 r2 hu with ⟨h1, h2⟩ | ⟨u1, u2, h1, h2, hm⟩
      · subst h1 h2
        rfl
      · subst h1 h2
        dsimp only
        rcases SavePartial_masked env clock fresh db1 db2 u1 u2 update hm h with
          ⟨hn1, hn2⟩ | ⟨o1, o2, ho1, ho2, hE, hM⟩
        · rw [hn1, hn2]
        · rw [ho1, ho2]
          dsimp only
          rw [← hE]
          cases o1.err with
          | some e => rfl
          | none => simp only [masked_eq_with, hM]

theorem saveSearchHandler_same (env : Env) (now : Time) (db1 db2 : Collection)
    (userID : String) (body : Except Error Search) (h : db1.masked = db2.masked) :
    (saveSearchHandler env now db1 userID body).writes =
      (saveSearchHandler env now db2 userID body).writes := by
  obtain ⟨he, hu⟩ := UserByID_masked db1 db2 userID h
  unfold saveSearchHandler
  rcases hr1 : Datastore.UserByID db1 userID with ⟨r1, e1⟩
  rcases hr2 : Datastore.UserByID db2 userID with ⟨r2, e2⟩
  rw [hr1, hr2] at he hu
  dsimp only at he hu
  subst he
  cases e1 with
  | some e => rfl
  | none =>
    dsimp only
    cases body with
    | error e => rfl
    | ok s =>
      dsimp only
      rcases option_masked_cases r1 r2 hu with ⟨h1, h2⟩ | ⟨u1, u2, h1, h2, hm⟩
      · subst h1 h2
        rfl
      · subst h1 h2
        dsimp only
        obtain ⟨hE, hM⟩ := SaveSearch_masked env now db1 db2 u1 u2 s.Query hm h
        rw [← hE]
        cases (u1.SaveSearch env now db1 s.Query).err with
        | some e => rfl
        | none => simp only [masked_eq_with, hM]

theorem deleteSearchHandler_same (env : Env) (now : Time) (db1 db2 : Collection)
    (userID : String) (body : Except Error Search) (h : db1.masked = db2.masked) :
    (deleteSearchHandler env now db1 userID body).writes =
      (deleteSearchHandler env now db2 userID body).writes := by
  obtain ⟨he, hu⟩ := UserByID_masked db1 db2 userID h
  unfold deleteSearchHandler
  rcases hr1 : Datastore.UserByID db1 userID with ⟨r1, e1⟩
  rcases hr2 : Datastore.UserByID db2 userID with ⟨r2, e2⟩
  rw [hr1, hr2] at he hu
  dsimp only at he hu
  subst he
  cases e1 with
  | some e => rfl
  | none =>
    dsimp only
    cases body with
    | error e => rfl
    | ok s =>
      dsimp only
      rcases option_masked_cases r1 r2 hu with ⟨h1, h2⟩ | ⟨u1, u2, h1, h2, hm⟩
      · subst h1 h2
        rfl
      · subst h1 h2
        dsimp only
        obtain ⟨hE, hM⟩ := DeleteSearch_masked env now db1 db2 u1 u2 s.Query hm h
        rw [← hE]
        cases (u1.DeleteSearch env now db1 s.Query).err with
        | some e => rfl
        | none => simp only [masked_eq_with, hM]

theorem userConfirmationHandler_same (env : Env) (now1 now2 : Time) (clock : String)
    (fresh : ObjectId) (db1 db2 : Collection) (id key1 key2 : String)
    (h : db1.masked = db2.masked)
    (hkey : ∀ u1 u2 : User, Datastore.UserByID db1 id = (some u1, none) →
      Datastore.UserByID db2 id = (some u2, none) →
      (key1 = u1.KeyGen env now1 now2 ↔ key2 = u2.KeyGen env now1 now2)) :
    (userConfirmationHandler env now1 now2 clock fresh db1 id key1).writes =
      (userConfirmationHandler env now1 now2 clock fresh db2 id key2).writes := by
  obtain ⟨he, hu⟩ := UserByID_masked db1 db2 id h
  rcases hr1 : Datastore.UserByID db1 id with ⟨r1, e1⟩
  rcases hr2 : Datastore.UserByID db2 id with ⟨r2, e2⟩
  rw [hr1, hr2] at he hu
  dsimp only at he hu
  subst he
  cases e1 with
  | some e =>
    unfold userConfirmationHandler
    rw [hr1, hr2]
    cases e <;> cases r1 <;> cases r2 <;> rfl
  | none =>
    rcases option_masked_cases r1 r2 hu with ⟨h1, h2⟩ | ⟨u1, u2, h1, h2, hm⟩
    · subst h1 h2
      unfold userConfirmationHandler
      rw [hr1, hr2]
    · subst h1 h2
      rw [userConfirmationHandler_found env now1 now2 clock fresh db1 id key1 u1 hr1,
        userConfirmationHandler_found env now1 now2 clock fresh db2 id key2 u2 hr2]
      have hk := hkey u1 u2 hr1 hr2
      have hlm : ({ u1 with Locked := false } : User).masked =
          ({ u2 with Locked := false } : User).masked := by
        obtain ⟨hid, hfn, hln, hem, hlk, hcat, hse, hno⟩ := masked_fields u1 u2 hm
        simp [User.masked, hfn, hln, hem, hid, hcat, hse, hno]
      obtain ⟨hE, hM⟩ := Save_masked env clock fresh db1 db2 _ _ hlm h
      by_cases hk1 : key1 = u1.KeyGen env now1 now2
      · have hk2 := hk.1 hk1
        rw [if_neg (by simpa using hk1), if_neg (by simpa using hk2)]
        dsimp only
        rw [← hE]
        simp only [masked_eq_with, hM]
      · have hk2 : ¬ key2 = u2.KeyGen env now1 now2 := fun hc => hk1 (hk.2 hc)
        rw [if_pos (by simpa using hk1), if_pos (by simpa using hk2)]

/-! ## The key and the password -/

theorem hexDigit_injective_fin : ∀ i j : Fin 16, hexDigit i.val = hexDigit j.val → i = j := by
  decide

theorem hexByte_injective (a b : Byte) (h : hexByte a = hexByte b) : a = b := by
  simp only [hexByte, List.cons.injEq, and_true] at h
  have ha : a.val < 256 := a.isLt
  have hb : b.val < 256 := b.isLt
  have h1 := hexDigit_injective_fin ⟨a.val / 16, by omega⟩ ⟨b.val / 16, by omega⟩ h.1
  have h2 := hexDigit_injective_fin ⟨a.val % 16, by omega⟩ ⟨b.val % 16, by omega⟩ h.2
  simp only [Fin.mk.injEq] at h1 h2
  apply Fin.ext
  omega

theorem hexString_injective : ∀ a b : List Byte, hexString a = hexString b → a = b
  | [], [], _ => rfl
  | [], b :: bs, h => by
    have := congrArg String.length h
    simp [hexString_length] at this
  | a :: as, [], h => by
    have := congrArg String.length h
    simp [hexString_length] at this
  | a :: as, b :: bs, h => by
    have hd := congrArg String.data h
    simp only [hexString, List.flatMap_cons, hexByte, List.cons_append, List.nil_append,
      List.cons.injEq] at hd
    obtain ⟨h1, h2, h3⟩ := hd
    have hab : a = b := hexByte_injective a b (by simp [hexByte, h1, h2])
    have hrest : as = bs := hexString_injective as bs (by simp [hexString, h3])
    rw [hab, hrest]

theorem KeyGen_eq_iff (env : Env) (now1 now2 : Time) (u1 u2 : User) :
    u1.KeyGen env now1 now2 = u2.KeyGen env now1 now2 ↔
      env.sum256 (u1.KeyGen_s env now1 now2) = env.sum256 (u2.KeyGen_s env now1 now2) := by
  constructor
  · intro h
    unfold User.KeyGen at h
    exact Mathlib.Vector.toList_injective (hexString_injective _ _ h)
  · intro h
    unfold User.KeyGen
    dsimp only
    rw [h]

/-- C26 (counterexample): two stores that hold the same user except for the
password, and one confirmation request with the key of the first user. The
first store answers 200 with the (masked) user, the second 400 "invalid key":
the response bodies are not identical. The same happens under every digest
function that separates the two strings that `KeyGen` hashes. -/
theorem C26_counterexample :
    Collection.masked [sampleUser sampleId []] =
      Collection.masked [{ sampleUser sampleId [] with Password := "0000" }] ∧
    (userConfirmationHandler sampleEnv 1541152800000000000 1541152800000000000
        "2018-11-02 10:00:00 +0000 UTC" freshId [sampleUser sampleId []]
        "070707070707070707070707"
        ((sampleUser sampleId []).KeyGen sampleEnv 1541152800000000000
          1541152800000000000)).writes =
      [⟨200, .json (.user { sampleUser sampleId [] with
        Locked := false, Password := PasswordMask })⟩] ∧
    (userConfirmationHandler sampleEnv 1541152800000000000 1541152800000000000
        "2018-11-02 10:00:00 +0000 UTC" freshId
        [{ sampleUser sampleId [] with Password := "0000" }]
        "070707070707070707070707"
        ((sampleUser sampleId []).KeyGen sampleEnv 1541152800000000000
          1541152800000000000)).writes =
      [⟨400, .error (.New "invalid key")⟩] ∧
    (∀ (env : Env) (now1 now2 : Time) (clock : String) (fresh : ObjectId) (u1 u2 : User)
      (id : String),
      Datastore.UserByID [u1] id = (some u1, none) →
      Datastore.UserByID [u2] id = (some u2, none) →
      env.sum256 (u1.KeyGen_s env now1 now2) ≠ env.sum256 (u2.KeyGen_s env now1 now2) →
      (userConfirmationHandler env now1 now2 clock fresh [u1] id
          (u1.KeyGen env now1 now2)).writes ≠
        (userConfirmationHandler env now1 now2 clock fresh [u2] id
          (u1.KeyGen env now1 now2)).writes) := by
  refine ⟨by decide, by decide, by decide, ?_⟩
  intro env now1 now2 clock fresh u1 u2 id h1 h2 hsep
  rw [userConfirmationHandler_found env now1 now2 clock fresh [u1] id _ u1 h1,
    userConfirmationHandler_found env now1 now2 clock fresh [u2] id _ u2 h2]
  have hk : u1.KeyGen env now1 now2 ≠ u2.KeyGen env now1 now2 :=
    fun hc => hsep ((KeyGen_eq_iff env now1 now2 u1 u2).1 hc)
  rw [if_neg (by simp), if_pos (by simpa using hk)]
  intro hw
  have hlast := congrArg List.getLast? hw
  simp [respondJSON] at hlast

/-- C26 (amended): in every handler that serialises a user (add user, user by
id, user by token, update user, save search, delete search, confirm), every
user written as `data` has the password `PasswordMask`. So for two stores
that differ only in passwords (and, for add user, two submitted users that
differ only in the password) the responses of add user, user by id, user by
token, update user, save search and delete search to one request are
identical; those of confirm are identical when the keys supplied are both the
recomputed key of the stored user or both not. -/
theorem C26_password_masked (env : Env) (clock : String) (fresh : ObjectId)
    (now now1 now2 : Time) (db1 db2 : Collection) (u1 u2 : User)
    (id userID key1 key2 : String) (user : Except Error User)
    (update : Except Error bson.M) (search : Except Error Search)
    (hdb : db1.masked = db2.masked) (hu : u1.masked = u2.masked) :
    ((addUserHandler env clock fresh db1 user).Masked ∧
      (userByIDHandler db1 id).Masked ∧
      (userByTokenHandler db1 userID).Masked ∧
      (updateUserHandler env clock fresh db1 userID update).Masked ∧
      (saveSearchHandler env now db1 userID search).Masked ∧
      (deleteSearchHandler env now db1 userID search).Masked ∧
      (userConfirmationHandler env now1 now2 clock fresh db1 id key1).Masked) ∧
    ((addUserHandler env clock fresh db1 (.ok u1)).writes =
        (addUserHandler env clock fresh db2 (.ok u2)).writes ∧
      (userByIDHandler db1 id).writes = (userByIDHandler db2 id).writes ∧
      (userByTokenHandler db1 userID).writes = (userByTokenHandler db2 userID).writes ∧
      (updateUserHandler env clock fresh db1 userID update).writes =
        (updateUserHandler env clock fresh db2 userID update).writes ∧
      (saveSearchHandler env now db1 userID search).writes =
        (saveSearchHandler env now db2 userID search).writes ∧
      (deleteSearchHandler env now db1 userID search).writes =
        (deleteSearchHandler env now db2 userID search).writes) ∧
    ((∀ v1 v2 : User, Datastore.UserByID db1 id = (some v1, none) →
        Datastore.UserByID db2 id = (some v2, none) →
        (key1 = v1.KeyGen env now1 now2 ↔ key2 = v2.KeyGen env now1 now2)) →
      (userConfirmationHandler env now1 now2 clock fresh db1 id key1).writes =
        (userConfirmationHandler env now1 now2 clock fresh db2 id key2).writes) :=
  ⟨⟨addUserHandler_masked env clock fresh db1 user,
      userByIDHandler_masked db1 id,
      userByTokenHandler_masked db1 userID,
      updateUserHandler_masked env clock fresh db1 userID update,
      saveSearchHandler_masked env now db1 userID search,
      deleteSearchHandler_masked env now db1 userID search,
      userConfirmationHandler_masked env now1 now2 clock fresh db1 id key1⟩,
    ⟨addUserHandler_same env clock fresh db1 db2 u1 u2 hu hdb,
      userByIDHandler_same db1 db2 id hdb,
      userByTokenHandler_same db1 db2 userID hdb,
      updateUserHandler_same env clock fresh db1 db2 userID update hdb,
      saveSearchHandler_same env now db1 db2 userID search hdb,
      deleteSearchHandler_same env now db1 db2 userID search hdb⟩,
    userConfirmationHandler_same env now1 now2 clock fresh db1 db2 id key1 key2 hdb⟩

/-- C26 (witness): two stores with the user 070707070707070707070707, the
passwords different; `GET /users/{id}` answers both with the same body, the
user with the masked password. -/
theorem C26_password_masked_witness :
    (userByIDHandler [sampleUser sampleId []] "070707070707070707070707").writes =
      (userByIDHandler [{ sampleUser sampleId [] with Password := "0000" }]
        "070707070707070707070707").writes ∧
    (userByIDHandler [sampleUser sampleId []] "070707070707070707070707").writes =
      [⟨200, .json (.user { sampleUser sampleId [] with Password := "********" })⟩] :=
  ⟨(C26_password_masked sampleEnv "2018-11-02 10:00:00 +0000 UTC" freshId
      1541152800000000000 1541152800000000000 1541152800000000000
      [sampleUser sampleId []] [{ sampleUser sampleId [] with Password := "0000" }]
      (mike ⟨[]⟩ "abc") (mike ⟨[]⟩ "xyz") "070707070707070707070707"
      "070707070707070707070707" "k" "k" (.ok (mike ⟨[]⟩ "abc"))
      (.ok emptyUpdate) (.ok ⟨0, "statin"⟩)
      (by decide) (by decide)).2.1.2.1,
    by decide⟩

end Rtcl
